import Mathlib

/-!
# The Clay "introductory video" demo without the macro API

A shallow embedding of `src/main.cpp`.

* The program's globals (`clayStringBuffers`, `documents`, `selectedDocumentIndex`,
  `framecount`, the definition latch of the `for` idiom) are the fields of `World`.
* Every call the program makes into a library (Clay, raylib, the vector that owns the
  string buffers) is appended to `World.calls`, in program order.
* The answers of the library that the program branches on (`Clay_PointerOver`,
  `Clay_Hovered`) and the functions of `clay.h` whose code is not part of `src/`
  (`Clay__HashString`, `Clay_GetElementId`, `Clay_EndLayout`) are the fields of `Env`.
* Undefined behaviour of the C++ program (signed overflow of a loop counter, an array
  read outside the array) is a `Fault`; `buildLayoutTraced` is `buildLayout` with the world
  in which a fault is reached kept next to the fault.
-/

namespace ClayDemo

/-! ## Characters, machine integers, strings -/

/-- The terminator of a C string. -/
def NUL : Char := Char.ofNat 0

/-- The value of `static_cast<int32_t>(n)` for a `size_t` value `n`. -/
def toInt32 (n : Nat) : Int :=
  if n % 2 ^ 32 < 2 ^ 31 then ((n % 2 ^ 32 : Nat) : Int) else ((n % 2 ^ 32 : Nat) : Int) - 2 ^ 32

/-- The value of an `int` converted to `uint32_t` (the usual arithmetic conversion of
`i < documents.length` and `i == selectedDocumentIndex`). -/
def toUInt32 (i : Int) : Nat := (i % 2 ^ 32).toNat

/-- The largest `int`. -/
def INT_MAX : Int := 2 ^ 31 - 1

/-- A `const char*`: either the array of a string literal (static storage, the array itself
is the identity of the pointer), or the array owned by the `unique_ptr` in slot `slot` of
`clayStringBuffers`. -/
inductive CharPtr where
  | literal (storage : List Char)
  | buffer (slot : Nat)
deriving DecidableEq, Repr

/-- The struct `Clay_String` of `clay.h`: an `int32_t length` and a `const char *chars`. -/
structure Clay_String where
  length : Int
  chars : CharPtr
deriving DecidableEq, Repr

/-- The result of `str.c_str()`: the characters of the `std::string` and a terminator. -/
def c_str (str : List Char) : List Char := str ++ [NUL]

/-- The result of `std::make_unique<char[]>(n)`: `n` value-initialised characters. -/
def make_unique (n : Nat) : List Char := List.replicate n NUL

/-- The array `dst` after `std::strcpy(dst, src)`: the characters of `src` are copied up to
and including its first terminator, the rest of `dst` keeps its content (`dst` is never
shorter than the copied part in this program). -/
def strcpy : List Char → List Char → List Char
  | _ :: ds, c :: cs => if c = NUL then NUL :: ds else c :: strcpy ds cs
  | ds, [] => ds
  | [], _ :: _ => []

/-! ## Configuration records (the fields `src/main.cpp` writes) -/

/-- A `float` that the program only passes on: its bit pattern. -/
structure CFloat where
  bits : Nat
deriving DecidableEq, Repr

/-- The struct `Clay_Dimensions`. -/
structure Clay_Dimensions where
  width : CFloat
  height : CFloat
deriving DecidableEq, Repr

/-- The struct `Clay_Vector2`. -/
structure Clay_Vector2 where
  x : CFloat
  y : CFloat
deriving DecidableEq, Repr

/-- The enum of sizing types; a zero-initialised axis is `FIT`. -/
inductive Clay__SizingType where
  | CLAY__SIZING_TYPE_FIT
  | CLAY__SIZING_TYPE_GROW
  | CLAY__SIZING_TYPE_PERCENT
  | CLAY__SIZING_TYPE_FIXED
deriving DecidableEq, Repr

/-- The struct `Clay_SizingAxis`: `.size.minMax` and `.type` (the numbers written in the
source are small naturals). -/
structure Clay_SizingAxis where
  min : Nat := 0
  max : Nat := 0
  type : Clay__SizingType := .CLAY__SIZING_TYPE_FIT
deriving DecidableEq, Repr

/-- The struct `Clay_Sizing`. -/
structure Clay_Sizing where
  width : Clay_SizingAxis := {}
  height : Clay_SizingAxis := {}
deriving DecidableEq, Repr

/-- The struct `Clay_Padding`, four numbers as the source writes them. -/
structure Clay_Padding where
  p0 : Nat := 0
  p1 : Nat := 0
  p2 : Nat := 0
  p3 : Nat := 0
deriving DecidableEq, Repr

/-- The enum of layout directions. -/
inductive Clay_LayoutDirection where
  | CLAY_LEFT_TO_RIGHT
  | CLAY_TOP_TO_BOTTOM
deriving DecidableEq, Repr

/-- The enum of vertical alignments. -/
inductive Clay_LayoutAlignmentY where
  | CLAY_ALIGN_Y_TOP
  | CLAY_ALIGN_Y_BOTTOM
  | CLAY_ALIGN_Y_CENTER
deriving DecidableEq, Repr

/-- The struct `Clay_LayoutConfig`. -/
structure Clay_LayoutConfig where
  sizing : Clay_Sizing := {}
  padding : Clay_Padding := {}
  childGap : Nat := 0
  childAlignmentY : Clay_LayoutAlignmentY := .CLAY_ALIGN_Y_TOP
  layoutDirection : Clay_LayoutDirection := .CLAY_LEFT_TO_RIGHT
deriving DecidableEq, Repr

/-- The struct `Clay_Color`. -/
structure Clay_Color where
  r : Nat := 0
  g : Nat := 0
  b : Nat := 0
  a : Nat := 0
deriving DecidableEq, Repr

/-- The struct `Clay_RectangleElementConfig`. -/
structure Clay_RectangleElementConfig where
  color : Clay_Color := {}
  cornerRadius : Nat := 0
deriving DecidableEq, Repr

/-- The enum of attach points (the two the source can produce). -/
inductive Clay_FloatingAttachPointType where
  | CLAY_ATTACH_POINT_LEFT_TOP
  | CLAY_ATTACH_POINT_LEFT_BOTTOM
deriving DecidableEq, Repr

/-- The struct `Clay_FloatingElementConfig`: `.attachment.element` and `.attachment.parent`. -/
structure Clay_FloatingElementConfig where
  attachElement : Clay_FloatingAttachPointType := .CLAY_ATTACH_POINT_LEFT_TOP
  attachParent : Clay_FloatingAttachPointType := .CLAY_ATTACH_POINT_LEFT_TOP
deriving DecidableEq, Repr

/-- The struct `Clay_ScrollElementConfig`. -/
structure Clay_ScrollElementConfig where
  horizontal : Bool := false
  vertical : Bool := false
deriving DecidableEq, Repr

/-- The struct `Clay_TextElementConfig`. -/
structure Clay_TextElementConfig where
  textColor : Clay_Color := {}
  fontId : Nat := 0
  fontSize : Nat := 0
deriving DecidableEq, Repr

/-- The struct `Clay_ElementId`: the numeric identifier. -/
structure Clay_ElementId where
  id : Nat
deriving DecidableEq, Repr

/-- The enum `Clay__ElementConfigType`, the categories the source attaches with
`Clay__AttachElementConfig`. -/
inductive Clay__ElementConfigType where
  | CLAY__ELEMENT_CONFIG_TYPE_RECTANGLE
  | CLAY__ELEMENT_CONFIG_TYPE_FLOATING_CONTAINER
  | CLAY__ELEMENT_CONFIG_TYPE_SCROLL_CONTAINER
deriving DecidableEq, Repr

/-- A pointer returned by one of the `Clay__Store...Config` functions: the position of the
record in the storage of its category. -/
structure Handle where
  index : Nat
deriving DecidableEq, Repr

/-- The union `Clay_ElementConfigUnion`: the member that the source initialises. -/
inductive Clay_ElementConfigUnion where
  | rectangleElementConfig (h : Handle)
  | floatingElementConfig (h : Handle)
  | scrollElementConfig (h : Handle)
deriving DecidableEq, Repr

/-- The states of `Clay_PointerData.state`. -/
inductive Clay_PointerDataInteractionState where
  | CLAY_POINTER_DATA_PRESSED_THIS_FRAME
  | CLAY_POINTER_DATA_PRESSED
  | CLAY_POINTER_DATA_RELEASED_THIS_FRAME
  | CLAY_POINTER_DATA_RELEASED
deriving DecidableEq, Repr

/-- The struct `Clay_PointerData`. -/
structure Clay_PointerData where
  position : Clay_Vector2
  state : Clay_PointerDataInteractionState
deriving DecidableEq, Repr

/-- The functions the program passes to `Clay_OnHover`. -/
inductive HoverFunction where
  | HandleSidebarInteraction
deriving DecidableEq, Repr

/-- The struct `Clay_RenderCommandArray` that `Clay_EndLayout` returns. -/
structure Clay_RenderCommandArray where
  capacity : Nat
  length : Nat
  internalArray : Nat
deriving DecidableEq, Repr

/-! ## Documents, calls, the world -/

/-- The struct `Document`: two `std::string`s. -/
structure Document where
  title : List Char
  contents : List Char
deriving DecidableEq, Repr

/-- The struct `DocumentArray`: the array `documents` points to; its `length` field is the
length of that array. -/
structure DocumentArray where
  documents : List Document
deriving DecidableEq, Repr

/-- The field `length` of a `DocumentArray`. -/
def DocumentArray.length (d : DocumentArray) : Nat := d.documents.length

/-- A call into a library that changes state there: Clay, the raylib renderer, and the
vector `clayStringBuffers`. Calls that only read (`Clay_PointerOver`, `Clay_Hovered`, the
hash functions, raylib's input queries) are answered by `Env` and leave no record. -/
inductive Call where
  | Clay_SetLayoutDimensions (dimensions : Clay_Dimensions)
  | Clay_SetPointerState (position : Clay_Vector2) (pointerDown : Bool)
  | Clay_UpdateScrollContainers (enableDragScrolling : Bool) (scrollDelta : Clay_Vector2)
      (deltaTime : CFloat)
  | Clay_BeginLayout
  | Clay_EndLayout
  | Clay__OpenElement
  | Clay__CloseElement
  | Clay__ElementPostConfiguration
  | Clay__AttachId (id : Clay_ElementId)
  | Clay__StoreLayoutConfig (config : Clay_LayoutConfig)
  | Clay__StoreRectangleElementConfig (config : Clay_RectangleElementConfig)
  | Clay__StoreFloatingElementConfig (config : Clay_FloatingElementConfig)
  | Clay__StoreScrollElementConfig (config : Clay_ScrollElementConfig)
  | Clay__StoreTextElementConfig (config : Clay_TextElementConfig)
  | Clay__AttachLayoutConfig (config : Handle)
  | Clay__AttachElementConfig (config : Clay_ElementConfigUnion) (type : Clay__ElementConfigType)
  | Clay__OpenTextElement (text : Clay_String) (textConfig : Handle)
  | Clay_OnHover (onHoverFunction : HoverFunction) (userData : Int)
  | BeginDrawing
  | ClearBackground
  | Clay_Raylib_Render (renderCommands : Clay_RenderCommandArray)
  | EndDrawing
  | push_back (buffer : List Char)
  | clear
deriving DecidableEq, Repr

/-- Modelled from the spec: the Element of §3 while the tree is declared, which `clay.h`
(not under `src/`) keeps. It has an optional identifier, zero or one record per
configuration category (as the handle of the stored record), the interaction callback
registered for it with its user data, and a count of children. -/
structure Element where
  id : Option Clay_ElementId := none
  layout : Option Handle := none
  rectangle : Option Handle := none
  floating : Option Handle := none
  scroll : Option Handle := none
  onHover : Option (HoverFunction × Int) := none
  children : Nat := 0
deriving DecidableEq, Repr

/-- Modelled from the spec: the policy of §3 and §9 for a second record of a category an
element already has, which the spec leaves to the implementer: it overwrites, or it is
rejected. -/
inductive AttachPolicy where
  | overwrite
  | reject
deriving DecidableEq, Repr

/-- Modelled from the spec: the state of the Clay library (`clay.h`, not under `src/`) as
§4.1 and §4.2 describe it. The Configuration Arena is one storage per category, the
Element Stack Builder is the stack of open elements (top first) and the elements closed so
far; `diagnostics` counts the structural misuses reported (§7). -/
structure Clay_Context where
  policy : AttachPolicy := .overwrite
  layoutConfigs : List Clay_LayoutConfig := []
  rectangleElementConfigs : List Clay_RectangleElementConfig := []
  floatingElementConfigs : List Clay_FloatingElementConfig := []
  scrollElementConfigs : List Clay_ScrollElementConfig := []
  textElementConfigs : List Clay_TextElementConfig := []
  openElements : List Element := []
  closedElements : List Element := []
  textLeaves : List (Clay_String × Handle) := []
  diagnostics : Nat := 0
deriving DecidableEq, Repr

/-- The globals of `src/main.cpp`, the state of the Clay library, and the calls made so
far. `CLAY__ELEMENT_DEFINITION_LATCH` is the counter of the `for` idiom, which `clay.h`
declares as a `uint8_t` (the program never brings it above 4). -/
structure World where
  clayStringBuffers : List (List Char) := []
  framecount : Nat := 0
  documents : DocumentArray := ⟨[]⟩
  selectedDocumentIndex : Nat := 0
  CLAY__ELEMENT_DEFINITION_LATCH : Nat := 0
  clay : Clay_Context := {}
  calls : List Call := []
deriving DecidableEq, Repr

/-- What the program gets from code outside `src/`: the hash of a name (`clay.h`), the
answers of the hit tests, and the command array a finished layout resolves to. The answer
of `Clay_Hovered` is about the element that is open when it is asked, and that of
`Clay_EndLayout` about everything declared, so both may depend on all calls made so far. -/
structure Env where
  Clay__HashString : Clay_String → Nat → Nat → Clay_ElementId
  Clay_GetElementId : Clay_String → Clay_ElementId
  Clay_PointerOver : Clay_ElementId → Bool
  Clay_Hovered : List Call → Bool
  Clay_EndLayout : List Call → Clay_RenderCommandArray

/-- Undefined behaviour of the C++ program, and the exhaustion of the bound the model puts
on the number of times a loop condition is tested. -/
inductive Fault where
  | signedOverflow
  | outOfBounds
  | loopBound
deriving DecidableEq, Repr

/-- Record a call. -/
@[simp]
def World.emit (w : World) (c : Call) : World := { w with calls := w.calls ++ [c] }

/-- The array a `const char*` points to. A pointer into `clayStringBuffers` is dangling
(`none`) when the vector has no such slot. -/
def World.deref (w : World) : CharPtr → Option (List Char)
  | .literal storage => some storage
  | .buffer slot => w.clayStringBuffers[slot]?

/-- The characters a `Clay_String` denotes: the first `length` characters at `chars`. -/
def World.text (w : World) (s : Clay_String) : Option (List Char) :=
  (w.deref s.chars).map fun a => a.take s.length.toNat

/-! ## The dynamic text arena (`src/main.cpp`, lines 155-185) -/

/-- The value of `N - 1` in `size_t`. -/
def sizeMinusOne (N : Nat) : Nat := (N + 2 ^ 64 - 1) % 2 ^ 64

/-- The overload `template<size_t N> toClayString(const char(&str)[N])`; `str` is the whole
array, terminator included, so `N = str.length`. -/
def toClayString_literal (str : List Char) (w : World) : Clay_String × World :=
  let toRet : Clay_String :=
    { length := toInt32 (sizeMinusOne str.length)
      chars := .literal str }
  (toRet, w)

/-- The function `clearClayStringBuffers`. -/
def clearClayStringBuffers (w : World) : World :=
  { w with clayStringBuffers := [] }.emit .clear

/-- The overload `toClayString(const std::string&)`. The pointer `buffer.get()` is the
array that `push_back` then puts in the slot after the last one of the vector. -/
def toClayString (str : List Char) (w : World) : Clay_String × World :=
  let requiredSize := str.length + 1
  let buffer := make_unique requiredSize
  let buffer := strcpy buffer (c_str str)
  let clayStr : Clay_String :=
    { length := toInt32 str.length
      chars := .buffer w.clayStringBuffers.length }
  (clayStr, { w with clayStringBuffers := w.clayStringBuffers ++ [buffer] }.emit (.push_back buffer))

/-! ## The Clay library (`clay.h`, not under `src/`), modelled from the spec -/

/-- Modelled from the spec: `open()` of §4.1 for `Clay__OpenElement` (`clay.h` is not under
`src/`). It pushes a new element as a child of the current top of the stack, or as a root
if the stack is empty, and makes it the new top. -/
def Clay_Context.openElement (c : Clay_Context) : Clay_Context :=
  match c.openElements with
  | [] => { c with openElements := [{}] }
  | top :: rest => { c with openElements := {} :: { top with children := top.children + 1 } :: rest }

/-- Modelled from the spec: `close()` of §4.1 for `Clay__CloseElement`. It pops the top,
whose child count is then final; a close with no open element is a structural misuse. -/
def Clay_Context.closeElement (c : Clay_Context) : Clay_Context :=
  match c.openElements with
  | [] => { c with diagnostics := c.diagnostics + 1 }
  | top :: rest => { c with openElements := rest, closedElements := c.closedElements ++ [top] }

/-- Modelled from the spec: `store(layout, record)` of §4.2 for `Clay__StoreLayoutConfig`. It
copies the record into the storage of its category and returns its handle. -/
def Clay_Context.storeLayoutConfig (c : Clay_Context) (config : Clay_LayoutConfig) :
    Handle × Clay_Context :=
  (⟨c.layoutConfigs.length⟩, { c with layoutConfigs := c.layoutConfigs ++ [config] })

/-- Modelled from the spec: `store(fill, record)` of §4.2 for
`Clay__StoreRectangleElementConfig`. -/
def Clay_Context.storeRectangleElementConfig (c : Clay_Context)
    (config : Clay_RectangleElementConfig) : Handle × Clay_Context :=
  (⟨c.rectangleElementConfigs.length⟩,
    { c with rectangleElementConfigs := c.rectangleElementConfigs ++ [config] })

/-- Modelled from the spec: `store(floating, record)` of §4.2 for
`Clay__StoreFloatingElementConfig`. -/
def Clay_Context.storeFloatingElementConfig (c : Clay_Context)
    (config : Clay_FloatingElementConfig) : Handle × Clay_Context :=
  (⟨c.floatingElementConfigs.length⟩,
    { c with floatingElementConfigs := c.floatingElementConfigs ++ [config] })

/-- Modelled from the spec: `store(scroll, record)` of §4.2 for
`Clay__StoreScrollElementConfig`. -/
def Clay_Context.storeScrollElementConfig (c : Clay_Context)
    (config : Clay_ScrollElementConfig) : Handle × Clay_Context :=
  (⟨c.scrollElementConfigs.length⟩,
    { c with scrollElementConfigs := c.scrollElementConfigs ++ [config] })

/-- Modelled from the spec: `store(text style, record)` of §4.2 for
`Clay__StoreTextElementConfig`. -/
def Clay_Context.storeTextElementConfig (c : Clay_Context)
    (config : Clay_TextElementConfig) : Handle × Clay_Context :=
  (⟨c.textElementConfigs.length⟩,
    { c with textElementConfigs := c.textElementConfigs ++ [config] })

/-- Modelled from the spec: what an attach does to one category of an element (§3): an
empty category takes the handle; a second record overwrites or is rejected, by the policy.
The result is the new content of the category and whether the attach was rejected. -/
def attachRecord (policy : AttachPolicy) (present : Option Handle) (config : Handle) :
    Option Handle × Bool :=
  match present, policy with
  | some old, .reject => (some old, true)
  | _, _ => (some config, false)

/-- Modelled from the spec: `attach(element, handle)` of §4.2 for `Clay__AttachLayoutConfig`:
the handle is associated with the current element, the top of the stack. An attach with no
open element, or one the policy rejects, is a structural misuse. -/
def Clay_Context.attachLayoutConfig (c : Clay_Context) (config : Handle) : Clay_Context :=
  match c.openElements with
  | [] => { c with diagnostics := c.diagnostics + 1 }
  | top :: rest =>
    let r := attachRecord c.policy top.layout config
    { c with
      openElements := { top with layout := r.1 } :: rest
      diagnostics := if r.2 then c.diagnostics + 1 else c.diagnostics }

/-- The pointer held by a `Clay_ElementConfigUnion`, whichever member was written. -/
def Clay_ElementConfigUnion.handle : Clay_ElementConfigUnion → Handle
  | .rectangleElementConfig h => h
  | .floatingElementConfig h => h
  | .scrollElementConfig h => h

/-- Modelled from the spec: `attach(element, handle)` of §4.2 for `Clay__AttachElementConfig`,
the category being the one `type` names. -/
def Clay_Context.attachElementConfig (c : Clay_Context) (config : Clay_ElementConfigUnion)
    (type : Clay__ElementConfigType) : Clay_Context :=
  match c.openElements with
  | [] => { c with diagnostics := c.diagnostics + 1 }
  | top :: rest =>
    match type with
    | .CLAY__ELEMENT_CONFIG_TYPE_RECTANGLE =>
      let r := attachRecord c.policy top.rectangle config.handle
      { c with
        openElements := { top with rectangle := r.1 } :: rest
        diagnostics := if r.2 then c.diagnostics + 1 else c.diagnostics }
    | .CLAY__ELEMENT_CONFIG_TYPE_FLOATING_CONTAINER =>
      let r := attachRecord c.policy top.floating config.handle
      { c with
        openElements := { top with floating := r.1 } :: rest
        diagnostics := if r.2 then c.diagnostics + 1 else c.diagnostics }
    | .CLAY__ELEMENT_CONFIG_TYPE_SCROLL_CONTAINER =>
      let r := attachRecord c.policy top.scroll config.handle
      { c with
        openElements := { top with scroll := r.1 } :: rest
        diagnostics := if r.2 then c.diagnostics + 1 else c.diagnostics }

/-- Modelled from the spec: the optional stable identifier of §3 for `Clay__AttachId`. -/
def Clay_Context.attachId (c : Clay_Context) (id : Clay_ElementId) : Clay_Context :=
  match c.openElements with
  | [] => { c with diagnostics := c.diagnostics + 1 }
  | top :: rest => { c with openElements := { top with id := some id } :: rest }

/-- Modelled from the spec: `onInteraction(id, callback, userData)` of §4.3 for
`Clay_OnHover`, which registers for the open element. -/
def Clay_Context.onHover (c : Clay_Context) (f : HoverFunction) (userData : Int) :
    Clay_Context :=
  match c.openElements with
  | [] => { c with diagnostics := c.diagnostics + 1 }
  | top :: rest => { c with openElements := { top with onHover := some (f, userData) } :: rest }

/-- Modelled from the spec: a text leaf of §4.1 for `Clay__OpenTextElement`; it is a child
of the open element and valid only inside one. -/
def Clay_Context.openTextElement (c : Clay_Context) (text : Clay_String) (textConfig : Handle) :
    Clay_Context :=
  match c.openElements with
  | [] => { c with diagnostics := c.diagnostics + 1 }
  | top :: rest =>
    { c with
      openElements := { top with children := top.children + 1 } :: rest
      textLeaves := c.textLeaves ++ [(text, textConfig)] }

/-- Modelled from the spec: the reset of §4.2 at the start of a frame's declaration for
`Clay_BeginLayout`: the storage of every category and the tree start empty. -/
def Clay_Context.beginLayout (c : Clay_Context) : Clay_Context :=
  { policy := c.policy }

/-- The record of a configuration category of an element, read through its handle. -/
def Clay_Context.layoutOf (c : Clay_Context) (e : Element) : Option Clay_LayoutConfig :=
  e.layout.bind fun h => c.layoutConfigs[h.index]?

/-- The rectangle record of an element, read through its handle. -/
def Clay_Context.rectangleOf (c : Clay_Context) (e : Element) :
    Option Clay_RectangleElementConfig :=
  e.rectangle.bind fun h => c.rectangleElementConfigs[h.index]?

/-! ## The calls of the program into Clay -/

/-- A call of `Clay__OpenElement()`. -/
@[simp]
def Clay__OpenElement (w : World) : World :=
  { w with clay := w.clay.openElement }.emit .Clay__OpenElement

/-- A call of `Clay__CloseElement()`. -/
@[simp]
def Clay__CloseElement (w : World) : World :=
  { w with clay := w.clay.closeElement }.emit .Clay__CloseElement

/-- A call of `Clay__ElementPostConfiguration()`. -/
@[simp]
def Clay__ElementPostConfiguration (w : World) : World :=
  w.emit .Clay__ElementPostConfiguration

/-- A call of `Clay__AttachId(id)`. -/
@[simp]
def Clay__AttachId (id : Clay_ElementId) (w : World) : World :=
  { w with clay := w.clay.attachId id }.emit (.Clay__AttachId id)

/-- A call of `Clay__StoreLayoutConfig(config)`; the result is the pointer it returns. -/
@[simp]
def Clay__StoreLayoutConfig (config : Clay_LayoutConfig) (w : World) : Handle × World :=
  ((w.clay.storeLayoutConfig config).1,
    { w with clay := (w.clay.storeLayoutConfig config).2 }.emit (.Clay__StoreLayoutConfig config))

/-- A call of `Clay__StoreRectangleElementConfig(config)`. -/
@[simp]
def Clay__StoreRectangleElementConfig (config : Clay_RectangleElementConfig) (w : World) :
    Handle × World :=
  ((w.clay.storeRectangleElementConfig config).1,
    { w with clay := (w.clay.storeRectangleElementConfig config).2 }.emit
      (.Clay__StoreRectangleElementConfig config))

/-- A call of `Clay__StoreFloatingElementConfig(config)`. -/
@[simp]
def Clay__StoreFloatingElementConfig (config : Clay_FloatingElementConfig) (w : World) :
    Handle × World :=
  ((w.clay.storeFloatingElementConfig config).1,
    { w with clay := (w.clay.storeFloatingElementConfig config).2 }.emit
      (.Clay__StoreFloatingElementConfig config))

/-- A call of `Clay__StoreScrollElementConfig(config)`. -/
@[simp]
def Clay__StoreScrollElementConfig (config : Clay_ScrollElementConfig) (w : World) :
    Handle × World :=
  ((w.clay.storeScrollElementConfig config).1,
    { w with clay := (w.clay.storeScrollElementConfig config).2 }.emit
      (.Clay__StoreScrollElementConfig config))

/-- A call of `Clay__StoreTextElementConfig(config)`. -/
@[simp]
def Clay__StoreTextElementConfig (config : Clay_TextElementConfig) (w : World) :
    Handle × World :=
  ((w.clay.storeTextElementConfig config).1,
    { w with clay := (w.clay.storeTextElementConfig config).2 }.emit
      (.Clay__StoreTextElementConfig config))

/-- A call of `Clay__AttachLayoutConfig(config)`. -/
@[simp]
def Clay__AttachLayoutConfig (config : Handle) (w : World) : World :=
  { w with clay := w.clay.attachLayoutConfig config }.emit (.Clay__AttachLayoutConfig config)

/-- A call of `Clay__AttachElementConfig(config, type)`. -/
@[simp]
def Clay__AttachElementConfig (config : Clay_ElementConfigUnion) (type : Clay__ElementConfigType)
    (w : World) : World :=
  { w with clay := w.clay.attachElementConfig config type }.emit
    (.Clay__AttachElementConfig config type)

/-- A call of `Clay__OpenTextElement(text, textConfig)`. -/
@[simp]
def Clay__OpenTextElement (text : Clay_String) (textConfig : Handle) (w : World) : World :=
  { w with clay := w.clay.openTextElement text textConfig }.emit
    (.Clay__OpenTextElement text textConfig)

/-- A call of `Clay_OnHover(onHoverFunction, userData)`. -/
@[simp]
def Clay_OnHover (onHoverFunction : HoverFunction) (userData : Int) (w : World) : World :=
  { w with clay := w.clay.onHover onHoverFunction userData }.emit
    (.Clay_OnHover onHoverFunction userData)

/-- A call of `Clay_BeginLayout()`. -/
@[simp]
def Clay_BeginLayout (w : World) : World :=
  { w with clay := w.clay.beginLayout }.emit .Clay_BeginLayout

/-- A call of `Clay_EndLayout()`; the result is the command array it returns. -/
@[simp]
def Clay_EndLayout (env : Env) (w : World) : Clay_RenderCommandArray × World :=
  (env.Clay_EndLayout (w.calls ++ [.Clay_EndLayout]), w.emit .Clay_EndLayout)

/-! ## Helper functions (`src/main.cpp`, lines 101-195) -/

/-- The array of a string literal: its characters and the terminator. -/
def lit (s : String) : List Char := s.toList ++ [NUL]

/-- The function `raylibRender`. -/
@[simp]
def raylibRender (renderCommands : Clay_RenderCommandArray) (w : World) : World :=
  w |>.emit .BeginDrawing |>.emit .ClearBackground
    |>.emit (.Clay_Raylib_Render renderCommands) |>.emit .EndDrawing

/-- A call `f(arg)` whose argument is itself a call: `arg` runs first, `f` runs on its
result in the world `arg` left. -/
@[simp]
def callWith {α β : Type} (arg : World → α × World) (f : α → World → β) (w : World) : β :=
  f (arg w).1 (arg w).2

/-- The expression `Clay__AttachLayoutConfig(Clay__StoreLayoutConfig(
(Clay__Clay_LayoutConfigWrapper { config }).wrapped))`. -/
@[simp]
def storeAndAttachLayout (config : Clay_LayoutConfig) (w : World) : World :=
  callWith (Clay__StoreLayoutConfig config) Clay__AttachLayoutConfig w

/-- The expression `Clay__AttachElementConfig(Clay_ElementConfigUnion { .rectangleElementConfig
= Clay__StoreRectangleElementConfig(...) }, CLAY__ELEMENT_CONFIG_TYPE_RECTANGLE)`. -/
@[simp]
def storeAndAttachRectangle (config : Clay_RectangleElementConfig) (w : World) : World :=
  callWith (Clay__StoreRectangleElementConfig config)
    (fun h => Clay__AttachElementConfig (.rectangleElementConfig h)
      .CLAY__ELEMENT_CONFIG_TYPE_RECTANGLE) w

/-- The expression `Clay__AttachElementConfig(Clay_ElementConfigUnion { .floatingElementConfig
= Clay__StoreFloatingElementConfig(...) }, CLAY__ELEMENT_CONFIG_TYPE_FLOATING_CONTAINER)`. -/
@[simp]
def storeAndAttachFloating (config : Clay_FloatingElementConfig) (w : World) : World :=
  callWith (Clay__StoreFloatingElementConfig config)
    (fun h => Clay__AttachElementConfig (.floatingElementConfig h)
      .CLAY__ELEMENT_CONFIG_TYPE_FLOATING_CONTAINER) w

/-- The expression `Clay__AttachElementConfig(Clay_ElementConfigUnion { .scrollElementConfig
= Clay__StoreScrollElementConfig(...) }, CLAY__ELEMENT_CONFIG_TYPE_SCROLL_CONTAINER)`. -/
@[simp]
def storeAndAttachScroll (config : Clay_ScrollElementConfig) (w : World) : World :=
  callWith (Clay__StoreScrollElementConfig config)
    (fun h => Clay__AttachElementConfig (.scrollElementConfig h)
      .CLAY__ELEMENT_CONFIG_TYPE_SCROLL_CONTAINER) w

/-- The function `applyClayLayoutConfig`. -/
@[simp]
def applyClayLayoutConfig (layout : Clay_LayoutConfig) (w : World) : World :=
  callWith (Clay__StoreLayoutConfig layout) Clay__AttachLayoutConfig w

/-- The function `applyClayRectangleConfig`. -/
@[simp]
def applyClayRectangleConfig (rectangleConfig : Clay_RectangleElementConfig) (w : World) :
    World :=
  callWith (Clay__StoreRectangleElementConfig rectangleConfig)
    (fun h => Clay__AttachElementConfig (.rectangleElementConfig h)
      .CLAY__ELEMENT_CONFIG_TYPE_RECTANGLE) w

/-- The function `template<size_t N> attachClayID(const char(&str)[N])`; `str` is the whole
array, so `N = str.length`. -/
@[simp]
def attachClayID (env : Env) (str : List Char) (w : World) : World :=
  let id : Clay_String :=
    { length := toInt32 (sizeMinusOne str.length)
      chars := .literal str }
  Clay__AttachId (env.Clay__HashString id 0 0) w

/-- What raylib reports in one iteration of the application loop: the arguments `main`
passes to `updateClayStateInput`. -/
structure FrameInput where
  windowWidth : CFloat
  windowHeight : CFloat
  mouseX : CFloat
  mouseY : CFloat
  scrollDeltaX : CFloat
  scrollDeltaY : CFloat
  frameTime : CFloat
  leftButtonDown : Bool
  hoverCalls : List (Clay_ElementId × Clay_PointerData × Int)
deriving DecidableEq, Repr

/-- The function `updateClayStateInput`, without the callbacks Clay makes meanwhile. -/
@[simp]
def updateClayStateInput (windowWidth windowHeight mouseX mouseY scrollDeltaX scrollDeltaY
    frameTime : CFloat) (leftButtonDown : Bool) (w : World) : World :=
  w |>.emit (.Clay_SetLayoutDimensions { width := windowWidth, height := windowHeight })
    |>.emit (.Clay_SetPointerState { x := mouseX, y := mouseY } leftButtonDown)
    |>.emit (.Clay_UpdateScrollContainers true { x := scrollDeltaX, y := scrollDeltaY } frameTime)

/-- The function `clayTextElement`. -/
@[simp]
def clayTextElement (text : Clay_String) (textElementConfig : Clay_TextElementConfig)
    (w : World) : World :=
  callWith (Clay__StoreTextElementConfig textElementConfig) (Clay__OpenTextElement text) w

/-! ## Application data (`src/main.cpp`, lines 200-285) -/

/-- The constant `FONT_ID_BODY_16`. -/
def FONT_ID_BODY_16 : Nat := 0

/-- The global `layoutExpandXY`. -/
def layoutExpandXY : Clay_Sizing :=
  { width := { min := 0, type := .CLAY__SIZING_TYPE_GROW }
    height := { min := 0, type := .CLAY__SIZING_TYPE_GROW } }

/-- The global `layoutExpandX`. -/
def layoutExpandX : Clay_Sizing :=
  { width := { min := 0, type := .CLAY__SIZING_TYPE_GROW } }

/-- The global `headerButtonLayoutConfig`. -/
def headerButtonLayoutConfig : Clay_LayoutConfig := { padding := ⟨16, 16, 8, 8⟩ }

/-- The global `dropdownItemLayoutConfig`. -/
def dropdownItemLayoutConfig : Clay_LayoutConfig := { padding := ⟨16, 16, 16, 16⟩ }

/-- The global `sidebarButtonLayout`. -/
def sidebarButtonLayout : Clay_LayoutConfig :=
  { sizing := layoutExpandX, padding := ⟨16, 16, 16, 16⟩ }

/-- The global `headerButtonTextConfig`. -/
def headerButtonTextConfig : Clay_TextElementConfig :=
  { textColor := ⟨255, 255, 255, 255⟩, fontId := FONT_ID_BODY_16, fontSize := 16 }

/-- The global `sidebarButtonTextConfig`. -/
def sidebarButtonTextConfig : Clay_TextElementConfig :=
  { textColor := ⟨255, 255, 255, 255⟩, fontId := FONT_ID_BODY_16, fontSize := 20 }

/-- The global `documentTextConfig`. -/
def documentTextConfig : Clay_TextElementConfig :=
  { textColor := ⟨255, 255, 255, 255⟩, fontId := FONT_ID_BODY_16, fontSize := 24 }

/-- The global `contentBackgroundConfig`. -/
def contentBackgroundConfig : Clay_RectangleElementConfig :=
  { color := ⟨90, 90, 90, 255⟩, cornerRadius := 8 }

/-- The function `HandleSidebarInteraction`; `userData` is an `intptr_t`. -/
def HandleSidebarInteraction (_elementId : Clay_ElementId) (pointerData : Clay_PointerData)
    (userData : Int) (w : World) : World :=
  if pointerData.state = .CLAY_POINTER_DATA_PRESSED_THIS_FRAME then
    if userData ≥ 0 ∧ userData < (w.documents.length : Int) then
      { w with selectedDocumentIndex := toUInt32 userData }
    else w
  else w

/-! ## Reusable elements (`src/main.cpp`, lines 288-325) -/

/-- The function `RenderHeaderButton`. -/
def RenderHeaderButton (text : Clay_String) (w : World) : World :=
  w |> Clay__OpenElement
    |> applyClayLayoutConfig headerButtonLayoutConfig
    |> applyClayRectangleConfig { color := ⟨140, 140, 140, 255⟩, cornerRadius := 5 }
    |> Clay__ElementPostConfiguration
    |> clayTextElement text headerButtonTextConfig
    |> Clay__CloseElement

/-- The function `RenderDropdownMenuItem`. -/
def RenderDropdownMenuItem (text : Clay_String) (w : World) : World :=
  w |> Clay__OpenElement
    |> applyClayLayoutConfig dropdownItemLayoutConfig
    |> Clay__ElementPostConfiguration
    |> clayTextElement text headerButtonTextConfig
    |> Clay__CloseElement

/-! ## The `for` idiom of the element definitions -/

/-- The iterations of `for (...; CLAY__ELEMENT_DEFINITION_LATCH < 1;
++CLAY__ELEMENT_DEFINITION_LATCH, Clay__CloseElement()) body`, the loop condition being
tested at most `tests` times. The latch is the global `uint8_t` of `clay.h`. -/
def forLatchFrom (body : World → Except Fault World) : Nat → World → Except Fault World
  | 0, _ => .error .loopBound
  | tests + 1, w =>
    if w.CLAY__ELEMENT_DEFINITION_LATCH < 1 then
      match body w with
      | .error e => .error e
      | .ok w =>
        forLatchFrom body tests
          (Clay__CloseElement
            { w with
              CLAY__ELEMENT_DEFINITION_LATCH := (w.CLAY__ELEMENT_DEFINITION_LATCH + 1) % 256 })
    else .ok w

/-- The statement `for (CLAY__ELEMENT_DEFINITION_LATCH = (init, 0);
CLAY__ELEMENT_DEFINITION_LATCH < 1; ++CLAY__ELEMENT_DEFINITION_LATCH, Clay__CloseElement())
body`: `init` is the comma expression that opens and configures the element. -/
def forLatch (init : World → World) (body : World → Except Fault World) (w : World) :
    Except Fault World :=
  forLatchFrom body 2 { init w with CLAY__ELEMENT_DEFINITION_LATCH := 0 }

/-! ## The layout (`src/main.cpp`, lines 327-528) -/

/-- The read `documents.documents[i]` for an `int i`. -/
def documentAt (w : World) (i : Int) : Except Fault Document :=
  if i < 0 then .error .outOfBounds
  else
    match w.documents.documents[i.toNat]? with
    | some d => .ok d
    | none => .error .outOfBounds

/-- The children of the sidebar item elements (macros 9 and 10), for the counter `i`. -/
def sidebarItemChildren (i : Int) (w : World) : Except Fault World :=
  match documentAt w i with
  | .error e => .error e
  | .ok d =>
    let str := d.title
    .ok (callWith (toClayString str) (fun s => clayTextElement s sidebarButtonTextConfig) w)

/-- The element of the selected document in the sidebar (macro 9), for the counter `i`. -/
def selectedItemElement (i : Int) (w : World) : Except Fault World :=
  forLatch
    (fun w => w
      |> Clay__OpenElement
      |> storeAndAttachLayout sidebarButtonLayout
      |> storeAndAttachRectangle { color := ⟨120, 120, 120, 255⟩, cornerRadius := 8 }
      |> Clay__ElementPostConfiguration)
    (sidebarItemChildren i) w

/-- The expression `Clay_Hovered() ? Clay__AttachElementConfig(...) : (void)0` of macro 10. -/
def attachRectangleIfHovered (env : Env) (w : World) : World :=
  if env.Clay_Hovered w.calls then
    storeAndAttachRectangle { color := ⟨120, 120, 120, 120⟩, cornerRadius := 8 } w
  else w

/-- The element of a document that is not selected in the sidebar (macro 10), for the
counter `i`. -/
def otherItemElement (env : Env) (i : Int) (w : World) : Except Fault World :=
  forLatch
    (fun w => w
      |> Clay__OpenElement
      |> storeAndAttachLayout sidebarButtonLayout
      |> Clay_OnHover .HandleSidebarInteraction i
      |> attachRectangleIfHovered env
      |> Clay__ElementPostConfiguration)
    (sidebarItemChildren i) w

/-- The body of the sidebar item loop for the counter `i`; the comparison
`i == selectedDocumentIndex` is made in `uint32_t`. -/
def sidebarItem (env : Env) (i : Int) (w : World) : Except Fault World :=
  if toUInt32 i = w.selectedDocumentIndex then selectedItemElement i w
  else otherItemElement env i w

/-- The loop `for (int i = 0; i < documents.length; i++)` from the counter value `i` on,
its condition being tested at most `tests` times. The comparison is made in `uint32_t`;
`i++` at the largest `int` is undefined. -/
def sidebarLoop (env : Env) : Nat → Int → World → Except Fault World
  | 0, _, _ => .error .loopBound
  | tests + 1, i, w =>
    if toUInt32 i < w.documents.length then
      match sidebarItem env i w with
      | .error e => .error e
      | .ok w => if i = INT_MAX then .error .signedOverflow else sidebarLoop env tests (i + 1) w
    else .ok w

/-- The children of macro 7: the three dropdown items. -/
def fileMenuListChildren (w : World) : Except Fault World :=
  .ok (w
    |> callWith (toClayString_literal (lit "New")) RenderDropdownMenuItem
    |> callWith (toClayString_literal (lit "Open")) RenderDropdownMenuItem
    |> callWith (toClayString_literal (lit "Close")) RenderDropdownMenuItem)

/-- The element inside the file menu (macro 7). -/
def fileMenuListElement (w : World) : Except Fault World :=
  forLatch
    (fun w => w
      |> Clay__OpenElement
      |> storeAndAttachLayout
          { sizing := { width := { min := 200, max := 200, type := .CLAY__SIZING_TYPE_FIXED } }
            layoutDirection := .CLAY_TOP_TO_BOTTOM }
      |> storeAndAttachRectangle { color := ⟨40, 40, 40, 255⟩, cornerRadius := 8 }
      |> Clay__ElementPostConfiguration)
    fileMenuListChildren w

/-- The "FileMenu" element (macro 6). -/
def fileMenuElement (env : Env) (w : World) : Except Fault World :=
  forLatch
    (fun w => w
      |> Clay__OpenElement
      |> attachClayID env (lit "FileMenu")
      |> storeAndAttachFloating { attachParent := .CLAY_ATTACH_POINT_LEFT_BOTTOM }
      |> storeAndAttachLayout { padding := ⟨0, 0, 8, 8⟩ }
      |> Clay__ElementPostConfiguration)
    fileMenuListElement w

/-- The children of the "FileButton" element. The right operand of `||` changes nothing, so
it makes no difference that the model evaluates it also when the left one is true. -/
def fileButtonChildren (env : Env) (w : World) : Except Fault World :=
  let w := callWith (toClayString_literal (lit "File"))
    (fun s => clayTextElement s headerButtonTextConfig) w
  let fileButton := toClayString_literal (lit "FileButton") w
  let fileMenu := toClayString_literal (lit "FileMenu") fileButton.2
  let fileMenuVisible :=
    env.Clay_PointerOver (env.Clay_GetElementId fileButton.1)
      || env.Clay_PointerOver (env.Clay_GetElementId fileMenu.1)
  if fileMenuVisible then fileMenuElement env fileMenu.2
  else .ok fileMenu.2

/-- The "FileButton" element (macro 4). -/
def fileButtonElement (env : Env) (w : World) : Except Fault World :=
  forLatch
    (fun w => w
      |> Clay__OpenElement
      |> attachClayID env (lit "FileButton")
      |> storeAndAttachLayout { padding := ⟨16, 16, 8, 8⟩ }
      |> storeAndAttachRectangle { color := ⟨140, 140, 140, 255⟩, cornerRadius := 5 }
      |> Clay__ElementPostConfiguration)
    (fileButtonChildren env) w

/-- The element without children that fills the header bar (macro 5). -/
def spacerElement (w : World) : Except Fault World :=
  forLatch
    (fun w => w
      |> Clay__OpenElement
      |> storeAndAttachLayout
          { sizing := { width := { min := 0, type := .CLAY__SIZING_TYPE_GROW } } }
      |> Clay__ElementPostConfiguration)
    (fun w => .ok w) w

/-- The children of the "HeaderBar" element. -/
def headerBarChildren (env : Env) (w : World) : Except Fault World :=
  match fileButtonElement env w with
  | .error e => .error e
  | .ok w =>
    match spacerElement (callWith (toClayString_literal (lit "Edit")) RenderHeaderButton w) with
    | .error e => .error e
    | .ok w =>
      .ok (w
        |> callWith (toClayString_literal (lit "Upload")) RenderHeaderButton
        |> callWith (toClayString_literal (lit "Media")) RenderHeaderButton
        |> callWith (toClayString_literal (lit "Support")) RenderHeaderButton)

/-- The "HeaderBar" element (macro 2). -/
def headerBarElement (env : Env) (w : World) : Except Fault World :=
  forLatch
    (fun w => w
      |> Clay__OpenElement
      |> attachClayID env (lit "HeaderBar")
      |> storeAndAttachRectangle contentBackgroundConfig
      |> storeAndAttachLayout
          { sizing :=
              { width := { min := 0, type := .CLAY__SIZING_TYPE_GROW }
                height := { min := 60, max := 60, type := .CLAY__SIZING_TYPE_FIXED } }
            padding := ⟨16, 16, 0, 0⟩
            childGap := 16
            childAlignmentY := .CLAY_ALIGN_Y_CENTER }
      |> Clay__ElementPostConfiguration)
    (headerBarChildren env) w

/-- The "Sidebar" element (macro 8); the item loop starts at `i = 0`, and its condition is
tested at most `documents.length + 1` times. -/
def sidebarElement (env : Env) (w : World) : Except Fault World :=
  forLatch
    (fun w => w
      |> Clay__OpenElement
      |> attachClayID env (lit "Sidebar")
      |> storeAndAttachRectangle contentBackgroundConfig
      |> storeAndAttachLayout
          { sizing :=
              { width := { min := 250, max := 250, type := .CLAY__SIZING_TYPE_FIXED }
                height := { min := 0, type := .CLAY__SIZING_TYPE_GROW } }
            padding := ⟨16, 16, 16, 16⟩
            childGap := 8
            layoutDirection := .CLAY_TOP_TO_BOTTOM }
      |> Clay__ElementPostConfiguration)
    (fun w => sidebarLoop env (w.documents.length + 1) 0 w) w

/-- The children of the "MainContent" element. -/
def mainContentChildren (w : World) : Except Fault World :=
  match documentAt w w.selectedDocumentIndex with
  | .error e => .error e
  | .ok d =>
    let w := callWith (toClayString d.title) (fun s => clayTextElement s documentTextConfig) w
    match documentAt w w.selectedDocumentIndex with
    | .error e => .error e
    | .ok d =>
      .ok (callWith (toClayString d.contents) (fun s => clayTextElement s documentTextConfig) w)

/-- The "MainContent" element (macro 11). -/
def mainContentElement (env : Env) (w : World) : Except Fault World :=
  forLatch
    (fun w => w
      |> Clay__OpenElement
      |> attachClayID env (lit "MainContent")
      |> storeAndAttachRectangle contentBackgroundConfig
      |> storeAndAttachScroll { vertical := true }
      |> storeAndAttachLayout
          { sizing := layoutExpandXY
            padding := ⟨16, 16, 16, 16⟩
            childGap := 16
            layoutDirection := .CLAY_TOP_TO_BOTTOM }
      |> Clay__ElementPostConfiguration)
    mainContentChildren w

/-- The children of the "LowerContent" element. -/
def lowerContentChildren (env : Env) (w : World) : Except Fault World :=
  match sidebarElement env w with
  | .error e => .error e
  | .ok w => mainContentElement env w

/-- The "LowerContent" element (macro 3). -/
def lowerContentElement (env : Env) (w : World) : Except Fault World :=
  forLatch
    (fun w => w
      |> Clay__OpenElement
      |> attachClayID env (lit "LowerContent")
      |> storeAndAttachLayout { sizing := layoutExpandXY, childGap := 16 }
      |> Clay__ElementPostConfiguration)
    (lowerContentChildren env) w

/-- The children of the "OuterContainer" element (macro 1). -/
def outerContainerChildren (env : Env) (w : World) : Except Fault World :=
  match headerBarElement env w with
  | .error e => .error e
  | .ok w => lowerContentElement env w

/-- The function `buildLayout`; the outermost element (macro 1) is written without the
`for` idiom, its close is the last statement before `Clay_EndLayout`. -/
def buildLayout (env : Env) (w : World) : Except Fault (Clay_RenderCommandArray × World) :=
  match
    outerContainerChildren env (w
      |> Clay_BeginLayout
      |> Clay__OpenElement
      |> attachClayID env (lit "OuterContainer")
      |> storeAndAttachRectangle { color := ⟨43, 41, 51, 255⟩ }
      |> storeAndAttachLayout
          { sizing := layoutExpandXY
            padding := ⟨16, 16, 16, 16⟩
            childGap := 16
            layoutDirection := .CLAY_TOP_TO_BOTTOM }
      |> Clay__ElementPostConfiguration)
  with
  | .error e => .error e
  | .ok w => .ok (Clay_EndLayout env (Clay__CloseElement w))

/-! ## The application (`src/main.cpp`, lines 532-580) -/

/-- The element of `docs` with the title Squirrels (`main`, the initial data). -/
def docs_squirrels : Document :=
  { title := "Squirrels".toList
    contents := "The Secret Life of Squirrels: Nature's Clever Acrobats\nSquirrels are often overlooked creatures, dismissed as mere park inhabitants or backyard nuisances. Yet, beneath their fluffy tails and twitching noses lies an intricate world of cunning, agility, and survival tactics that are nothing short of fascinating. As one of the most common mammals in North America, squirrels have adapted to a wide range of environments from bustling urban centers to tranquil forests and have developed a variety of unique behaviors that continue to intrigue scientists and nature enthusiasts alike.\n\nMaster Tree Climbers\nAt the heart of a squirrel's skill set is its impressive ability to navigate trees with ease. Whether they're darting from branch to branch or leaping across wide gaps, squirrels possess an innate talent for acrobatics. Their powerful hind legs, which are longer than their front legs, give them remarkable jumping power. With a tail that acts as a counterbalance, squirrels can leap distances of up to ten times the length of their body, making them some of the best aerial acrobats in the animal kingdom.\nBut it's not just their agility that makes them exceptional climbers. Squirrels' sharp, curved claws allow them to grip tree bark with precision, while the soft pads on their feet provide traction on slippery surfaces. Their ability to run at high speeds and scale vertical trunks with ease is a testament to the evolutionary adaptations that have made them so successful in their arboreal habitats.\n\nFood Hoarders Extraordinaire\nSquirrels are often seen frantically gathering nuts, seeds, and even fungi in preparation for winter. While this behavior may seem like instinctual hoarding, it is actually a survival strategy that has been honed over millions of years. Known as \"scatter hoarding,\" squirrels store their food in a variety of hidden locations, often burying it deep in the soil or stashing it in hollowed-out tree trunks.\nInterestingly, squirrels have an incredible memory for the locations of their caches. Research has shown that they can remember thousands of hiding spots, often returning to them months later when food is scarce. However, they don't always recover every stash some forgotten caches eventually sprout into new trees, contributing to forest regeneration. This unintentional role as forest gardeners highlights the ecological importance of squirrels in their ecosystems.\n\nThe Great Squirrel Debate: Urban vs. Wild\nWhile squirrels are most commonly associated with rural or wooded areas, their adaptability has allowed them to thrive in urban environments as well. In cities, squirrels have become adept at finding food sources in places like parks, streets, and even garbage cans. However, their urban counterparts face unique challenges, including traffic, predators, and the lack of natural shelters. Despite these obstacles, squirrels in urban areas are often observed using human infrastructure such as buildings, bridges, and power lines as highways for their acrobatic escapades.\nThere is, however, a growing concern regarding the impact of urban life on squirrel populations. Pollution, deforestation, and the loss of natural habitats are making it more difficult for squirrels to find adequate food and shelter. As a result, conservationists are focusing on creating squirrel-friendly spaces within cities, with the goal of ensuring these resourceful creatures continue to thrive in both rural and urban landscapes.\n\nA Symbol of Resilience\nIn many cultures, squirrels are symbols of resourcefulness, adaptability, and preparation. Their ability to thrive in a variety of environments while navigating challenges with agility and grace serves as a reminder of the resilience inherent in nature. Whether you encounter them in a quiet forest, a city park, or your own backyard, squirrels are creatures that never fail to amaze with their endless energy and ingenuity.\nIn the end, squirrels may be small, but they are mighty in their ability to survive and thrive in a world that is constantly changing. So next time you spot one hopping across a branch or darting across your lawn, take a moment to appreciate the remarkable acrobat at work a true marvel of the natural world.\n".toList }

/-- The element of `docs` with the title Lorem Ipsum (`main`, the initial data). -/
def docs_loremIpsum : Document :=
  { title := "Lorem Ipsum".toList
    contents := "Lorem ipsum dolor sit amet, consectetur adipiscing elit, sed do eiusmod tempor incididunt ut labore et dolore magna aliqua. Ut enim ad minim veniam, quis nostrud exercitation ullamco laboris nisi ut aliquip ex ea commodo consequat. Duis aute irure dolor in reprehenderit in voluptate velit esse cillum dolore eu fugiat nulla pariatur. Excepteur sint occaecat cupidatat non proident, sunt in culpa qui officia deserunt mollit anim id est laborum.".toList }

/-- The element of `docs` with the title Vacuum Instructions (`main`, the initial data). -/
def docs_vacuumInstructions : Document :=
  { title := "Vacuum Instructions".toList
    contents := "Chapter 3: Getting Started - Unpacking and Setup\n\nCongratulations on your new SuperClean Pro 5000 vacuum cleaner! In this section, we will guide you through the simple steps to get your vacuum up and running. Before you begin, please ensure that you have all the components listed in the \"Package Contents\" section on page 2.\n\n1. Unboxing Your Vacuum\nCarefully remove the vacuum cleaner from the box. Avoid using sharp objects that could damage the product. Once removed, place the unit on a flat, stable surface to proceed with the setup. Inside the box, you should find:\n\n    The main vacuum unit\n    A telescoping extension wand\n    A set of specialized cleaning tools (crevice tool, upholstery brush, etc.)\n    A reusable dust bag (if applicable)\n    A power cord with a 3-prong plug\n    A set of quick-start instructions\n\n2. Assembling Your Vacuum\nBegin by attaching the extension wand to the main body of the vacuum cleaner. Line up the connectors and twist the wand into place until you hear a click. Next, select the desired cleaning tool and firmly attach it to the wand's end, ensuring it is securely locked in.\n\nFor models that require a dust bag, slide the bag into the compartment at the back of the vacuum, making sure it is properly aligned with the internal mechanism. If your vacuum uses a bagless system, ensure the dust container is correctly seated and locked in place before use.\n\n3. Powering On\nTo start the vacuum, plug the power cord into a grounded electrical outlet. Once plugged in, locate the power switch, usually positioned on the side of the handle or body of the unit, depending on your model. Press the switch to the \"On\" position, and you should hear the motor begin to hum. If the vacuum does not power on, check that the power cord is securely plugged in, and ensure there are no blockages in the power switch.\n\nNote: Before first use, ensure that the vacuum filter (if your model has one) is properly installed. If unsure, refer to \"Section 5: Maintenance\" for filter installation instructions.".toList }

/-- The element of `docs` with the title Article 4 (`main`, the initial data). -/
def docs_article4 : Document :=
  { title := "Article 4".toList
    contents := "Article 4".toList }

/-- The element of `docs` with the title Article 5 (`main`, the initial data). -/
def docs_article5 : Document :=
  { title := "Article 5".toList
    contents := "Article 5".toList }

/-- The array `docs` of `main`. -/
def docs : List Document :=
  [docs_squirrels, docs_loremIpsum, docs_vacuumInstructions, docs_article4, docs_article5]

/-- The world when `main` enters the application loop, from the world `w` the
initialisation of raylib and Clay left: `documents.documents = docs; documents.length = 5;`
(the globals the initialisation does not touch have their initial values). -/
def mainSetup (w : World) : World :=
  { w with
    clayStringBuffers := []
    framecount := 0
    selectedDocumentIndex := 0
    documents := ⟨docs⟩ }

/-- Modelled from the spec: the callbacks of §4.3, which Clay (`clay.h`, not under `src/`)
makes to the registered hover function once the pointer state of the frame is set and not at
declaration time: one call of `HandleSidebarInteraction` for each entry, with any
arguments. -/
def hoverCallbacks : List (Clay_ElementId × Clay_PointerData × Int) → World → World
  | [], w => w
  | (elementId, pointerData, userData) :: rest, w =>
    hoverCallbacks rest (HandleSidebarInteraction elementId pointerData userData w)

/-- The end of an iteration: the frame counter, and the change of `docs[2]`;
`documents.documents` points to `docs`, so the write shows in `documents`. -/
def endOfFrame (w : World) : World :=
  let w :=
    if w.framecount < 2 ^ 32 - 1 then { w with framecount := w.framecount + 1 }
    else { w with framecount := 0 }
  if w.framecount = 200 then
    { w with
      documents :=
        ⟨w.documents.documents.set 2
          { title := "Change-up".toList
            contents := "Testing the dynamic ability of strings with C++ magic!".toList }⟩ }
  else if w.framecount = 400 then w
  else w

/-- One iteration of the application loop of `main`, for what raylib reports in it. -/
def mainLoopBody (env : Env) (input : FrameInput) (w : World) : Except Fault World :=
  let w := updateClayStateInput input.windowWidth input.windowHeight input.mouseX input.mouseY
    input.scrollDeltaX input.scrollDeltaY input.frameTime input.leftButtonDown w
  let w := hoverCallbacks input.hoverCalls w
  match buildLayout env w with
  | .error e => .error e
  | .ok (renderCommands, w) =>
    let w := raylibRender renderCommands w
    let w := clearClayStringBuffers w
    .ok (endOfFrame w)

/-- The document `main` assigns to `docs[2]` when the frame counter is 200. -/
def changeUp : Document :=
  { title := "Change-up".toList
    contents := "Testing the dynamic ability of strings with C++ magic!".toList }

/-- The application loop of `main`, `while (!WindowShouldClose()) { ... }`, for the iterations
in which `WindowShouldClose()` answers false: `frames` has one entry for each, with what
Clay and raylib answer in it. -/
def mainLoop : List (Env × FrameInput) → World → Except Fault World
  | [], w => .ok w
  | (env, input) :: frames, w =>
    match mainLoopBody env input w with
    | .error e => .error e
    | .ok w => mainLoop frames w

/-! ## The calls of one run of `buildLayout`, written out

The lists below are what `buildLayout_steps` proves the run to call, up to the values of the
handles (`Call.erase`); they are used to state and prove the theorems, the program is
`buildLayout` above. -/

/-- A call with its handles (the pointers the `Clay__Store...` functions returned)
replaced by the handle 0. -/
@[simp]
def Call.erase : Call → Call
  | .Clay__AttachLayoutConfig _ => .Clay__AttachLayoutConfig ⟨0⟩
  | .Clay__AttachElementConfig (.rectangleElementConfig _) t =>
    .Clay__AttachElementConfig (.rectangleElementConfig ⟨0⟩) t
  | .Clay__AttachElementConfig (.floatingElementConfig _) t =>
    .Clay__AttachElementConfig (.floatingElementConfig ⟨0⟩) t
  | .Clay__AttachElementConfig (.scrollElementConfig _) t =>
    .Clay__AttachElementConfig (.scrollElementConfig ⟨0⟩) t
  | .Clay__OpenTextElement text _ => .Clay__OpenTextElement text ⟨0⟩
  | c => c

/-- The world `w'` comes from `w` by calls that are `shape` up to handles, by appending
`buffers` to `clayStringBuffers`, and with the documents, the selection and the frame
counter unchanged. -/
structure Steps (w w' : World) (shape : List Call) (buffers : List (List Char)) : Prop where
  calls : w'.calls.map Call.erase = w.calls.map Call.erase ++ shape
  extends_calls : w.calls <+: w'.calls
  clayStringBuffers : w'.clayStringBuffers = w.clayStringBuffers ++ buffers
  documents : w'.documents = w.documents
  selectedDocumentIndex : w'.selectedDocumentIndex = w.selectedDocumentIndex
  framecount : w'.framecount = w.framecount

/-- The `Clay_String` of the array `str` of a literal. -/
def literalOf (str : List Char) : Clay_String :=
  { length := toInt32 (sizeMinusOne str.length), chars := .literal str }

/-- The call `attachClayID(s)` makes. -/
def idCall (env : Env) (s : String) : Call :=
  .Clay__AttachId (env.Clay__HashString (literalOf (lit s)) 0 0)

/-- The calls of a store of a layout record and its attach. -/
def layoutCalls (config : Clay_LayoutConfig) : List Call :=
  [.Clay__StoreLayoutConfig config, .Clay__AttachLayoutConfig ⟨0⟩]

/-- The calls of a store of a rectangle record and its attach. -/
def rectangleCalls (config : Clay_RectangleElementConfig) : List Call :=
  [.Clay__StoreRectangleElementConfig config,
    .Clay__AttachElementConfig (.rectangleElementConfig ⟨0⟩) .CLAY__ELEMENT_CONFIG_TYPE_RECTANGLE]

/-- The calls of a store of a floating record and its attach. -/
def floatingCalls (config : Clay_FloatingElementConfig) : List Call :=
  [.Clay__StoreFloatingElementConfig config,
    .Clay__AttachElementConfig (.floatingElementConfig ⟨0⟩)
      .CLAY__ELEMENT_CONFIG_TYPE_FLOATING_CONTAINER]

/-- The calls of a store of a scroll record and its attach. -/
def scrollCalls (config : Clay_ScrollElementConfig) : List Call :=
  [.Clay__StoreScrollElementConfig config,
    .Clay__AttachElementConfig (.scrollElementConfig ⟨0⟩)
      .CLAY__ELEMENT_CONFIG_TYPE_SCROLL_CONTAINER]

/-- The calls of `clayTextElement(text, config)`. -/
def textCalls (text : Clay_String) (config : Clay_TextElementConfig) : List Call :=
  [.Clay__StoreTextElementConfig config, .Clay__OpenTextElement text ⟨0⟩]

/-- The buffer `toClayString(str)` makes. -/
def copyOf (str : List Char) : List Char := strcpy (make_unique (str.length + 1)) (c_str str)

/-- The calls of `clayTextElement(toClayString(str), config)` when `clayStringBuffers` holds
`slot` buffers. -/
def dynamicTextCalls (slot : Nat) (str : List Char) (config : Clay_TextElementConfig) :
    List Call :=
  .push_back (copyOf str) :: textCalls { length := toInt32 str.length, chars := .buffer slot } config

/-- The calls of one element: the open, the configuration, the post-configuration, the
children, the close. -/
def elementCalls (config children : List Call) : List Call :=
  .Clay__OpenElement :: (config ++ .Clay__ElementPostConfiguration :: (children ++ [.Clay__CloseElement]))

/-- The calls of `RenderHeaderButton(toClayString(s))`. -/
def headerButtonCalls (s : String) : List Call :=
  elementCalls
    (layoutCalls headerButtonLayoutConfig
      ++ rectangleCalls { color := ⟨140, 140, 140, 255⟩, cornerRadius := 5 })
    (textCalls (literalOf (lit s)) headerButtonTextConfig)

/-- The calls of `RenderDropdownMenuItem(toClayString(s))`. -/
def dropdownItemCalls (s : String) : List Call :=
  elementCalls (layoutCalls dropdownItemLayoutConfig)
    (textCalls (literalOf (lit s)) headerButtonTextConfig)

/-- The value of `fileMenuVisible`. -/
def fileMenuVisible (env : Env) : Bool :=
  env.Clay_PointerOver (env.Clay_GetElementId (literalOf (lit "FileButton")))
    || env.Clay_PointerOver (env.Clay_GetElementId (literalOf (lit "FileMenu")))

/-- The calls of the "FileMenu" element. -/
def fileMenuCalls (env : Env) : List Call :=
  elementCalls
    (idCall env "FileMenu" :: (floatingCalls { attachParent := .CLAY_ATTACH_POINT_LEFT_BOTTOM }
      ++ layoutCalls { padding := ⟨0, 0, 8, 8⟩ }))
    (elementCalls
      (layoutCalls
          { sizing := { width := { min := 200, max := 200, type := .CLAY__SIZING_TYPE_FIXED } }
            layoutDirection := .CLAY_TOP_TO_BOTTOM }
        ++ rectangleCalls { color := ⟨40, 40, 40, 255⟩, cornerRadius := 8 })
      (dropdownItemCalls "New" ++ (dropdownItemCalls "Open" ++ dropdownItemCalls "Close")))

/-- The calls of the children of the "FileButton" element. -/
def fileButtonChildrenCalls (env : Env) : List Call :=
  textCalls (literalOf (lit "File")) headerButtonTextConfig
    ++ (if fileMenuVisible env then fileMenuCalls env else [])

/-- The calls of the "HeaderBar" element. -/
def headerBarCalls (env : Env) : List Call :=
  elementCalls
    (idCall env "HeaderBar" :: (rectangleCalls contentBackgroundConfig
      ++ layoutCalls
          { sizing :=
              { width := { min := 0, type := .CLAY__SIZING_TYPE_GROW }
                height := { min := 60, max := 60, type := .CLAY__SIZING_TYPE_FIXED } }
            padding := ⟨16, 16, 0, 0⟩
            childGap := 16
            childAlignmentY := .CLAY_ALIGN_Y_CENTER }))
    (elementCalls
        (idCall env "FileButton" :: (layoutCalls { padding := ⟨16, 16, 8, 8⟩ }
          ++ rectangleCalls { color := ⟨140, 140, 140, 255⟩, cornerRadius := 5 }))
        (fileButtonChildrenCalls env)
      ++ (headerButtonCalls "Edit"
      ++ (elementCalls
            (layoutCalls { sizing := { width := { min := 0, type := .CLAY__SIZING_TYPE_GROW } } })
            []
      ++ (headerButtonCalls "Upload" ++ (headerButtonCalls "Media" ++ headerButtonCalls "Support")))))

/-- The calls of the sidebar item of the document with index `i` and title `title`, when
`clayStringBuffers` holds `slot` buffers; `hovered` is the answer of `Clay_Hovered`. -/
def sidebarItemCalls (slot i : Nat) (selected hovered : Bool) (title : List Char) : List Call :=
  if selected then
    elementCalls
      (layoutCalls sidebarButtonLayout
        ++ rectangleCalls { color := ⟨120, 120, 120, 255⟩, cornerRadius := 8 })
      (dynamicTextCalls slot title sidebarButtonTextConfig)
  else
    elementCalls
      (layoutCalls sidebarButtonLayout
        ++ .Clay_OnHover .HandleSidebarInteraction i
          :: (if hovered then rectangleCalls { color := ⟨120, 120, 120, 120⟩, cornerRadius := 8 }
              else []))
      (dynamicTextCalls slot title sidebarButtonTextConfig)

/-- The calls of the sidebar items of the documents `ds`, the first of which has index `i`;
`hovered` gives the answers of `Clay_Hovered`, one for each item (used for the items that
are not selected). -/
def sidebarItemsCalls (selectedDocumentIndex : Nat) :
    Nat → Nat → List Document → List Bool → List Call
  | _, _, [], _ => []
  | slot, i, d :: ds, hovered =>
    sidebarItemCalls slot i (i == selectedDocumentIndex) (hovered.headD false) d.title
      ++ sidebarItemsCalls selectedDocumentIndex (slot + 1) (i + 1) ds hovered.tail

/-- The calls of the "LowerContent" element, when `clayStringBuffers` holds `slot` buffers
at its start, for the document `selected` that is selected. -/
def lowerContentCalls (env : Env) (slot selectedDocumentIndex : Nat) (ds : List Document)
    (selected : Document) (hovered : List Bool) : List Call :=
  elementCalls
    (idCall env "LowerContent" :: layoutCalls { sizing := layoutExpandXY, childGap := 16 })
    (elementCalls
        (idCall env "Sidebar" :: (rectangleCalls contentBackgroundConfig
          ++ layoutCalls
              { sizing :=
                  { width := { min := 250, max := 250, type := .CLAY__SIZING_TYPE_FIXED }
                    height := { min := 0, type := .CLAY__SIZING_TYPE_GROW } }
                padding := ⟨16, 16, 16, 16⟩
                childGap := 8
                layoutDirection := .CLAY_TOP_TO_BOTTOM }))
        (sidebarItemsCalls selectedDocumentIndex slot 0 ds hovered)
      ++ elementCalls
        (idCall env "MainContent" :: (rectangleCalls contentBackgroundConfig
          ++ (scrollCalls { vertical := true }
          ++ layoutCalls
              { sizing := layoutExpandXY
                padding := ⟨16, 16, 16, 16⟩
                childGap := 16
                layoutDirection := .CLAY_TOP_TO_BOTTOM })))
        (dynamicTextCalls (slot + ds.length) selected.title documentTextConfig
          ++ dynamicTextCalls (slot + ds.length + 1) selected.contents documentTextConfig))

/-- The calls of the children of the "OuterContainer" element. -/
def outerContainerChildrenCalls (env : Env) (slot selectedDocumentIndex : Nat)
    (ds : List Document) (selected : Document) (hovered : List Bool) : List Call :=
  headerBarCalls env ++ lowerContentCalls env slot selectedDocumentIndex ds selected hovered

/-- The calls of one run of `buildLayout`. -/
def buildLayoutCalls (env : Env) (slot selectedDocumentIndex : Nat) (ds : List Document)
    (selected : Document) (hovered : List Bool) : List Call :=
  .Clay_BeginLayout
    :: (elementCalls
        (idCall env "OuterContainer" :: (rectangleCalls { color := ⟨43, 41, 51, 255⟩ }
          ++ layoutCalls
              { sizing := layoutExpandXY
                padding := ⟨16, 16, 16, 16⟩
                childGap := 16
                layoutDirection := .CLAY_TOP_TO_BOTTOM }))
        (outerContainerChildrenCalls env slot selectedDocumentIndex ds selected hovered)
      ++ [.Clay_EndLayout])

/-- The buffers one run of `buildLayout` appends to `clayStringBuffers`. -/
def buildLayoutBuffers (ds : List Document) (selected : Document) : List (List Char) :=
  ds.map (fun d => copyOf d.title) ++ [copyOf selected.title, copyOf selected.contents]

/-- The calls of one run of `buildLayout` that come before the "FileButton" element: the
start of the layout and the open and the configuration of the "OuterContainer" and
"HeaderBar" elements. -/
def beforeFileButtonCalls (env : Env) : List Call :=
  .Clay_BeginLayout :: .Clay__OpenElement
    :: ((idCall env "OuterContainer" :: (rectangleCalls { color := ⟨43, 41, 51, 255⟩ }
          ++ layoutCalls
              { sizing := layoutExpandXY
                padding := ⟨16, 16, 16, 16⟩
                childGap := 16
                layoutDirection := .CLAY_TOP_TO_BOTTOM }))
      ++ .Clay__ElementPostConfiguration :: .Clay__OpenElement
        :: ((idCall env "HeaderBar" :: (rectangleCalls contentBackgroundConfig
              ++ layoutCalls
                  { sizing :=
                      { width := { min := 0, type := .CLAY__SIZING_TYPE_GROW }
                        height := { min := 60, max := 60, type := .CLAY__SIZING_TYPE_FIXED } }
                    padding := ⟨16, 16, 0, 0⟩
                    childGap := 16
                    childAlignmentY := .CLAY_ALIGN_Y_CENTER }))
          ++ [.Clay__ElementPostConfiguration]))

/-- The calls of one run of `buildLayout` that come after the "FileButton" element: the
other children of the "HeaderBar" element and its close, the "LowerContent" element, the
close of the "OuterContainer" element and the end of the layout. -/
def afterFileButtonCalls (env : Env) (slot selectedDocumentIndex : Nat) (ds : List Document)
    (selected : Document) (hovered : List Bool) : List Call :=
  headerButtonCalls "Edit"
    ++ (elementCalls
          (layoutCalls { sizing := { width := { min := 0, type := .CLAY__SIZING_TYPE_GROW } } })
          []
    ++ (headerButtonCalls "Upload" ++ (headerButtonCalls "Media" ++ (headerButtonCalls "Support"
    ++ .Clay__CloseElement
      :: (lowerContentCalls env slot selectedDocumentIndex ds selected hovered
        ++ [.Clay__CloseElement, .Clay_EndLayout])))))

/-- The world `w'` comes from `w` by the steps of `Steps` and has the same value of the
definition latch. -/
structure Straight (w w' : World) (shape : List Call) (buffers : List (List Char)) : Prop where
  steps : Steps w w' shape buffers
  latch : w'.CLAY__ELEMENT_DEFINITION_LATCH = w.CLAY__ELEMENT_DEFINITION_LATCH

/-- The run of `f` from `w` ends without a fault, in a world that comes from `w` by the
steps of `Steps` and in which the definition latch is at most `k`. -/
def Runs (f : World → Except Fault World) (w : World) (shape : List Call)
    (buffers : List (List Char)) (k : Nat) : Prop :=
  ∃ w', f w = .ok w' ∧ Steps w w' shape buffers ∧ w'.CLAY__ELEMENT_DEFINITION_LATCH ≤ k

/-! ## Reading a sequence of calls -/

/-- Whether a call is `Clay__OpenElement()`. -/
def Call.isOpen : Call → Bool
  | .Clay__OpenElement => true
  | _ => false

/-- Whether a call is `Clay__CloseElement()`. -/
def Call.isClose : Call → Bool
  | .Clay__CloseElement => true
  | _ => false

/-- The number of `Clay__OpenElement` calls in a sequence of calls. -/
def opens (l : List Call) : Nat := l.countP Call.isOpen

/-- The number of `Clay__CloseElement` calls in a sequence of calls. -/
def closes (l : List Call) : Nat := l.countP Call.isClose

/-- The configuration categories of a container element. -/
inductive Category where
  | layout
  | rectangle
  | floating
  | scroll
deriving DecidableEq, Repr

/-- The category of the record a call attaches to the open element, if the call is an
attach: `Clay__AttachLayoutConfig` attaches a layout record, `Clay__AttachElementConfig` a
record of the category its `type` argument names. -/
def Call.attached : Call → Option Category
  | .Clay__AttachLayoutConfig _ => some .layout
  | .Clay__AttachElementConfig _ .CLAY__ELEMENT_CONFIG_TYPE_RECTANGLE => some .rectangle
  | .Clay__AttachElementConfig _ .CLAY__ELEMENT_CONFIG_TYPE_FLOATING_CONTAINER => some .floating
  | .Clay__AttachElementConfig _ .CLAY__ELEMENT_CONFIG_TYPE_SCROLL_CONTAINER => some .scroll
  | _ => none

/-- The categories of the records attached from the start of a sequence of calls up to its
first `Clay__ElementPostConfiguration`, in order. -/
def configOf : List Call → List Category
  | [] => []
  | .Clay__ElementPostConfiguration :: _ => []
  | c :: rest =>
    match c.attached with
    | some category => category :: configOf rest
    | none => configOf rest

/-- For each `Clay__OpenElement` of a sequence of calls, in order, the categories of the
records attached between it and the next `Clay__ElementPostConfiguration`. -/
def elementsConfig : List Call → List (List Category)
  | [] => []
  | .Clay__OpenElement :: rest => configOf rest :: elementsConfig rest
  | _ :: rest => elementsConfig rest

/-- Whether a call may stand between the open of an element and its post-configuration in
this program: an identifier, a store, an attach, a hover registration. -/
def Call.isConfig : Call → Bool
  | .Clay__AttachId _ => true
  | .Clay__StoreLayoutConfig _ => true
  | .Clay__StoreRectangleElementConfig _ => true
  | .Clay__StoreFloatingElementConfig _ => true
  | .Clay__StoreScrollElementConfig _ => true
  | .Clay__AttachLayoutConfig _ => true
  | .Clay__AttachElementConfig _ _ => true
  | .Clay_OnHover _ _ => true
  | _ => false

/-- Whether a call belongs to the declaration of a text leaf: the copy of a dynamic string,
the store of the text style, the text element. -/
def Call.isText : Call → Bool
  | .push_back _ => true
  | .Clay__StoreTextElementConfig _ => true
  | .Clay__OpenTextElement _ _ => true
  | _ => false

/-- A configuration section in which no category gets two records and the layout category
gets one. -/
def ValidConfig (config : List Call) : Prop :=
  (∀ c ∈ config, c.isConfig = true)
    ∧ (config.filterMap Call.attached).Nodup
    ∧ Category.layout ∈ config.filterMap Call.attached

/-- The sequences of calls that declare a list of sibling nodes: a text leaf, or an element
with a valid configuration section whose children are such a sequence. -/
inductive Decl : List Call → Prop where
  | nil : Decl []
  | text {c : Call} {rest : List Call} : c.isText = true → Decl rest → Decl (c :: rest)
  | element {config children rest : List Call} :
      ValidConfig config → Decl children → Decl rest →
      Decl (elementCalls config children ++ rest)

/-- The nesting depth after a sequence of calls that starts at depth `d`: an open adds one,
a close takes one; `none` when a close comes at depth 0. -/
def nesting : Nat → List Call → Option Nat
  | d, [] => some d
  | d, c :: rest =>
    if c.isOpen then nesting (d + 1) rest
    else if c.isClose then (if d = 0 then none else nesting (d - 1) rest)
    else nesting d rest

/-- A library for examples: the identifier of a name is the number of its characters, the
pointer is over the element with identifier 10 only ("FileButton"), the open element is
hovered when an even number of calls has been made, and the command array has one command
for each call. -/
def sampleEnv : Env where
  Clay__HashString := fun s _ _ => ⟨s.length.toNat⟩
  Clay_GetElementId := fun s => ⟨s.length.toNat⟩
  Clay_PointerOver := fun id => id.id == 10
  Clay_Hovered := fun l => l.length % 2 == 0
  Clay_EndLayout := fun l => ⟨l.length, l.length, 0⟩

/-- A world with 2^31 documents, all empty, the first one selected. -/
def manyDocuments : World :=
  { documents := ⟨List.replicate (2 ^ 31) { title := [], contents := [] }⟩ }

/-- The steps of one iteration of the application loop that a call belongs to. -/
inductive Phase where
  | snapshot
  | beginLayout
  | declaration
  | endLayout
  | render
  | release
deriving DecidableEq, Repr

/-- The step a call belongs to: the three calls of `updateClayStateInput` take the input
snapshot; between `Clay_BeginLayout` and `Clay_EndLayout` the tree is declared, the copies
`toClayString` puts in `clayStringBuffers` included; the four calls of `raylibRender` render;
`clayStringBuffers.clear()` releases the dynamic text arena. -/
def Call.phase : Call → Phase
  | .Clay_SetLayoutDimensions _ => .snapshot
  | .Clay_SetPointerState _ _ => .snapshot
  | .Clay_UpdateScrollContainers _ _ _ => .snapshot
  | .Clay_BeginLayout => .beginLayout
  | .Clay_EndLayout => .endLayout
  | .BeginDrawing => .render
  | .ClearBackground => .render
  | .Clay_Raylib_Render _ => .render
  | .EndDrawing => .render
  | .clear => .release
  | _ => .declaration

/-- The worlds at the start of an iteration of the application loop of `main`: the one
`main` sets up, and the one an iteration leaves, for whatever raylib and Clay answer. -/
inductive Reachable : World → Prop where
  | setup (w : World) : Reachable (mainSetup w)
  | loop {env : Env} {input : FrameInput} {w w' : World} :
      Reachable w → mainLoopBody env input w = .ok w' → Reachable w'

/-- An input for examples: a window of 1024 by 768, the pointer at (10, 10) with the button
down, no scrolling, and one callback, a press on the sidebar item of index 3. -/
def sampleInput : FrameInput where
  windowWidth := ⟨1024⟩
  windowHeight := ⟨768⟩
  mouseX := ⟨10⟩
  mouseY := ⟨10⟩
  scrollDeltaX := ⟨0⟩
  scrollDeltaY := ⟨0⟩
  frameTime := ⟨16⟩
  leftButtonDown := true
  hoverCalls := [(⟨0⟩, ⟨⟨⟨10⟩, ⟨10⟩⟩, .CLAY_POINTER_DATA_PRESSED_THIS_FRAME⟩, 3)]

/-- Any number of `toClayString` calls one after the other, on the strings of `strs`. -/
def toClayStrings (strs : List (List Char)) (w : World) : World :=
  strs.foldl (fun w str => (toClayString str w).2) w

/-- The registration a call makes, if the call is `Clay_OnHover`: the function and the user
data. -/
def Call.onHover : Call → Option (HoverFunction × Int)
  | .Clay_OnHover onHoverFunction userData => some (onHoverFunction, userData)
  | _ => none

/-- The buffer a call appends to `clayStringBuffers`, if the call is its `push_back`. -/
def Call.pushed : Call → Option (List Char)
  | .push_back buffer => some buffer
  | _ => none

/-- The content of `clayStringBuffers` after a sequence of calls, from the content
`buffers`: `push_back` appends a buffer, `clear` empties the vector, and no other call
touches it. -/
def buffersAfter : List (List Char) → List Call → List (List Char)
  | buffers, [] => buffers
  | buffers, .push_back buffer :: rest => buffersAfter (buffers ++ [buffer]) rest
  | _, .clear :: rest => buffersAfter [] rest
  | buffers, _ :: rest => buffersAfter buffers rest

/-- The identifier a call attaches to the open element, if the call is `Clay__AttachId`. -/
def Call.attachedId : Call → Option Clay_ElementId
  | .Clay__AttachId id => some id
  | _ => none

/-- A library for examples whose hash tells the indices apart: the identifier of a name is
the number of its characters plus 1000 times the index plus 1000000 times the seed. -/
def indexedEnv : Env :=
  { sampleEnv with
    Clay__HashString := fun s index seed => ⟨s.length.toNat + 1000 * index + 1000000 * seed⟩ }

/-- An element without children that is declared with the name of the literal `str`, the
way `buildLayout` declares its named elements: the open, `attachClayID(str)`, a layout
record, the post-configuration, the close. -/
def namedElement (env : Env) (str : List Char) (w : World) : World :=
  w |> Clay__OpenElement
    |> attachClayID env str
    |> storeAndAttachLayout {}
    |> Clay__ElementPostConfiguration
    |> Clay__CloseElement

/-- The end-to-end scenario of §8 of the spec, written with the functions of the program: a
root element with three children that are declared with the same name "A", at the
positions 0, 1 and 2. -/
def threeChildren (env : Env) (w : World) : World :=
  w |> Clay_BeginLayout
    |> Clay__OpenElement
    |> attachClayID env (lit "Root")
    |> storeAndAttachLayout {}
    |> Clay__ElementPostConfiguration
    |> namedElement env (lit "A")
    |> namedElement env (lit "A")
    |> namedElement env (lit "A")
    |> Clay__CloseElement

/-- The names `buildLayout` gives to elements, in the order of the declarations; "FileMenu"
is among them when the file menu is shown. -/
def elementNames (fileMenu : Bool) : List String :=
  ["OuterContainer", "HeaderBar", "FileButton"] ++ (if fileMenu then ["FileMenu"] else [])
    ++ ["LowerContent", "Sidebar", "MainContent"]

/-! ## The run of `buildLayout` up to undefined behaviour

The functions of this section are the parts of `buildLayout` in which undefined behaviour
can be reached (the reads of `documents.documents`, the counter of the sidebar loop), written
as above with one difference: a fault comes with the world in which it is reached, so the
calls made before it are kept. -/

/-- The function `sidebarItemChildren`, a fault coming with the world in which it is
reached. -/
def sidebarItemChildrenTraced (i : Int) (w : World) : Except (Fault × World) World :=
  match documentAt w i with
  | .error e => .error (e, w)
  | .ok d =>
    let str := d.title
    .ok (callWith (toClayString str) (fun s => clayTextElement s sidebarButtonTextConfig) w)

/-- The iterations of the `for` idiom as in `forLatchFrom`, for a body whose faults come with
their world. -/
def forLatchFromTraced (body : World → Except (Fault × World) World) :
    Nat → World → Except (Fault × World) World
  | 0, w => .error (.loopBound, w)
  | tests + 1, w =>
    if w.CLAY__ELEMENT_DEFINITION_LATCH < 1 then
      match body w with
      | .error e => .error e
      | .ok w =>
        forLatchFromTraced body tests
          (Clay__CloseElement
            { w with
              CLAY__ELEMENT_DEFINITION_LATCH := (w.CLAY__ELEMENT_DEFINITION_LATCH + 1) % 256 })
    else .ok w

/-- The `for` idiom as in `forLatch`, for a body whose faults come with their world. -/
def forLatchTraced (init : World → World) (body : World → Except (Fault × World) World)
    (w : World) : Except (Fault × World) World :=
  forLatchFromTraced body 2 { init w with CLAY__ELEMENT_DEFINITION_LATCH := 0 }

/-- The element of macro 9 as in `selectedItemElement`, a fault coming with its world. -/
def selectedItemElementTraced (i : Int) (w : World) : Except (Fault × World) World :=
  forLatchTraced
    (fun w => w
      |> Clay__OpenElement
      |> storeAndAttachLayout sidebarButtonLayout
      |> storeAndAttachRectangle { color := ⟨120, 120, 120, 255⟩, cornerRadius := 8 }
      |> Clay__ElementPostConfiguration)
    (sidebarItemChildrenTraced i) w

/-- The element of macro 10 as in `otherItemElement`, a fault coming with its world. -/
def otherItemElementTraced (env : Env) (i : Int) (w : World) : Except (Fault × World) World :=
  forLatchTraced
    (fun w => w
      |> Clay__OpenElement
      |> storeAndAttachLayout sidebarButtonLayout
      |> Clay_OnHover .HandleSidebarInteraction i
      |> attachRectangleIfHovered env
      |> Clay__ElementPostConfiguration)
    (sidebarItemChildrenTraced i) w

/-- The body of the sidebar item loop as in `sidebarItem`, a fault coming with its world. -/
def sidebarItemTraced (env : Env) (i : Int) (w : World) : Except (Fault × World) World :=
  if toUInt32 i = w.selectedDocumentIndex then selectedItemElementTraced i w
  else otherItemElementTraced env i w

/-- The loop `for (int i = 0; i < documents.length; i++)` as in `sidebarLoop`, a fault coming
with its world: the overflow of `i++` is reached in the world the item of the largest `int`
left. -/
def sidebarLoopTraced (env : Env) : Nat → Int → World → Except (Fault × World) World
  | 0, _, w => .error (.loopBound, w)
  | tests + 1, i, w =>
    if toUInt32 i < w.documents.length then
      match sidebarItemTraced env i w with
      | .error e => .error e
      | .ok w =>
        if i = INT_MAX then .error (.signedOverflow, w)
        else sidebarLoopTraced env tests (i + 1) w
    else .ok w

/-- The "Sidebar" element as in `sidebarElement`, a fault coming with its world. -/
def sidebarElementTraced (env : Env) (w : World) : Except (Fault × World) World :=
  forLatchTraced
    (fun w => w
      |> Clay__OpenElement
      |> attachClayID env (lit "Sidebar")
      |> storeAndAttachRectangle contentBackgroundConfig
      |> storeAndAttachLayout
          { sizing :=
              { width := { min := 250, max := 250, type := .CLAY__SIZING_TYPE_FIXED }
                height := { min := 0, type := .CLAY__SIZING_TYPE_GROW } }
            padding := ⟨16, 16, 16, 16⟩
            childGap := 8
            layoutDirection := .CLAY_TOP_TO_BOTTOM }
      |> Clay__ElementPostConfiguration)
    (fun w => sidebarLoopTraced env (w.documents.length + 1) 0 w) w

/-- The children of the "MainContent" element as in `mainContentChildren`, a fault coming
with the world in which the read is made. -/
def mainContentChildrenTraced (w : World) : Except (Fault × World) World :=
  match documentAt w w.selectedDocumentIndex with
  | .error e => .error (e, w)
  | .ok d =>
    let w := callWith (toClayString d.title) (fun s => clayTextElement s documentTextConfig) w
    match documentAt w w.selectedDocumentIndex with
    | .error e => .error (e, w)
    | .ok d =>
      .ok (callWith (toClayString d.contents) (fun s => clayTextElement s documentTextConfig) w)

/-- The "MainContent" element as in `mainContentElement`, a fault coming with its world. -/
def mainContentElementTraced (env : Env) (w : World) : Except (Fault × World) World :=
  forLatchTraced
    (fun w => w
      |> Clay__OpenElement
      |> attachClayID env (lit "MainContent")
      |> storeAndAttachRectangle contentBackgroundConfig
      |> storeAndAttachScroll { vertical := true }
      |> storeAndAttachLayout
          { sizing := layoutExpandXY
            padding := ⟨16, 16, 16, 16⟩
            childGap := 16
            layoutDirection := .CLAY_TOP_TO_BOTTOM }
      |> Clay__ElementPostConfiguration)
    mainContentChildrenTraced w

/-- The children of the "LowerContent" element as in `lowerContentChildren`, a fault coming
with its world. -/
def lowerContentChildrenTraced (env : Env) (w : World) : Except (Fault × World) World :=
  match sidebarElementTraced env w with
  | .error e => .error e
  | .ok w => mainContentElementTraced env w

/-- The "LowerContent" element as in `lowerContentElement`, a fault coming with its world. -/
def lowerContentElementTraced (env : Env) (w : World) : Except (Fault × World) World :=
  forLatchTraced
    (fun w => w
      |> Clay__OpenElement
      |> attachClayID env (lit "LowerContent")
      |> storeAndAttachLayout { sizing := layoutExpandXY, childGap := 16 }
      |> Clay__ElementPostConfiguration)
    (lowerContentChildrenTraced env) w

/-- The children of the "OuterContainer" element as in `outerContainerChildren`, a fault
coming with its world. The "HeaderBar" element reads no document and counts nothing, it
never faults (`headerBarElement_runs`), so it is taken as it is. -/
def outerContainerChildrenTraced (env : Env) (w : World) : Except (Fault × World) World :=
  match headerBarElement env w with
  | .error e => .error (e, w)
  | .ok w => lowerContentElementTraced env w

/-- The function `buildLayout`, a fault coming with the world in which it is reached: the
result is what `buildLayout` returns, or the fault and the world, with all calls made so
far, in which the run reaches undefined behaviour. -/
def buildLayoutTraced (env : Env) (w : World) :
    Except (Fault × World) (Clay_RenderCommandArray × World) :=
  match
    outerContainerChildrenTraced env (w
      |> Clay_BeginLayout
      |> Clay__OpenElement
      |> attachClayID env (lit "OuterContainer")
      |> storeAndAttachRectangle { color := ⟨43, 41, 51, 255⟩ }
      |> storeAndAttachLayout
          { sizing := layoutExpandXY
            padding := ⟨16, 16, 16, 16⟩
            childGap := 16
            layoutDirection := .CLAY_TOP_TO_BOTTOM }
      |> Clay__ElementPostConfiguration)
  with
  | .error e => .error e
  | .ok w => .ok (Clay_EndLayout env (Clay__CloseElement w))

/-- The sequences of calls of a declaration that has stopped: sibling nodes that are
complete, or complete sibling nodes and then an element that is open, after its valid
configuration section and its post-configuration, inside which the declaration has stopped
in the same way. -/
inductive Stopped : List Call → Prop where
  | complete {l : List Call} : Decl l → Stopped l
  | inside {before config inner : List Call} :
      Decl before → ValidConfig config → Stopped inner →
      Stopped (before ++ .Clay__OpenElement
        :: (config ++ .Clay__ElementPostConfiguration :: inner))

/-- What a part of the run from `w` with the result `r` has declared: if it ended, complete
sibling nodes, and the definition latch is at most `k`; if it reached a fault, a stopped
declaration. -/
def Declares (r : Except (Fault × World) World) (w : World) (k : Nat) : Prop :=
  (∀ w', r = .ok w' →
      ∃ seg, w'.calls = w.calls ++ seg ∧ Decl (seg.map Call.erase)
        ∧ w'.CLAY__ELEMENT_DEFINITION_LATCH ≤ k)
    ∧ (∀ e wf, r = .error (e, wf) →
      ∃ seg, wf.calls = w.calls ++ seg ∧ Stopped (seg.map Call.erase))

/-! ## Theorems -/

/-! ### The string copy -/

theorem strcpy_replicate (str : List Char) (k : Nat) :
    strcpy (List.replicate (str.length + 1 + k) NUL) (c_str str)
      = str.takeWhile (fun c => c ≠ NUL)
          ++ List.replicate (str.length + 1 + k - (str.takeWhile (fun c => c ≠ NUL)).length) NUL := by
  induction str with
  | nil =>
    have e : ([] : List Char).length + 1 + k = k + 1 := by simp; omega
    rw [e, List.replicate_succ]
    simp [c_str, strcpy, List.replicate_succ]
  | cons c cs ih =>
    have e : (c :: cs).length + 1 + k = (cs.length + 1 + k) + 1 := by simp; omega
    rw [e, List.replicate_succ]
    by_cases hc : c = NUL
    · simp [c_str, strcpy, hc, List.replicate_succ]
    · have ih2 := ih
      simp only [c_str] at ih2
      simp [c_str, strcpy, hc, ih2]

theorem takeWhile_ne_NUL (str : List Char) (h : NUL ∉ str) :
    str.takeWhile (fun c => c ≠ NUL) = str := by
  induction str with
  | nil => rfl
  | cons c cs ih =>
    have h1 : c ≠ NUL := fun e => h (by simp [e])
    have h2 : NUL ∉ cs := fun e => h (by simp [e])
    simp only [List.takeWhile, h1, ne_eq, not_false_eq_true, decide_True, ih h2]

theorem strcpy_c_str (str : List Char) (h : NUL ∉ str) :
    strcpy (make_unique (str.length + 1)) (c_str str) = str ++ [NUL] := by
  have := strcpy_replicate str 0
  simp only [Nat.add_zero] at this
  rw [make_unique, this, takeWhile_ne_NUL str h]
  simp

theorem toInt32_of_lt (n : Nat) (h : n < 2 ^ 31) : toInt32 n = n := by
  have h1 : n % 2 ^ 32 = n := Nat.mod_eq_of_lt (by omega)
  unfold toInt32
  rw [h1, if_pos h]

/-- For a string without an embedded terminator and of size below 2^31, `toClayString`
returns the size as length and a buffer that holds the characters and then a terminator. -/
theorem toClayString_of_not_mem_NUL (str : List Char) (w : World) (h : NUL ∉ str)
    (hsize : str.length < 2 ^ 31) :
    (toClayString str w).1.length = str.length
      ∧ (toClayString str w).2.deref (toClayString str w).1.chars = some (str ++ [NUL])
      ∧ (toClayString str w).2.text (toClayString str w).1 = some str := by
  simp [toClayString, World.text, World.deref, World.emit, strcpy_c_str str h,
    toInt32_of_lt _ hsize]

theorem toClayStrings_clayStringBuffers (strs : List (List Char)) (w : World) :
    ∃ added, (toClayStrings strs w).clayStringBuffers = w.clayStringBuffers ++ added := by
  induction strs generalizing w with
  | nil => exact ⟨[], by simp [toClayStrings]⟩
  | cons str strs ih =>
    obtain ⟨added, h⟩ := ih (toClayString str w).2
    refine ⟨strcpy (make_unique (str.length + 1)) (c_str str) :: added, ?_⟩
    simp only [toClayStrings, List.foldl_cons] at h ⊢
    rw [h]
    simp [toClayString, World.emit]

theorem toClayString_literal_length (str : List Char) (w : World) :
    (toClayString_literal str w).1.length = toInt32 (sizeMinusOne str.length) := by
  simp only [toClayString_literal]

/-! ### C1 -/

/-- C1, at a string with an embedded terminator: for the `std::string` of the three
characters `a`, NUL, `b`, `toClayString` returns length 3 and a buffer whose first three
characters are `a`, NUL, NUL: `strcpy` stopped at the embedded terminator, so the buffer
does not hold the characters of the string. -/
theorem toClayString_embedded_NUL :
    (toClayString ['a', NUL, 'b'] {}).1.length = 3
      ∧ (toClayString ['a', NUL, 'b'] {}).2.deref (toClayString ['a', NUL, 'b'] {}).1.chars
          = some ['a', NUL, NUL, NUL]
      ∧ (toClayString ['a', NUL, 'b'] {}).2.text (toClayString ['a', NUL, 'b'] {}).1
          = some ['a', NUL, NUL]
      ∧ (toClayString ['a', NUL, 'b'] {}).2.text (toClayString ['a', NUL, 'b'] {}).1
          ≠ some ['a', NUL, 'b'] := by
  decide

/-! ### C2 -/

/-- C2: `toClayString(s)` appends exactly one buffer (the copy it made) to
`clayStringBuffers`, every buffer that was there is still at its position, the returned
`chars` points to the appended last buffer, it still points to that buffer after any
number of later `toClayString` calls, and dangles once `clearClayStringBuffers` ran. -/
theorem toClayString_appends_one_buffer (str : List Char) (w : World) :
    (toClayString str w).2.clayStringBuffers
        = w.clayStringBuffers ++ [strcpy (make_unique (str.length + 1)) (c_str str)]
      ∧ (toClayString str w).2.clayStringBuffers.length = w.clayStringBuffers.length + 1
      ∧ (∀ i : Fin w.clayStringBuffers.length,
          (toClayString str w).2.clayStringBuffers[i.val]? = some (w.clayStringBuffers.get i))
      ∧ (toClayString str w).2.deref (toClayString str w).1.chars
          = (toClayString str w).2.clayStringBuffers.getLast?
      ∧ (toClayString str w).2.deref (toClayString str w).1.chars
          = some (strcpy (make_unique (str.length + 1)) (c_str str))
      ∧ (∀ later : List (List Char),
          (toClayStrings later (toClayString str w).2).deref (toClayString str w).1.chars
            = (toClayString str w).2.deref (toClayString str w).1.chars)
      ∧ (clearClayStringBuffers (toClayString str w).2).deref (toClayString str w).1.chars
          = none := by
  have hb : (toClayString str w).2.clayStringBuffers
      = w.clayStringBuffers ++ [strcpy (make_unique (str.length + 1)) (c_str str)] := by
    simp [toClayString, World.emit]
  have hc : (toClayString str w).1.chars = .buffer w.clayStringBuffers.length := rfl
  have hd : (toClayString str w).2.deref (toClayString str w).1.chars
      = some (strcpy (make_unique (str.length + 1)) (c_str str)) := by
    rw [hc]; simp [World.deref, hb]
  refine ⟨hb, by simp [hb], ?_, ?_, hd, ?_, ?_⟩
  · intro i
    rw [hb, List.getElem?_append_left i.isLt]
    simp
  · rw [hd, hb]; simp
  · intro later
    obtain ⟨added, h⟩ := toClayStrings_clayStringBuffers later (toClayString str w).2
    rw [hd, hc]
    show (toClayStrings later (toClayString str w).2).clayStringBuffers[w.clayStringBuffers.length]?
      = _
    rw [h, hb, List.append_assoc, List.getElem?_append_right (le_refl _)]
    simp
  · rw [hc]; simp [World.deref, clearClayStringBuffers, World.emit]

/-! ### C3 -/

/-- C3: after `clearClayStringBuffers` the vector `clayStringBuffers` holds no buffer (every
pointer into it dangles), and a second call right after the first leaves it, and the other
globals, as the first did. -/
theorem clearClayStringBuffers_empties (w : World) :
    (clearClayStringBuffers w).clayStringBuffers = []
      ∧ (clearClayStringBuffers w).clayStringBuffers.length = 0
      ∧ (∀ slot, (clearClayStringBuffers w).deref (.buffer slot) = none)
      ∧ (clearClayStringBuffers (clearClayStringBuffers w)).clayStringBuffers
          = (clearClayStringBuffers w).clayStringBuffers
      ∧ (clearClayStringBuffers (clearClayStringBuffers w)).documents
          = (clearClayStringBuffers w).documents
      ∧ (clearClayStringBuffers (clearClayStringBuffers w)).selectedDocumentIndex
          = (clearClayStringBuffers w).selectedDocumentIndex
      ∧ (clearClayStringBuffers (clearClayStringBuffers w)).framecount
          = (clearClayStringBuffers w).framecount := by
  simp [clearClayStringBuffers, World.emit, World.deref]

/-! ### C4 -/

/-- C4: `toClayString(s)` right after `clearClayStringBuffers` on any world `A` returns the
same `Clay_String` (length and pointer), denoting the same characters, and leaves the same
vector (one buffer, the copy of `s`) as `toClayString(s)` on a world `w` whose vector is
empty. -/
theorem toClayString_after_clear (A w : World) (str : List Char) :
    (toClayString str (clearClayStringBuffers A)).1
        = (toClayString str { w with clayStringBuffers := [] }).1
      ∧ (toClayString str (clearClayStringBuffers A)).2.text
            (toClayString str (clearClayStringBuffers A)).1
          = (toClayString str { w with clayStringBuffers := [] }).2.text
              (toClayString str { w with clayStringBuffers := [] }).1
      ∧ (toClayString str (clearClayStringBuffers A)).2.clayStringBuffers
          = (toClayString str { w with clayStringBuffers := [] }).2.clayStringBuffers
      ∧ (toClayString str (clearClayStringBuffers A)).2.clayStringBuffers
          = [strcpy (make_unique (str.length + 1)) (c_str str)] := by
  simp [toClayString, clearClayStringBuffers, World.emit, World.text, World.deref]

/-! ### C5 -/

/-- C5 as stated fails: for the array of 2^31 characters `a` and a terminator
(N = 2^31 + 1) the literal overload returns the length -2^31, not N - 1 = 2^31. -/
theorem toClayString_literal_length_wraps :
    ((List.replicate (2 ^ 31) 'a' ++ [NUL]).length : Int) - 1 = 2 ^ 31
      ∧ (toClayString_literal (List.replicate (2 ^ 31) 'a' ++ [NUL]) {}).1.length = -(2 ^ 31)
      ∧ (toClayString_literal (List.replicate (2 ^ 31) 'a' ++ [NUL]) {}).1.length
          ≠ ((List.replicate (2 ^ 31) 'a' ++ [NUL]).length : Int) - 1 := by
  have hl : (List.replicate (2 ^ 31) 'a' ++ [NUL]).length = 2 ^ 31 + 1 := by
    rw [List.length_append, List.length_replicate]; rfl
  have hv : (toClayString_literal (List.replicate (2 ^ 31) 'a' ++ [NUL]) {}).1.length
      = -(2 ^ 31) := by
    rw [toClayString_literal_length, hl]
    norm_num [toInt32, sizeMinusOne]
  refine ⟨by rw [hl]; norm_num, hv, ?_⟩
  rw [hv, hl]; norm_num

/-- C5, amended: for every array of N characters with N - 1 below 2^31, the literal
overload returns a `Clay_String` of length N - 1 whose `chars` is the array itself, not a
slot of `clayStringBuffers`, and it leaves the world (so `clayStringBuffers`) as it was. -/
theorem toClayString_literal_spec (str : List Char) (w : World) (h : str.length ≤ 2 ^ 31) :
    (toClayString_literal str w).1.length = (str.length : Int) - 1
      ∧ (toClayString_literal str w).1.chars = .literal str
      ∧ (toClayString_literal str w).2.deref (toClayString_literal str w).1.chars = some str
      ∧ (toClayString_literal str w).2 = w
      ∧ (toClayString_literal str w).2.clayStringBuffers = w.clayStringBuffers := by
  refine ⟨?_, rfl, rfl, rfl, rfl⟩
  simp only [toClayString_literal, sizeMinusOne, toInt32]
  rcases Nat.eq_zero_or_pos str.length with h0 | h0
  · rw [h0]; norm_num
  · have e : (str.length + 2 ^ 64 - 1) % 2 ^ 64 = str.length - 1 := by
      have : str.length + 2 ^ 64 - 1 = (str.length - 1) + 2 ^ 64 := by omega
      rw [this, Nat.add_mod_right]
      exact Nat.mod_eq_of_lt (by omega)
    have e2 : (str.length - 1) % 2 ^ 32 = str.length - 1 := Nat.mod_eq_of_lt (by omega)
    rw [e, e2, if_pos (by omega)]
    omega

theorem toClayString_literal_spec_witness :
    (toClayString_literal ['F', 'i', 'l', 'e', NUL] {}).1.length = 4
      ∧ (toClayString_literal ['F', 'i', 'l', 'e', NUL] {}).1.chars
          = .literal ['F', 'i', 'l', 'e', NUL] := by
  have h := toClayString_literal_spec ['F', 'i', 'l', 'e', NUL] {} (by decide)
  exact ⟨by simpa using h.1, h.2.1⟩

/-! ### C8 -/

/-- C8: `applyClayLayoutConfig(l)` makes two calls, the store of `l` and the attach of the
handle that store returned, and `applyClayRectangleConfig(r)` likewise; on any world the two
wrappers in either order leave the same Clay state, and on an element just opened that state
has the layout record `l` and the rectangle record `r` for the open element. -/
theorem applyClay_configs_independent (l : Clay_LayoutConfig) (r : Clay_RectangleElementConfig)
    (w : World) :
    (applyClayLayoutConfig l w).calls
        = w.calls ++ [.Clay__StoreLayoutConfig l,
            .Clay__AttachLayoutConfig (Clay__StoreLayoutConfig l w).1]
      ∧ (applyClayRectangleConfig r w).calls
        = w.calls ++ [.Clay__StoreRectangleElementConfig r,
            .Clay__AttachElementConfig
              (.rectangleElementConfig (Clay__StoreRectangleElementConfig r w).1)
              .CLAY__ELEMENT_CONFIG_TYPE_RECTANGLE]
      ∧ (Clay__StoreLayoutConfig l w).2.clay.layoutConfigs[(Clay__StoreLayoutConfig l w).1.index]?
          = some l
      ∧ (Clay__StoreRectangleElementConfig r w).2.clay.rectangleElementConfigs[
            (Clay__StoreRectangleElementConfig r w).1.index]? = some r
      ∧ (applyClayRectangleConfig r (applyClayLayoutConfig l w)).clay
          = (applyClayLayoutConfig l (applyClayRectangleConfig r w)).clay
      ∧ (applyClayRectangleConfig r (applyClayLayoutConfig l (Clay__OpenElement w))).clay.openElements.head?.bind
            (applyClayRectangleConfig r (applyClayLayoutConfig l (Clay__OpenElement w))).clay.layoutOf
          = some l
      ∧ (applyClayRectangleConfig r (applyClayLayoutConfig l (Clay__OpenElement w))).clay.openElements.head?.bind
            (applyClayRectangleConfig r (applyClayLayoutConfig l (Clay__OpenElement w))).clay.rectangleOf
          = some r
      ∧ (applyClayLayoutConfig l (applyClayRectangleConfig r (Clay__OpenElement w))).clay.openElements.head?.bind
            (applyClayLayoutConfig l (applyClayRectangleConfig r (Clay__OpenElement w))).clay.layoutOf
          = some l
      ∧ (applyClayLayoutConfig l (applyClayRectangleConfig r (Clay__OpenElement w))).clay.openElements.head?.bind
            (applyClayLayoutConfig l (applyClayRectangleConfig r (Clay__OpenElement w))).clay.rectangleOf
          = some r := by
  have hcomm : (applyClayRectangleConfig r (applyClayLayoutConfig l w)).clay
      = (applyClayLayoutConfig l (applyClayRectangleConfig r w)).clay := by
    simp only [applyClayRectangleConfig, applyClayLayoutConfig, callWith, Clay__StoreLayoutConfig,
      Clay__StoreRectangleElementConfig, Clay__AttachLayoutConfig, Clay__AttachElementConfig,
      World.emit, Clay_Context.storeLayoutConfig, Clay_Context.storeRectangleElementConfig,
      Clay_Context.attachLayoutConfig, Clay_Context.attachElementConfig,
      Clay_ElementConfigUnion.handle]
    cases h : w.clay.openElements with
    | nil => simp
    | cons top rest =>
      simp only [attachRecord]
      cases w.clay.policy <;> cases top.layout <;> cases top.rectangle <;> simp
  have hfresh : (Clay__OpenElement w).clay.openElements.head? = some {} := by
    simp only [Clay__OpenElement, World.emit, Clay_Context.openElement]
    cases w.clay.openElements <;> simp
  refine ⟨?_, ?_, ?_, ?_, hcomm, ?_, ?_, ?_, ?_⟩
  · simp [applyClayLayoutConfig, callWith, Clay__StoreLayoutConfig, Clay__AttachLayoutConfig,
      World.emit]
  · simp [applyClayRectangleConfig, callWith, Clay__StoreRectangleElementConfig,
      Clay__AttachElementConfig, World.emit]
  · simp [Clay__StoreLayoutConfig, World.emit, Clay_Context.storeLayoutConfig]
  · simp [Clay__StoreRectangleElementConfig, World.emit, Clay_Context.storeRectangleElementConfig]
  all_goals
    simp only [applyClayRectangleConfig, applyClayLayoutConfig, callWith, Clay__StoreLayoutConfig,
      Clay__StoreRectangleElementConfig, Clay__AttachLayoutConfig, Clay__AttachElementConfig,
      World.emit, Clay_Context.storeLayoutConfig, Clay_Context.storeRectangleElementConfig,
      Clay_Context.attachLayoutConfig, Clay_Context.attachElementConfig,
      Clay_ElementConfigUnion.handle, Clay__OpenElement, Clay_Context.openElement,
      Clay_Context.layoutOf, Clay_Context.rectangleOf, attachRecord]
    cases w.clay.openElements <;> cases w.clay.policy <;> simp

/-! ### C10 -/

/-- C10: `attachClayID(lit)` makes one call, `Clay__AttachId`, of the identifier
`Clay__HashString(s, 0, 0)` where `s` is the `Clay_String` that `toClayString(lit)` returns
(length the `int32_t` of N - 1, chars the literal's array); so for the same literal it is the
same call in any two worlds and for any two sets of answers of the library that share the
hash function. -/
theorem attachClayID_identifier (env env2 : Env) (str : List Char) (w w2 : World) :
    (attachClayID env str w).calls
        = w.calls ++ [.Clay__AttachId (env.Clay__HashString (toClayString_literal str w).1 0 0)]
      ∧ (toClayString_literal str w).1
          = { length := toInt32 (sizeMinusOne str.length), chars := .literal str }
      ∧ (toClayString_literal str w).1 = (toClayString_literal str w2).1
      ∧ (attachClayID env str w).calls.getLast?
          = (attachClayID { env2 with Clay__HashString := env.Clay__HashString } str w2).calls.getLast?
      ∧ (attachClayID env str (attachClayID env str w)).calls
          = w.calls ++ [.Clay__AttachId (env.Clay__HashString (toClayString_literal str w).1 0 0),
              .Clay__AttachId (env.Clay__HashString (toClayString_literal str w).1 0 0)] := by
  simp [attachClayID, Clay__AttachId, World.emit, toClayString_literal]

/-! ### The steps of a run -/

theorem Steps.stay (w : World) : Steps w w [] [] :=
  ⟨by simp, List.prefix_refl _, by simp, rfl, rfl, rfl⟩

theorem Steps.next {w w1 w2 : World} {s1 s2 : List Call} {b1 b2 : List (List Char)}
    (h1 : Steps w w1 s1 b1) (h2 : Steps w1 w2 s2 b2) : Steps w w2 (s1 ++ s2) (b1 ++ b2) :=
  ⟨by rw [h2.calls, h1.calls, List.append_assoc], h1.extends_calls.trans h2.extends_calls,
    by rw [h2.clayStringBuffers, h1.clayStringBuffers, List.append_assoc],
    h2.documents.trans h1.documents, h2.selectedDocumentIndex.trans h1.selectedDocumentIndex,
    h2.framecount.trans h1.framecount⟩

theorem Steps.of_eq {w w' : World} {s s' : List Call} {b b' : List (List Char)}
    (h : Steps w w' s b) (hs : s = s') (hb : b = b') : Steps w w' s' b' := by
  subst hs; subst hb; exact h

/-- Setting the latch is no step. -/
theorem Steps.set_latch (w : World) (k : Nat) :
    Steps w { w with CLAY__ELEMENT_DEFINITION_LATCH := k } [] [] :=
  ⟨by simp, List.prefix_refl _, by simp, rfl, rfl, rfl⟩

/-- The segment of calls between two worlds of a run. -/
theorem Steps.segment {w w' : World} {s : List Call} {b : List (List Char)} (h : Steps w w' s b) :
    ∃ seg, w'.calls = w.calls ++ seg ∧ seg.map Call.erase = s := by
  obtain ⟨seg, hseg⟩ := h.extends_calls
  refine ⟨seg, hseg.symm, ?_⟩
  have := h.calls
  rw [← hseg, List.map_append] at this
  exact List.append_cancel_left this


theorem Straight.skip (w : World) : Straight w w [] [] := ⟨Steps.stay w, rfl⟩

theorem Straight.andThen {w w1 w2 : World} {s1 s2 : List Call} {b1 b2 : List (List Char)}
    (h1 : Straight w w1 s1 b1) (h2 : Straight w1 w2 s2 b2) :
    Straight w w2 (s1 ++ s2) (b1 ++ b2) :=
  ⟨h1.steps.next h2.steps, h2.latch.trans h1.latch⟩

theorem Straight.of_shape {w w' : World} {s s' : List Call} {b b' : List (List Char)}
    (h : Straight w w' s b) (hs : s = s') (hb : b = b') : Straight w w' s' b' := by
  subst hs; subst hb; exact h

theorem toClayString_literal_fst (str : List Char) (w : World) :
    (toClayString_literal str w).1 = literalOf str := by
  simp only [toClayString_literal, literalOf]

theorem toClayString_literal_snd (str : List Char) (w : World) :
    (toClayString_literal str w).2 = w := by
  simp only [toClayString_literal]

theorem straight_OpenElement (w : World) :
    Straight w (Clay__OpenElement w) [.Clay__OpenElement] [] := by
  refine ⟨⟨?_, ?_, ?_, ?_, ?_, ?_⟩, ?_⟩ <;> simp

theorem straight_CloseElement (w : World) :
    Straight w (Clay__CloseElement w) [.Clay__CloseElement] [] := by
  refine ⟨⟨?_, ?_, ?_, ?_, ?_, ?_⟩, ?_⟩ <;> simp

theorem straight_ElementPostConfiguration (w : World) :
    Straight w (Clay__ElementPostConfiguration w) [.Clay__ElementPostConfiguration] [] := by
  refine ⟨⟨?_, ?_, ?_, ?_, ?_, ?_⟩, ?_⟩ <;> simp

theorem straight_BeginLayout (w : World) :
    Straight w (Clay_BeginLayout w) [.Clay_BeginLayout] [] := by
  refine ⟨⟨?_, ?_, ?_, ?_, ?_, ?_⟩, ?_⟩ <;> simp

theorem straight_attachClayID (env : Env) (s : String) (w : World) :
    Straight w (attachClayID env (lit s) w) [idCall env s] [] := by
  refine ⟨⟨?_, ?_, ?_, ?_, ?_, ?_⟩, ?_⟩ <;> simp [idCall, literalOf]

theorem straight_storeAndAttachLayout (config : Clay_LayoutConfig) (w : World) :
    Straight w (storeAndAttachLayout config w) (layoutCalls config) [] := by
  refine ⟨⟨?_, ?_, ?_, ?_, ?_, ?_⟩, ?_⟩ <;> simp [layoutCalls]

theorem straight_storeAndAttachRectangle (config : Clay_RectangleElementConfig) (w : World) :
    Straight w (storeAndAttachRectangle config w) (rectangleCalls config) [] := by
  refine ⟨⟨?_, ?_, ?_, ?_, ?_, ?_⟩, ?_⟩ <;> simp [rectangleCalls]

theorem straight_storeAndAttachFloating (config : Clay_FloatingElementConfig) (w : World) :
    Straight w (storeAndAttachFloating config w) (floatingCalls config) [] := by
  refine ⟨⟨?_, ?_, ?_, ?_, ?_, ?_⟩, ?_⟩ <;> simp [floatingCalls]

theorem straight_storeAndAttachScroll (config : Clay_ScrollElementConfig) (w : World) :
    Straight w (storeAndAttachScroll config w) (scrollCalls config) [] := by
  refine ⟨⟨?_, ?_, ?_, ?_, ?_, ?_⟩, ?_⟩ <;> simp [scrollCalls]

theorem straight_applyClayLayoutConfig (config : Clay_LayoutConfig) (w : World) :
    Straight w (applyClayLayoutConfig config w) (layoutCalls config) [] := by
  refine ⟨⟨?_, ?_, ?_, ?_, ?_, ?_⟩, ?_⟩ <;> simp [layoutCalls]

theorem straight_applyClayRectangleConfig (config : Clay_RectangleElementConfig) (w : World) :
    Straight w (applyClayRectangleConfig config w) (rectangleCalls config) [] := by
  refine ⟨⟨?_, ?_, ?_, ?_, ?_, ?_⟩, ?_⟩ <;> simp [rectangleCalls]

theorem straight_OnHover (f : HoverFunction) (userData : Int) (w : World) :
    Straight w (Clay_OnHover f userData w) [.Clay_OnHover f userData] [] := by
  refine ⟨⟨?_, ?_, ?_, ?_, ?_, ?_⟩, ?_⟩ <;> simp

theorem straight_clayTextElement (text : Clay_String) (config : Clay_TextElementConfig)
    (w : World) : Straight w (clayTextElement text config w) (textCalls text config) [] := by
  refine ⟨⟨?_, ?_, ?_, ?_, ?_, ?_⟩, ?_⟩ <;> simp [textCalls]

theorem straight_literalText (s : String) (config : Clay_TextElementConfig) (w : World) :
    Straight w
      (callWith (toClayString_literal (lit s)) (fun t => clayTextElement t config) w)
      (textCalls (literalOf (lit s)) config) [] := by
  unfold callWith
  rw [toClayString_literal_fst, toClayString_literal_snd]
  exact straight_clayTextElement _ _ _

theorem straight_dynamicText (str : List Char) (config : Clay_TextElementConfig) (w : World) :
    Straight w
      (callWith (toClayString str) (fun t => clayTextElement t config) w)
      (dynamicTextCalls w.clayStringBuffers.length str config) [copyOf str] := by
  refine ⟨⟨?_, ?_, ?_, ?_, ?_, ?_⟩, ?_⟩ <;>
    simp [toClayString, dynamicTextCalls, textCalls, copyOf]

theorem straight_RenderHeaderButton (s : String) (w : World) :
    Straight w (callWith (toClayString_literal (lit s)) RenderHeaderButton w)
      (headerButtonCalls s) [] := by
  unfold callWith
  rw [toClayString_literal_fst, toClayString_literal_snd]
  exact ((straight_OpenElement w).andThen <|
    (straight_applyClayLayoutConfig _ _).andThen <|
    (straight_applyClayRectangleConfig _ _).andThen <|
    (straight_ElementPostConfiguration _).andThen <|
    (straight_clayTextElement _ _ _).andThen (straight_CloseElement _)).of_shape
    (by simp [headerButtonCalls, elementCalls]) rfl

theorem straight_RenderDropdownMenuItem (s : String) (w : World) :
    Straight w (callWith (toClayString_literal (lit s)) RenderDropdownMenuItem w)
      (dropdownItemCalls s) [] := by
  unfold callWith
  rw [toClayString_literal_fst, toClayString_literal_snd]
  exact ((straight_OpenElement w).andThen <|
    (straight_applyClayLayoutConfig _ _).andThen <|
    (straight_ElementPostConfiguration _).andThen <|
    (straight_clayTextElement _ _ _).andThen (straight_CloseElement _)).of_shape
    (by simp [dropdownItemCalls, elementCalls]) rfl

/-- The `for` idiom runs its body once and then closes the element. -/
theorem forLatch_eq {init : World → World} {body : World → Except Fault World} {w w2 : World}
    (hbody : body { init w with CLAY__ELEMENT_DEFINITION_LATCH := 0 } = .ok w2)
    (hl : w2.CLAY__ELEMENT_DEFINITION_LATCH < 255) :
    forLatch init body w
      = .ok (Clay__CloseElement
          { w2 with CLAY__ELEMENT_DEFINITION_LATCH := w2.CLAY__ELEMENT_DEFINITION_LATCH + 1 }) := by
  have h1 : (w2.CLAY__ELEMENT_DEFINITION_LATCH + 1) % 256 = w2.CLAY__ELEMENT_DEFINITION_LATCH + 1 :=
    Nat.mod_eq_of_lt (by omega)
  simp [forLatch, forLatchFrom, hbody, h1, Clay__CloseElement, World.emit]

theorem forLatch_runs {init : World → World} {body : World → Except Fault World} {w : World}
    {config s2 : List Call} {b2 : List (List Char)} {k : Nat}
    (hinit : Straight w (init w)
      (.Clay__OpenElement :: (config ++ [.Clay__ElementPostConfiguration])) [])
    (hbody : Runs body { init w with CLAY__ELEMENT_DEFINITION_LATCH := 0 } s2 b2 k)
    (hlt : k < 255) :
    Runs (forLatch init body) w (elementCalls config s2) b2 (k + 1) := by
  obtain ⟨w2, hw2, hsteps, hk⟩ := hbody
  refine ⟨_, forLatch_eq hw2 (by omega), ?_, by simp; omega⟩
  have hclose : Steps w2 (Clay__CloseElement
      { w2 with CLAY__ELEMENT_DEFINITION_LATCH := w2.CLAY__ELEMENT_DEFINITION_LATCH + 1 })
      [.Clay__CloseElement] [] :=
    ⟨by simp, by simp, by simp, rfl, rfl, rfl⟩
  exact (((hinit.steps.next (Steps.set_latch _ 0)).next hsteps).next hclose).of_eq
    (by simp [elementCalls]) (by simp)

/-- A straight-line body runs. -/
theorem Straight.runs {f : World → World} {w : World} {s : List Call} {b : List (List Char)}
    (h : Straight w (f w) s b) :
    Runs (fun w => .ok (f w)) w s b w.CLAY__ELEMENT_DEFINITION_LATCH :=
  ⟨_, rfl, h.steps, by rw [h.latch]⟩

/-- Two runs one after the other. -/
theorem Runs.seq {f g : World → Except Fault World} {w : World} {s1 s2 : List Call}
    {b1 b2 : List (List Char)} {k1 k2 : Nat} (h1 : Runs f w s1 b1 k1)
    (h2 : ∀ w1, Steps w w1 s1 b1 → Runs g w1 s2 b2 k2) :
    Runs (fun w => match f w with | .error e => .error e | .ok w => g w) w
      (s1 ++ s2) (b1 ++ b2) k2 := by
  obtain ⟨w1, hw1, hs1, _⟩ := h1
  obtain ⟨w2, hw2, hs2, hk2⟩ := h2 w1 hs1
  refine ⟨w2, ?_, hs1.next hs2, hk2⟩
  simp only [hw1, hw2]

theorem Runs.of_le {f : World → Except Fault World} {w : World} {s s' : List Call}
    {b b' : List (List Char)} {k k' : Nat} (h : Runs f w s b k) (hs : s = s') (hb : b = b')
    (hk : k ≤ k') : Runs f w s' b' k' := by
  subst hs; subst hb
  obtain ⟨w1, hw1, hs1, hk1⟩ := h
  exact ⟨w1, hw1, hs1, hk1.trans hk⟩

/-! ### The elements of the header bar -/

theorem fileMenuListChildren_runs (w : World) :
    Runs fileMenuListChildren w
      (dropdownItemCalls "New" ++ (dropdownItemCalls "Open" ++ dropdownItemCalls "Close")) []
      w.CLAY__ELEMENT_DEFINITION_LATCH :=
  Straight.runs (((straight_RenderDropdownMenuItem "New" w).andThen <|
      (straight_RenderDropdownMenuItem "Open" _).andThen
        (straight_RenderDropdownMenuItem "Close" _)).of_shape rfl rfl)

theorem fileMenuListElement_runs (w : World) :
    Runs fileMenuListElement w
      (elementCalls
        (layoutCalls
            { sizing := { width := { min := 200, max := 200, type := .CLAY__SIZING_TYPE_FIXED } }
              layoutDirection := .CLAY_TOP_TO_BOTTOM }
          ++ rectangleCalls { color := ⟨40, 40, 40, 255⟩, cornerRadius := 8 })
        (dropdownItemCalls "New" ++ (dropdownItemCalls "Open" ++ dropdownItemCalls "Close")))
      [] 1 :=
  forLatch_runs
    (((straight_OpenElement w).andThen <|
      (straight_storeAndAttachLayout _ _).andThen <|
      (straight_storeAndAttachRectangle _ _).andThen
        (straight_ElementPostConfiguration _)).of_shape (by simp) rfl)
    (fileMenuListChildren_runs _) (by decide)

theorem fileMenuElement_runs (env : Env) (w : World) :
    Runs (fileMenuElement env) w (fileMenuCalls env) [] 2 :=
  forLatch_runs
    (((straight_OpenElement w).andThen <|
      (straight_attachClayID env "FileMenu" _).andThen <|
      (straight_storeAndAttachFloating _ _).andThen <|
      (straight_storeAndAttachLayout _ _).andThen
        (straight_ElementPostConfiguration _)).of_shape (by simp) rfl)
    (fileMenuListElement_runs _) (by decide)

theorem fileButtonChildren_runs (env : Env) (w : World)
    (hl : w.CLAY__ELEMENT_DEFINITION_LATCH = 0) :
    Runs (fileButtonChildren env) w (fileButtonChildrenCalls env) [] 2 := by
  have htext := straight_literalText "File" headerButtonTextConfig w
  unfold Runs fileButtonChildren
  simp only [toClayString_literal_fst, toClayString_literal_snd]
  by_cases hv : fileMenuVisible env = true
  · have hv2 := hv
    unfold fileMenuVisible at hv2
    rw [if_pos hv2]
    obtain ⟨w6, h6, s6, l6⟩ := fileMenuElement_runs env
      (callWith (toClayString_literal (lit "File"))
        (fun s => clayTextElement s headerButtonTextConfig) w)
    exact ⟨w6, h6, (htext.steps.next s6).of_eq (by simp [fileButtonChildrenCalls, hv]) rfl, l6⟩
  · have hv2 := hv
    unfold fileMenuVisible at hv2
    rw [if_neg hv2]
    exact ⟨_, rfl, htext.steps.of_eq (by simp [fileButtonChildrenCalls, hv]) rfl,
      by rw [htext.latch, hl]; decide⟩

theorem fileButtonElement_runs (env : Env) (w : World) :
    Runs (fileButtonElement env) w
      (elementCalls
        (idCall env "FileButton" :: (layoutCalls { padding := ⟨16, 16, 8, 8⟩ }
          ++ rectangleCalls { color := ⟨140, 140, 140, 255⟩, cornerRadius := 5 }))
        (fileButtonChildrenCalls env))
      [] 3 :=
  forLatch_runs
    (((straight_OpenElement w).andThen <|
      (straight_attachClayID env "FileButton" _).andThen <|
      (straight_storeAndAttachLayout _ _).andThen <|
      (straight_storeAndAttachRectangle _ _).andThen
        (straight_ElementPostConfiguration _)).of_shape (by simp) rfl)
    (fileButtonChildren_runs env _ rfl) (by decide)

theorem spacerElement_runs (w : World) :
    Runs spacerElement w
      (elementCalls
        (layoutCalls { sizing := { width := { min := 0, type := .CLAY__SIZING_TYPE_GROW } } }) [])
      [] 1 :=
  forLatch_runs
    (((straight_OpenElement w).andThen <|
      (straight_storeAndAttachLayout _ _).andThen
        (straight_ElementPostConfiguration _)).of_shape (by simp) rfl)
    (Straight.runs (f := fun w => w) (Straight.skip _)) (by decide)

theorem headerBarChildren_runs (env : Env) (w : World) :
    Runs (headerBarChildren env) w
      (elementCalls
          (idCall env "FileButton" :: (layoutCalls { padding := ⟨16, 16, 8, 8⟩ }
            ++ rectangleCalls { color := ⟨140, 140, 140, 255⟩, cornerRadius := 5 }))
          (fileButtonChildrenCalls env)
        ++ (headerButtonCalls "Edit"
        ++ (elementCalls
              (layoutCalls
                { sizing := { width := { min := 0, type := .CLAY__SIZING_TYPE_GROW } } })
              []
        ++ (headerButtonCalls "Upload"
        ++ (headerButtonCalls "Media" ++ headerButtonCalls "Support")))))
      [] 1 := by
  obtain ⟨w4, h4, s4, _⟩ := fileButtonElement_runs env w
  have hedit := straight_RenderHeaderButton "Edit" w4
  obtain ⟨w5, h5, s5, l5⟩ := spacerElement_runs
    (callWith (toClayString_literal (lit "Edit")) RenderHeaderButton w4)
  have hrest := ((straight_RenderHeaderButton "Upload" w5).andThen <|
      (straight_RenderHeaderButton "Media" _).andThen (straight_RenderHeaderButton "Support" _))
  refine ⟨_, ?_, (((s4.next hedit.steps).next s5).next hrest.steps).of_eq (by simp) rfl, ?_⟩
  · unfold headerBarChildren
    simp only [h4, h5]
  · rw [hrest.latch]; exact l5

theorem headerBarElement_runs (env : Env) (w : World) :
    Runs (headerBarElement env) w (headerBarCalls env) [] 2 :=
  forLatch_runs
    (((straight_OpenElement w).andThen <|
      (straight_attachClayID env "HeaderBar" _).andThen <|
      (straight_storeAndAttachRectangle _ _).andThen <|
      (straight_storeAndAttachLayout _ _).andThen
        (straight_ElementPostConfiguration _)).of_shape (by simp) rfl)
    (headerBarChildren_runs env _) (by decide)

/-! ### The sidebar -/

/-- The `for` idiom with a body that reads the documents, the selection and the buffers. -/
theorem forLatch_runs_of {init : World → World} {body : World → Except Fault World} {w : World}
    {config s2 : List Call} {b2 : List (List Char)} {k : Nat}
    (hinit : Straight w (init w)
      (.Clay__OpenElement :: (config ++ [.Clay__ElementPostConfiguration])) [])
    (hbody : ∀ w0 : World, w0.documents = w.documents
      → w0.selectedDocumentIndex = w.selectedDocumentIndex
      → w0.clayStringBuffers = w.clayStringBuffers
      → w0.CLAY__ELEMENT_DEFINITION_LATCH = 0 → Runs body w0 s2 b2 k)
    (hlt : k < 255) :
    Runs (forLatch init body) w (elementCalls config s2) b2 (k + 1) :=
  forLatch_runs hinit
    (hbody _ hinit.steps.documents hinit.steps.selectedDocumentIndex
      (by have := hinit.steps.clayStringBuffers; simpa using this) rfl) hlt

theorem toUInt32_natCast (k : Nat) (h : k < 2 ^ 32) : toUInt32 (k : Int) = k := by
  unfold toUInt32
  omega

theorem documentAt_natCast (w : World) (k : Nat) (d : Document)
    (hd : w.documents.documents[k]? = some d) : documentAt w (k : Int) = .ok d := by
  unfold documentAt
  simp [hd]

theorem sidebarItemChildren_runs (k : Nat) (w : World) (d : Document)
    (hd : w.documents.documents[k]? = some d) :
    Runs (sidebarItemChildren (k : Int)) w
      (dynamicTextCalls w.clayStringBuffers.length d.title sidebarButtonTextConfig)
      [copyOf d.title] w.CLAY__ELEMENT_DEFINITION_LATCH := by
  have h := straight_dynamicText d.title sidebarButtonTextConfig w
  refine ⟨_, ?_, h.steps, by rw [h.latch]⟩
  unfold sidebarItemChildren
  rw [documentAt_natCast w k d hd]

theorem selectedItemElement_runs (k : Nat) (w : World) (d : Document)
    (hd : w.documents.documents[k]? = some d) (hovered : Bool) :
    Runs (selectedItemElement (k : Int)) w
      (sidebarItemCalls w.clayStringBuffers.length k true hovered d.title)
      [copyOf d.title] 1 := by
  have h : Runs (selectedItemElement (k : Int)) w
      (elementCalls
        (layoutCalls sidebarButtonLayout
          ++ rectangleCalls { color := ⟨120, 120, 120, 255⟩, cornerRadius := 8 })
        (dynamicTextCalls w.clayStringBuffers.length d.title sidebarButtonTextConfig))
      [copyOf d.title] (0 + 1) :=
    forLatch_runs_of
      (((straight_OpenElement w).andThen <|
        (straight_storeAndAttachLayout _ _).andThen <|
        (straight_storeAndAttachRectangle _ _).andThen
          (straight_ElementPostConfiguration _)).of_shape (by simp) rfl)
      (fun w0 hdocs _ hbuf hl =>
        (sidebarItemChildren_runs k w0 d (by rw [hdocs]; exact hd)).of_le
          (by rw [hbuf]) rfl (by rw [hl]))
      (by decide)
  exact h.of_le (by simp [sidebarItemCalls]) rfl (le_refl _)

theorem straight_attachRectangleIfHovered (env : Env) (w : World) :
    Straight w (attachRectangleIfHovered env w)
      (if env.Clay_Hovered w.calls then
        rectangleCalls { color := ⟨120, 120, 120, 120⟩, cornerRadius := 8 } else []) [] := by
  unfold attachRectangleIfHovered
  by_cases h : env.Clay_Hovered w.calls = true
  · rw [if_pos h, if_pos h]; exact straight_storeAndAttachRectangle _ _
  · rw [if_neg h, if_neg h]; exact Straight.skip _

theorem otherItemElement_runs (env : Env) (k : Nat) (w : World) (d : Document)
    (hd : w.documents.documents[k]? = some d) :
    ∃ hovered : Bool, Runs (otherItemElement env (k : Int)) w
      (sidebarItemCalls w.clayStringBuffers.length k false hovered d.title)
      [copyOf d.title] 1 := by
  refine ⟨env.Clay_Hovered
    (w |> Clay__OpenElement |> storeAndAttachLayout sidebarButtonLayout
      |> Clay_OnHover .HandleSidebarInteraction (k : Int)).calls, ?_⟩
  have h : Runs (otherItemElement env (k : Int)) w
      (elementCalls
        (layoutCalls sidebarButtonLayout
          ++ ([.Clay_OnHover .HandleSidebarInteraction (k : Int)]
          ++ (if env.Clay_Hovered
              (w |> Clay__OpenElement |> storeAndAttachLayout sidebarButtonLayout
                |> Clay_OnHover .HandleSidebarInteraction (k : Int)).calls then
              rectangleCalls { color := ⟨120, 120, 120, 120⟩, cornerRadius := 8 } else [])))
        (dynamicTextCalls w.clayStringBuffers.length d.title sidebarButtonTextConfig))
      [copyOf d.title] (0 + 1) :=
    forLatch_runs_of
      (((straight_OpenElement w).andThen <|
        (straight_storeAndAttachLayout _ _).andThen <|
        (straight_OnHover _ _ _).andThen <|
        (straight_attachRectangleIfHovered env _).andThen
          (straight_ElementPostConfiguration _)).of_shape (by simp) rfl)
      (fun w0 hdocs _ hbuf hl =>
        (sidebarItemChildren_runs k w0 d (by rw [hdocs]; exact hd)).of_le
          (by rw [hbuf]) rfl (by rw [hl]))
      (by decide)
  exact h.of_le (by simp [sidebarItemCalls]) rfl (le_refl _)

theorem sidebarItem_runs (env : Env) (k : Nat) (w : World) (d : Document)
    (hd : w.documents.documents[k]? = some d) (hk : k < 2 ^ 32) :
    ∃ hovered : Bool, Runs (sidebarItem env (k : Int)) w
      (sidebarItemCalls w.clayStringBuffers.length k (k == w.selectedDocumentIndex) hovered
        d.title)
      [copyOf d.title] 1 := by
  by_cases hs : k = w.selectedDocumentIndex
  · refine ⟨false, ?_⟩
    have hb : (k == w.selectedDocumentIndex) = true := by simp [hs]
    rw [hb]
    obtain ⟨w', hw', rest⟩ := selectedItemElement_runs k w d hd false
    refine ⟨w', ?_, rest⟩
    unfold sidebarItem
    rw [toUInt32_natCast k hk, if_pos hs]
    exact hw'
  · obtain ⟨hovered, w', hw', rest⟩ := otherItemElement_runs env k w d hd
    refine ⟨hovered, ?_⟩
    have hb : (k == w.selectedDocumentIndex) = false := by simp [hs]
    rw [hb]
    refine ⟨w', ?_, rest⟩
    unfold sidebarItem
    rw [toUInt32_natCast k hk, if_neg hs]
    exact hw'

theorem sidebarLoop_runs (env : Env) :
    ∀ (rest : List Document) (k tests : Nat) (w : World),
      w.documents.documents.drop k = rest → k ≤ w.documents.length
      → w.documents.length < 2 ^ 31 → rest.length < tests →
      ∃ hovered : List Bool, hovered.length = rest.length
        ∧ Runs (sidebarLoop env tests (k : Int)) w
            (sidebarItemsCalls w.selectedDocumentIndex w.clayStringBuffers.length k rest hovered)
            (rest.map fun d => copyOf d.title) (max w.CLAY__ELEMENT_DEFINITION_LATCH 1) := by
  intro rest
  induction rest with
  | nil =>
    intro k tests w hdrop hk hn htests
    obtain ⟨t, rfl⟩ : ∃ t, tests = t + 1 := ⟨tests - 1, by simp at htests; omega⟩
    have hle : w.documents.length ≤ k := by
      have := List.drop_eq_nil_iff.mp hdrop
      exact this
    refine ⟨[], rfl, w, ?_, Steps.stay w, le_max_left _ _⟩
    unfold sidebarLoop
    rw [toUInt32_natCast k (by omega), if_neg (by omega)]
  | cons d ds ih =>
    intro k tests w hdrop hk hn htests
    obtain ⟨t, rfl⟩ : ∃ t, tests = t + 1 := ⟨tests - 1, by simp at htests; omega⟩
    have hlt : k < w.documents.length := by
      by_contra hcon
      have : w.documents.documents.drop k = [] :=
        List.drop_eq_nil_iff.mpr (by unfold DocumentArray.length at hcon; omega)
      rw [this] at hdrop
      exact List.noConfusion hdrop
    have hd : w.documents.documents[k]? = some d := by
      have := congrArg List.head? hdrop
      simpa [List.head?_drop] using this
    obtain ⟨hov, w1, hw1, s1, l1⟩ := sidebarItem_runs env k w d hd (by omega)
    have hdrop1 : w1.documents.documents.drop (k + 1) = ds := by
      rw [s1.documents]
      have := congrArg List.tail hdrop
      simpa [List.tail_drop] using this
    obtain ⟨hovs, hlen, w2, hw2, s2, l2⟩ := ih (k + 1) t w1 hdrop1
      (by rw [s1.documents]; omega) (by rw [s1.documents]; exact hn)
      (by simp at htests; omega)
    refine ⟨hov :: hovs, by simp [hlen], w2, ?_, (s1.next s2).of_eq ?_ ?_, ?_⟩
    · unfold sidebarLoop
      rw [toUInt32_natCast k (by omega), if_pos hlt]
      simp only [hw1]
      have hne : ¬ ((k : Int) = INT_MAX) := by unfold INT_MAX; omega
      rw [if_neg hne]
      have hc : ((k : Int) + 1) = ((k + 1 : Nat) : Int) := by push_cast; rfl
      rw [hc]
      exact hw2
    · rw [s1.selectedDocumentIndex, s1.clayStringBuffers]
      simp [sidebarItemsCalls]
    · simp
    · have : max w1.CLAY__ELEMENT_DEFINITION_LATCH 1 = 1 := max_eq_right l1
      rw [this] at l2
      exact l2.trans (le_max_right _ _)

/-- The `for` idiom with a body whose calls are known up to a property `Q`. -/
theorem forLatch_runs_some {init : World → World} {body : World → Except Fault World}
    {w : World} {config : List Call} {b2 : List (List Char)} {k : Nat} {Q : List Call → Prop}
    (hinit : Straight w (init w)
      (.Clay__OpenElement :: (config ++ [.Clay__ElementPostConfiguration])) [])
    (hbody : ∀ w0 : World, w0.documents = w.documents
      → w0.selectedDocumentIndex = w.selectedDocumentIndex
      → w0.clayStringBuffers = w.clayStringBuffers
      → w0.CLAY__ELEMENT_DEFINITION_LATCH = 0 → ∃ s2, Q s2 ∧ Runs body w0 s2 b2 k)
    (hlt : k < 255) :
    ∃ s2, Q s2 ∧ Runs (forLatch init body) w (elementCalls config s2) b2 (k + 1) := by
  obtain ⟨s2, hq, hruns⟩ := hbody { init w with CLAY__ELEMENT_DEFINITION_LATCH := 0 }
    hinit.steps.documents hinit.steps.selectedDocumentIndex
    (by have := hinit.steps.clayStringBuffers; simpa using this) rfl
  exact ⟨s2, hq, forLatch_runs hinit hruns hlt⟩

theorem sidebarElement_runs (env : Env) (w : World) (hn : w.documents.length < 2 ^ 31) :
    ∃ hovered : List Bool, hovered.length = w.documents.length
      ∧ Runs (sidebarElement env) w
          (elementCalls
            (idCall env "Sidebar" :: (rectangleCalls contentBackgroundConfig
              ++ layoutCalls
                  { sizing :=
                      { width := { min := 250, max := 250, type := .CLAY__SIZING_TYPE_FIXED }
                        height := { min := 0, type := .CLAY__SIZING_TYPE_GROW } }
                    padding := ⟨16, 16, 16, 16⟩
                    childGap := 8
                    layoutDirection := .CLAY_TOP_TO_BOTTOM }))
            (sidebarItemsCalls w.selectedDocumentIndex w.clayStringBuffers.length 0
              w.documents.documents hovered))
          (w.documents.documents.map fun d => copyOf d.title) 2 := by
  have h : ∃ s2, (∃ hovered : List Bool, hovered.length = w.documents.length
        ∧ s2 = sidebarItemsCalls w.selectedDocumentIndex w.clayStringBuffers.length 0
            w.documents.documents hovered)
      ∧ Runs (sidebarElement env) w
          (elementCalls
            (idCall env "Sidebar" :: (rectangleCalls contentBackgroundConfig
              ++ layoutCalls
                  { sizing :=
                      { width := { min := 250, max := 250, type := .CLAY__SIZING_TYPE_FIXED }
                        height := { min := 0, type := .CLAY__SIZING_TYPE_GROW } }
                    padding := ⟨16, 16, 16, 16⟩
                    childGap := 8
                    layoutDirection := .CLAY_TOP_TO_BOTTOM })) s2)
          (w.documents.documents.map fun d => copyOf d.title) (1 + 1) :=
    forLatch_runs_some
      (((straight_OpenElement w).andThen <|
        (straight_attachClayID env "Sidebar" _).andThen <|
        (straight_storeAndAttachRectangle _ _).andThen <|
        (straight_storeAndAttachLayout _ _).andThen
          (straight_ElementPostConfiguration _)).of_shape (by simp) rfl)
      (fun w0 hdocs hsel hbuf hl => by
        obtain ⟨hovered, hlen, w', hw', hs, hk⟩ := sidebarLoop_runs env w0.documents.documents 0
          (w0.documents.length + 1) w0 rfl (Nat.zero_le _) (by rw [hdocs]; exact hn)
          (by unfold DocumentArray.length; omega)
        rw [hsel, hbuf, hdocs] at hs
        rw [hl] at hk
        exact ⟨_, ⟨hovered, by rw [hlen, hdocs]; rfl, rfl⟩, w', hw', hs, hk⟩)
      (by decide)
  obtain ⟨s2, ⟨hovered, hlen, rfl⟩, hruns⟩ := h
  exact ⟨hovered, hlen, hruns⟩

/-! ### The main content -/

theorem documentAt_selected (w : World) (d : Document)
    (hd : w.documents.documents[w.selectedDocumentIndex]? = some d) :
    documentAt w (w.selectedDocumentIndex : Int) = .ok d :=
  documentAt_natCast w _ d hd

theorem mainContentChildren_runs (w : World) (d : Document)
    (hd : w.documents.documents[w.selectedDocumentIndex]? = some d) :
    Runs mainContentChildren w
      (dynamicTextCalls w.clayStringBuffers.length d.title documentTextConfig
        ++ dynamicTextCalls (w.clayStringBuffers.length + 1) d.contents documentTextConfig)
      [copyOf d.title, copyOf d.contents] w.CLAY__ELEMENT_DEFINITION_LATCH := by
  have h1 := straight_dynamicText d.title documentTextConfig w
  have h2 := straight_dynamicText d.contents documentTextConfig
    (callWith (toClayString d.title) (fun s => clayTextElement s documentTextConfig) w)
  have hd2 : documentAt
      (callWith (toClayString d.title) (fun s => clayTextElement s documentTextConfig) w)
      ((callWith (toClayString d.title) (fun s => clayTextElement s documentTextConfig)
        w).selectedDocumentIndex : Int) = .ok d :=
    documentAt_selected _ d (by rw [h1.steps.documents, h1.steps.selectedDocumentIndex]; exact hd)
  refine ⟨_, ?_, (h1.steps.next h2.steps).of_eq ?_ rfl, by rw [h2.latch, h1.latch]⟩
  · unfold mainContentChildren
    rw [documentAt_selected w d hd]
    simp only [hd2]
  · rw [h1.steps.clayStringBuffers]; simp

theorem mainContentElement_runs (env : Env) (w : World) (d : Document)
    (hd : w.documents.documents[w.selectedDocumentIndex]? = some d) :
    Runs (mainContentElement env) w
      (elementCalls
        (idCall env "MainContent" :: (rectangleCalls contentBackgroundConfig
          ++ (scrollCalls { vertical := true }
          ++ layoutCalls
              { sizing := layoutExpandXY
                padding := ⟨16, 16, 16, 16⟩
                childGap := 16
                layoutDirection := .CLAY_TOP_TO_BOTTOM })))
        (dynamicTextCalls w.clayStringBuffers.length d.title documentTextConfig
          ++ dynamicTextCalls (w.clayStringBuffers.length + 1) d.contents documentTextConfig))
      [copyOf d.title, copyOf d.contents] (0 + 1) :=
  forLatch_runs_of
    (((straight_OpenElement w).andThen <|
      (straight_attachClayID env "MainContent" _).andThen <|
      (straight_storeAndAttachRectangle _ _).andThen <|
      (straight_storeAndAttachScroll _ _).andThen <|
      (straight_storeAndAttachLayout _ _).andThen
        (straight_ElementPostConfiguration _)).of_shape (by simp) rfl)
    (fun w0 hdocs hsel hbuf hl =>
      (mainContentChildren_runs w0 d (by rw [hdocs, hsel]; exact hd)).of_le
        (by rw [hbuf]) rfl (by rw [hl]))
    (by decide)

/-! ### The whole layout -/

theorem lowerContentChildren_runs (env : Env) (w : World) (d : Document)
    (hd : w.documents.documents[w.selectedDocumentIndex]? = some d)
    (hn : w.documents.length < 2 ^ 31) :
    ∃ hovered : List Bool, hovered.length = w.documents.length
      ∧ Runs (lowerContentChildren env) w
          (elementCalls
              (idCall env "Sidebar" :: (rectangleCalls contentBackgroundConfig
                ++ layoutCalls
                    { sizing :=
                        { width := { min := 250, max := 250, type := .CLAY__SIZING_TYPE_FIXED }
                          height := { min := 0, type := .CLAY__SIZING_TYPE_GROW } }
                      padding := ⟨16, 16, 16, 16⟩
                      childGap := 8
                      layoutDirection := .CLAY_TOP_TO_BOTTOM }))
              (sidebarItemsCalls w.selectedDocumentIndex w.clayStringBuffers.length 0
                w.documents.documents hovered)
            ++ elementCalls
              (idCall env "MainContent" :: (rectangleCalls contentBackgroundConfig
                ++ (scrollCalls { vertical := true }
                ++ layoutCalls
                    { sizing := layoutExpandXY
                      padding := ⟨16, 16, 16, 16⟩
                      childGap := 16
                      layoutDirection := .CLAY_TOP_TO_BOTTOM })))
              (dynamicTextCalls (w.clayStringBuffers.length + w.documents.documents.length)
                  d.title documentTextConfig
                ++ dynamicTextCalls (w.clayStringBuffers.length + w.documents.documents.length + 1)
                  d.contents documentTextConfig))
          (buildLayoutBuffers w.documents.documents d) 1 := by
  obtain ⟨hovered, hlen, w8, h8, s8, _⟩ := sidebarElement_runs env w hn
  obtain ⟨w11, h11, s11, l11⟩ := mainContentElement_runs env w8 d
    (by rw [s8.documents, s8.selectedDocumentIndex]; exact hd)
  refine ⟨hovered, hlen, w11, ?_, (s8.next s11).of_eq ?_ ?_, l11⟩
  · unfold lowerContentChildren
    simp only [h8, h11]
  · rw [s8.clayStringBuffers]; simp
  · simp [buildLayoutBuffers]

theorem lowerContentElement_runs (env : Env) (w : World) (d : Document)
    (hd : w.documents.documents[w.selectedDocumentIndex]? = some d)
    (hn : w.documents.length < 2 ^ 31) :
    ∃ hovered : List Bool, hovered.length = w.documents.length
      ∧ Runs (lowerContentElement env) w
          (lowerContentCalls env w.clayStringBuffers.length w.selectedDocumentIndex
            w.documents.documents d hovered)
          (buildLayoutBuffers w.documents.documents d) 2 := by
  have h : ∃ s2, (∃ hovered : List Bool, hovered.length = w.documents.length
        ∧ elementCalls
            (idCall env "LowerContent" :: layoutCalls { sizing := layoutExpandXY, childGap := 16 })
            s2
          = lowerContentCalls env w.clayStringBuffers.length w.selectedDocumentIndex
              w.documents.documents d hovered)
      ∧ Runs (lowerContentElement env) w
          (elementCalls
            (idCall env "LowerContent" :: layoutCalls { sizing := layoutExpandXY, childGap := 16 })
            s2)
          (buildLayoutBuffers w.documents.documents d) (1 + 1) :=
    forLatch_runs_some
      (((straight_OpenElement w).andThen <|
        (straight_attachClayID env "LowerContent" _).andThen <|
        (straight_storeAndAttachLayout _ _).andThen
          (straight_ElementPostConfiguration _)).of_shape (by simp) rfl)
      (fun w0 hdocs hsel hbuf hl => by
        obtain ⟨hovered, hlen, hruns⟩ := lowerContentChildren_runs env w0 d
          (by rw [hdocs, hsel]; exact hd) (by rw [hdocs]; exact hn)
        rw [hsel, hbuf, hdocs] at hruns
        exact ⟨_, ⟨hovered, by rw [hlen, hdocs], by simp [lowerContentCalls]⟩, hruns⟩)
      (by decide)
  obtain ⟨s2, ⟨hovered, hlen, heq⟩, hruns⟩ := h
  exact ⟨hovered, hlen, hruns.of_le heq rfl (le_refl _)⟩

theorem outerContainerChildren_runs (env : Env) (w : World) (d : Document)
    (hd : w.documents.documents[w.selectedDocumentIndex]? = some d)
    (hn : w.documents.length < 2 ^ 31) :
    ∃ hovered : List Bool, hovered.length = w.documents.length
      ∧ Runs (outerContainerChildren env) w
          (outerContainerChildrenCalls env w.clayStringBuffers.length w.selectedDocumentIndex
            w.documents.documents d hovered)
          (buildLayoutBuffers w.documents.documents d) 2 := by
  obtain ⟨w2, h2, s2, _⟩ := headerBarElement_runs env w
  obtain ⟨hovered, hlen, w3, h3, s3, l3⟩ := lowerContentElement_runs env w2 d
    (by rw [s2.documents, s2.selectedDocumentIndex]; exact hd) (by rw [s2.documents]; exact hn)
  rw [s2.documents] at hlen
  refine ⟨hovered, hlen, w3, ?_, (s2.next s3).of_eq ?_ (by rw [s2.documents]; simp), l3⟩
  · unfold outerContainerChildren
    simp only [h2, h3]
  · rw [s2.clayStringBuffers, s2.selectedDocumentIndex, s2.documents]
    simp [outerContainerChildrenCalls]

/-- One run of `buildLayout`, when the selected index is that of a document `d` and there
are fewer than 2^31 documents: it ends without a fault, returns what `Clay_EndLayout`
returned, makes the calls `buildLayoutCalls` (up to handles) and appends the buffers
`buildLayoutBuffers`. -/
theorem buildLayout_steps (env : Env) (w : World) (d : Document)
    (hd : w.documents.documents[w.selectedDocumentIndex]? = some d)
    (hn : w.documents.length < 2 ^ 31) :
    ∃ hovered : List Bool, hovered.length = w.documents.length
      ∧ ∃ w', buildLayout env w = .ok (env.Clay_EndLayout w'.calls, w')
        ∧ Steps w w'
            (buildLayoutCalls env w.clayStringBuffers.length w.selectedDocumentIndex
              w.documents.documents d hovered)
            (buildLayoutBuffers w.documents.documents d) := by
  have hinit : Straight w
      (w |> Clay_BeginLayout
        |> Clay__OpenElement
        |> attachClayID env (lit "OuterContainer")
        |> storeAndAttachRectangle { color := ⟨43, 41, 51, 255⟩ }
        |> storeAndAttachLayout
            { sizing := layoutExpandXY
              padding := ⟨16, 16, 16, 16⟩
              childGap := 16
              layoutDirection := .CLAY_TOP_TO_BOTTOM }
        |> Clay__ElementPostConfiguration)
      (.Clay_BeginLayout :: .Clay__OpenElement
        :: ((idCall env "OuterContainer" :: (rectangleCalls { color := ⟨43, 41, 51, 255⟩ }
          ++ layoutCalls
              { sizing := layoutExpandXY
                padding := ⟨16, 16, 16, 16⟩
                childGap := 16
                layoutDirection := .CLAY_TOP_TO_BOTTOM }))
          ++ [.Clay__ElementPostConfiguration])) [] :=
    ((straight_BeginLayout w).andThen <|
      (straight_OpenElement _).andThen <|
      (straight_attachClayID env "OuterContainer" _).andThen <|
      (straight_storeAndAttachRectangle _ _).andThen <|
      (straight_storeAndAttachLayout _ _).andThen
        (straight_ElementPostConfiguration _)).of_shape (by simp) rfl
  obtain ⟨hovered, hlen, w1, h1, s1, _⟩ := outerContainerChildren_runs env _ d
    (by rw [hinit.steps.documents, hinit.steps.selectedDocumentIndex]; exact hd)
    (by rw [hinit.steps.documents]; exact hn)
  rw [hinit.steps.documents] at hlen
  have hclose := straight_CloseElement w1
  have hend : Steps (Clay__CloseElement w1) (Clay_EndLayout env (Clay__CloseElement w1)).2
      [.Clay_EndLayout] [] :=
    ⟨by simp, by simp, by simp, rfl, rfl, rfl⟩
  refine ⟨hovered, hlen, (Clay_EndLayout env (Clay__CloseElement w1)).2, ?_,
    (((hinit.steps.next s1).next hclose.steps).next hend).of_eq ?_ (by simp)⟩
  · unfold buildLayout
    simp only [h1]
    rfl
  · have hb : (w |> Clay_BeginLayout
        |> Clay__OpenElement
        |> attachClayID env (lit "OuterContainer")
        |> storeAndAttachRectangle { color := ⟨43, 41, 51, 255⟩ }
        |> storeAndAttachLayout
            { sizing := layoutExpandXY
              padding := ⟨16, 16, 16, 16⟩
              childGap := 16
              layoutDirection := .CLAY_TOP_TO_BOTTOM }
        |> Clay__ElementPostConfiguration).clayStringBuffers = w.clayStringBuffers := by
      have := hinit.steps.clayStringBuffers
      simp only [List.append_nil] at this
      exact this
    rw [hb, hinit.steps.selectedDocumentIndex, hinit.steps.documents]
    simp [buildLayoutCalls, elementCalls]

/-! ### The calls of the layout declare a tree -/

theorem Decl.append {a b : List Call} (ha : Decl a) (hb : Decl b) : Decl (a ++ b) := by
  induction ha with
  | nil => exact hb
  | text hc _ ih => exact Decl.text hc ih
  | element hcfg hch _ _ ih =>
    rw [List.append_assoc]
    exact Decl.element hcfg hch ih

theorem Decl.one {config children : List Call} (hc : ValidConfig config) (hch : Decl children) :
    Decl (elementCalls config children) := by
  have := Decl.element hc hch Decl.nil
  simpa using this

theorem decl_textCalls (text : Clay_String) (config : Clay_TextElementConfig) :
    Decl (textCalls text config) :=
  Decl.text rfl (Decl.text rfl Decl.nil)

theorem decl_dynamicTextCalls (slot : Nat) (str : List Char) (config : Clay_TextElementConfig) :
    Decl (dynamicTextCalls slot str config) :=
  Decl.text rfl (decl_textCalls _ _)

theorem validConfig_layout (config : Clay_LayoutConfig) : ValidConfig (layoutCalls config) := by
  simp [ValidConfig, layoutCalls, Call.isConfig, Call.attached]

theorem validConfig_layout_rectangle (l : Clay_LayoutConfig) (r : Clay_RectangleElementConfig) :
    ValidConfig (layoutCalls l ++ rectangleCalls r) := by
  simp [ValidConfig, layoutCalls, rectangleCalls, Call.isConfig, Call.attached]

theorem decl_headerButtonCalls (s : String) : Decl (headerButtonCalls s) :=
  Decl.one (validConfig_layout_rectangle _ _) (decl_textCalls _ _)

theorem decl_dropdownItemCalls (s : String) : Decl (dropdownItemCalls s) :=
  Decl.one (validConfig_layout _) (decl_textCalls _ _)

theorem decl_fileMenuCalls (env : Env) : Decl (fileMenuCalls env) :=
  Decl.one
    (by simp [ValidConfig, layoutCalls, floatingCalls, idCall, Call.isConfig, Call.attached])
    (Decl.one (validConfig_layout_rectangle _ _)
      ((decl_dropdownItemCalls _).append
        ((decl_dropdownItemCalls _).append (decl_dropdownItemCalls _))))

theorem decl_fileButtonChildrenCalls (env : Env) : Decl (fileButtonChildrenCalls env) := by
  unfold fileButtonChildrenCalls
  refine (decl_textCalls _ _).append ?_
  split
  · exact decl_fileMenuCalls env
  · exact Decl.nil

theorem decl_headerBarCalls (env : Env) : Decl (headerBarCalls env) :=
  Decl.one
    (by simp [ValidConfig, layoutCalls, rectangleCalls, idCall, Call.isConfig, Call.attached])
    ((Decl.one
        (by simp [ValidConfig, layoutCalls, rectangleCalls, idCall, Call.isConfig,
          Call.attached])
        (decl_fileButtonChildrenCalls env)).append
      ((decl_headerButtonCalls _).append
        ((Decl.one (validConfig_layout _) Decl.nil).append
          ((decl_headerButtonCalls _).append
            ((decl_headerButtonCalls _).append (decl_headerButtonCalls _))))))

theorem decl_sidebarItemCalls (slot i : Nat) (selected hovered : Bool) (title : List Char) :
    Decl (sidebarItemCalls slot i selected hovered title) := by
  unfold sidebarItemCalls
  cases selected
  · cases hovered
    · exact Decl.one
        (by simp [ValidConfig, layoutCalls, Call.isConfig, Call.attached])
        (decl_dynamicTextCalls _ _ _)
    · exact Decl.one
        (by simp [ValidConfig, layoutCalls, rectangleCalls, Call.isConfig, Call.attached])
        (decl_dynamicTextCalls _ _ _)
  · exact Decl.one (validConfig_layout_rectangle _ _) (decl_dynamicTextCalls _ _ _)

theorem decl_sidebarItemsCalls (selectedDocumentIndex : Nat) (ds : List Document) :
    ∀ (slot i : Nat) (hovered : List Bool),
      Decl (sidebarItemsCalls selectedDocumentIndex slot i ds hovered) := by
  induction ds with
  | nil => intro slot i hovered; exact Decl.nil
  | cons d ds ih =>
    intro slot i hovered
    exact (decl_sidebarItemCalls _ _ _ _ _).append (ih _ _ _)

theorem decl_lowerContentCalls (env : Env) (slot selectedDocumentIndex : Nat)
    (ds : List Document) (selected : Document) (hovered : List Bool) :
    Decl (lowerContentCalls env slot selectedDocumentIndex ds selected hovered) :=
  Decl.one
    (by simp [ValidConfig, layoutCalls, idCall, Call.isConfig, Call.attached])
    ((Decl.one
        (by simp [ValidConfig, layoutCalls, rectangleCalls, idCall, Call.isConfig,
          Call.attached])
        (decl_sidebarItemsCalls _ _ _ _ _)).append
      (Decl.one
        (by simp [ValidConfig, layoutCalls, rectangleCalls, scrollCalls, idCall, Call.isConfig,
          Call.attached])
        ((decl_dynamicTextCalls _ _ _).append (decl_dynamicTextCalls _ _ _))))

theorem decl_outerContainerChildrenCalls (env : Env) (slot selectedDocumentIndex : Nat)
    (ds : List Document) (selected : Document) (hovered : List Bool) :
    Decl (outerContainerChildrenCalls env slot selectedDocumentIndex ds selected hovered) :=
  (decl_headerBarCalls env).append (decl_lowerContentCalls _ _ _ _ _ _)

/-- The calls of one run of `buildLayout` are `Clay_BeginLayout`, the declaration of the one
element "OuterContainer", and `Clay_EndLayout`. -/
theorem buildLayoutCalls_eq (env : Env) (slot selectedDocumentIndex : Nat)
    (ds : List Document) (selected : Document) (hovered : List Bool) :
    ∃ config children, ValidConfig config ∧ Decl children
      ∧ buildLayoutCalls env slot selectedDocumentIndex ds selected hovered
        = .Clay_BeginLayout :: (elementCalls config children ++ [.Clay_EndLayout]) :=
  ⟨_, _, by simp [ValidConfig, layoutCalls, rectangleCalls, idCall, Call.isConfig,
      Call.attached],
    decl_outerContainerChildrenCalls env slot selectedDocumentIndex ds selected hovered, rfl⟩

/-! ### Nesting -/

theorem nesting_append (a b : List Call) :
    ∀ d, nesting d (a ++ b) = (nesting d a).bind fun d' => nesting d' b := by
  induction a with
  | nil => intro d; simp [nesting]
  | cons c a ih =>
    intro d
    simp only [List.cons_append, nesting]
    split
    · exact ih _
    · split
      · split
        · rfl
        · exact ih _
      · exact ih _

theorem nesting_of_neutral (l : List Call)
    (h : ∀ c ∈ l, c.isOpen = false ∧ c.isClose = false) : ∀ d, nesting d l = some d := by
  induction l with
  | nil => intro d; rfl
  | cons c l ih =>
    intro d
    have hc := h c (by simp)
    simp only [nesting, hc.1, hc.2]
    exact ih (fun c hc => h c (by simp [hc])) d

theorem Call.isConfig_neutral (c : Call) (h : c.isConfig = true) :
    c.isOpen = false ∧ c.isClose = false := by
  cases c <;> simp_all [Call.isConfig, Call.isOpen, Call.isClose]

theorem Call.isText_neutral (c : Call) (h : c.isText = true) :
    c.isOpen = false ∧ c.isClose = false := by
  cases c <;> simp_all [Call.isText, Call.isOpen, Call.isClose]

theorem nesting_config (config : List Call) (h : ValidConfig config) (d : Nat) :
    nesting d config = some d :=
  nesting_of_neutral config (fun c hc => Call.isConfig_neutral c (h.1 c hc)) d

theorem nesting_elementCalls (config children : List Call) (hc : ValidConfig config)
    (hch : ∀ d, nesting d children = some d) (d : Nat) :
    nesting d (elementCalls config children) = some d := by
  unfold elementCalls
  have h1 : nesting d (Call.Clay__OpenElement
        :: (config ++ Call.Clay__ElementPostConfiguration :: (children ++ [.Clay__CloseElement])))
      = nesting (d + 1)
          (config ++ Call.Clay__ElementPostConfiguration :: (children ++ [.Clay__CloseElement])) := by
    simp [nesting, Call.isOpen]
  have h2 : nesting (d + 1)
        (Call.Clay__ElementPostConfiguration :: (children ++ [.Clay__CloseElement]))
      = nesting (d + 1) (children ++ [.Clay__CloseElement]) := by
    simp [nesting, Call.isOpen, Call.isClose]
  have h3 : nesting (d + 1) [Call.Clay__CloseElement] = some d := by
    simp [nesting, Call.isOpen, Call.isClose]
  rw [h1, nesting_append, nesting_config config hc]
  show nesting (d + 1) _ = _
  rw [h2, nesting_append, hch]
  exact h3

/-- A declaration leaves the nesting depth where it was, at any depth. -/
theorem Decl.nesting_eq {l : List Call} (h : Decl l) : ∀ d, nesting d l = some d := by
  induction h with
  | nil => intro d; rfl
  | text hc _ ih =>
    intro d
    have := Call.isText_neutral _ hc
    simp only [ClayDemo.nesting, this.1, this.2]
    exact ih d
  | element hcfg _ _ ihch ihrest =>
    intro d
    rw [nesting_append, nesting_elementCalls _ _ hcfg ihch d]
    exact ihrest d

/-- What the nesting depth says about the numbers of opens and closes: they agree at the
end up to the depths, and no prefix closes more than it opened and the start depth. -/
theorem nesting_counts (l : List Call) :
    ∀ d d', nesting d l = some d' →
      d + opens l = d' + closes l ∧ ∀ k, closes (l.take k) ≤ d + opens (l.take k) := by
  induction l with
  | nil =>
    intro d d' h
    simp only [nesting, Option.some.injEq] at h
    subst h
    exact ⟨rfl, fun k => by simp [closes, opens]⟩
  | cons c l ih =>
    intro d d' h
    simp only [nesting] at h
    by_cases ho : c.isOpen = true
    · have hcl : c.isClose = false := by cases c <;> simp_all [Call.isOpen, Call.isClose]
      rw [if_pos ho] at h
      obtain ⟨h1, h2⟩ := ih _ _ h
      refine ⟨by simp [opens, closes, List.countP_cons, ho, hcl] at h1 ⊢; omega, fun k => ?_⟩
      cases k with
      | zero => simp [closes, opens]
      | succ k =>
        have := h2 k
        simp [opens, closes, List.countP_cons, ho, hcl] at this ⊢
        omega
    · have ho' : c.isOpen = false := by simpa using ho
      rw [if_neg ho] at h
      by_cases hc : c.isClose = true
      · rw [if_pos hc] at h
        by_cases hd : d = 0
        · rw [if_pos hd] at h; exact Option.noConfusion h
        · rw [if_neg hd] at h
          obtain ⟨h1, h2⟩ := ih _ _ h
          refine ⟨by simp [opens, closes, List.countP_cons, ho', hc] at h1 ⊢; omega,
            fun k => ?_⟩
          cases k with
          | zero => simp [closes, opens]
          | succ k =>
            have := h2 k
            simp [opens, closes, List.countP_cons, ho', hc] at this ⊢
            omega
      · have hc' : c.isClose = false := by simpa using hc
        rw [if_neg hc] at h
        obtain ⟨h1, h2⟩ := ih _ _ h
        refine ⟨by simp [opens, closes, List.countP_cons, ho', hc'] at h1 ⊢; omega,
          fun k => ?_⟩
        cases k with
        | zero => simp [closes, opens]
        | succ k =>
          have := h2 k
          simp [opens, closes, List.countP_cons, ho', hc'] at this ⊢
          omega

/-! ### Handles do not matter -/

theorem Call.isOpen_erase (c : Call) : c.erase.isOpen = c.isOpen := by
  cases c <;> first | rfl | (rename_i u t; cases u <;> rfl)

theorem Call.isClose_erase (c : Call) : c.erase.isClose = c.isClose := by
  cases c <;> first | rfl | (rename_i u t; cases u <;> rfl)

theorem Call.attached_erase (c : Call) : c.erase.attached = c.attached := by
  cases c <;> first | rfl | (rename_i u t; cases u <;> cases t <;> rfl)

theorem opens_map_erase (l : List Call) : opens (l.map Call.erase) = opens l := by
  unfold opens
  rw [List.countP_map]
  congr 1
  funext c
  exact Call.isOpen_erase c

theorem closes_map_erase (l : List Call) : closes (l.map Call.erase) = closes l := by
  unfold closes
  rw [List.countP_map]
  congr 1
  funext c
  exact Call.isClose_erase c

theorem Call.erase_eq_BeginLayout (c : Call) (h : c.erase = .Clay_BeginLayout) :
    c = .Clay_BeginLayout := by
  cases c with
  | Clay__AttachElementConfig u t => cases u <;> simp [Call.erase] at h
  | _ => simp [Call.erase] at h ⊢

theorem Call.erase_eq_EndLayout (c : Call) (h : c.erase = .Clay_EndLayout) :
    c = .Clay_EndLayout := by
  cases c with
  | Clay__AttachElementConfig u t => cases u <;> simp [Call.erase] at h
  | _ => simp [Call.erase] at h ⊢

theorem Call.erase_eq_CloseElement (c : Call) (h : c.erase = .Clay__CloseElement) :
    c = .Clay__CloseElement := by
  cases c with
  | Clay__AttachElementConfig u t => cases u <;> simp [Call.erase] at h
  | _ => simp [Call.erase] at h ⊢

/-! ### The opens and closes of one run -/

theorem opens_cons (c : Call) (l : List Call) :
    opens (c :: l) = opens l + (if c.isOpen then 1 else 0) := by
  simp [opens, List.countP_cons]

theorem closes_cons (c : Call) (l : List Call) :
    closes (c :: l) = closes l + (if c.isClose then 1 else 0) := by
  simp [closes, List.countP_cons]

theorem opens_append (a b : List Call) : opens (a ++ b) = opens a + opens b := by
  simp [opens]

theorem closes_append (a b : List Call) : closes (a ++ b) = closes a + closes b := by
  simp [closes]

/-- The opens and closes of `Clay_BeginLayout`, one element, `Clay_EndLayout`. -/
theorem balanced_of_one_element (config children : List Call) (hc : ValidConfig config)
    (hch : Decl children) :
    closes (.Clay_BeginLayout :: (elementCalls config children ++ [.Clay_EndLayout]))
        = opens (.Clay_BeginLayout :: (elementCalls config children ++ [.Clay_EndLayout]))
      ∧ (∀ k, closes ((Call.Clay_BeginLayout
            :: (elementCalls config children ++ [.Clay_EndLayout])).take k)
          ≤ opens ((Call.Clay_BeginLayout
            :: (elementCalls config children ++ [.Clay_EndLayout])).take k))
      ∧ (∀ k, 2 ≤ k →
          k + 2 ≤ (Call.Clay_BeginLayout
            :: (elementCalls config children ++ [.Clay_EndLayout])).length →
          closes ((Call.Clay_BeginLayout
              :: (elementCalls config children ++ [.Clay_EndLayout])).take k)
            < opens ((Call.Clay_BeginLayout
              :: (elementCalls config children ++ [.Clay_EndLayout])).take k)) := by
  have hmid : nesting 0 (config ++ Call.Clay__ElementPostConfiguration :: children) = some 0 := by
    rw [nesting_append, nesting_config config hc]
    show nesting 0 (Call.Clay__ElementPostConfiguration :: children) = some 0
    have : nesting 0 (Call.Clay__ElementPostConfiguration :: children) = nesting 0 children := by
      simp [nesting, Call.isOpen, Call.isClose]
    rw [this]
    exact hch.nesting_eq 0
  obtain ⟨h1, h2⟩ := nesting_counts _ 0 0 hmid
  have e : Call.Clay_BeginLayout :: (elementCalls config children ++ [.Clay_EndLayout])
      = Call.Clay_BeginLayout :: Call.Clay__OpenElement
        :: ((config ++ Call.Clay__ElementPostConfiguration :: children)
          ++ [Call.Clay__CloseElement, Call.Clay_EndLayout]) := by
    simp [elementCalls]
  rw [e]
  generalize config ++ Call.Clay__ElementPostConfiguration :: children = mid at h1 h2
  refine ⟨?_, ?_, ?_⟩
  · simp only [opens_cons, closes_cons, opens_append, closes_append, Call.isOpen, Call.isClose]
    simp [opens, closes] at h1 ⊢
    omega
  · intro k
    rcases k with _ | _ | k
    · simp [opens, closes]
    · simp [opens, closes, Call.isOpen, Call.isClose]
    · simp only [List.take_succ_cons, opens_cons, closes_cons, Call.isOpen, Call.isClose]
      rw [List.take_append_eq_append_take]
      simp only [opens_append, closes_append]
      have hk := h2 k
      have ht : closes (List.take (k - mid.length)
          [Call.Clay__CloseElement, Call.Clay_EndLayout]) ≤ 1 := by
        rcases (k - mid.length) with _ | _ | j <;> simp [closes, Call.isClose]
      have hz : k ≤ mid.length → closes (List.take (k - mid.length)
          [Call.Clay__CloseElement, Call.Clay_EndLayout]) = 0 := by
        intro hle
        have : k - mid.length = 0 := by omega
        rw [this]; rfl
      by_cases hle : k ≤ mid.length
      · have := hz hle
        simp at hk ⊢
        omega
      · have hfull : List.take k mid = mid := List.take_of_length_le (by omega)
        rw [hfull]
        simp at h1 ⊢
        omega
  · intro k hk2 hlen
    rcases k with _ | _ | k
    · omega
    · omega
    · simp only [List.take_succ_cons, opens_cons, closes_cons, Call.isOpen, Call.isClose]
      have hle : k ≤ mid.length := by simp at hlen; omega
      rw [List.take_append_of_le_length hle]
      have := h2 k
      simp at this ⊢
      omega

/-! ### Faults -/

theorem forLatch_error {init : World → World} {body : World → Except Fault World} {w : World}
    {e : Fault} (h : body { init w with CLAY__ELEMENT_DEFINITION_LATCH := 0 } = .error e) :
    forLatch init body w = .error e := by
  simp [forLatch, forLatchFrom, h]

/-- With 2^31 documents or more the counter `i` of the sidebar loop reaches the largest
`int` and `i++` overflows. -/
theorem sidebarLoop_overflow (env : Env) :
    ∀ (m k tests : Nat) (w : World), k + m = 2 ^ 31 - 1 → 2 ^ 31 ≤ w.documents.length →
      m < tests → sidebarLoop env tests (k : Int) w = .error .signedOverflow := by
  intro m
  induction m with
  | zero =>
    intro k tests w hk hn ht
    obtain ⟨t, rfl⟩ : ∃ t, tests = t + 1 := ⟨tests - 1, by omega⟩
    have hlt : k < w.documents.documents.length := by
      unfold DocumentArray.length at hn; omega
    obtain ⟨_, w1, hw1, _, _⟩ := sidebarItem_runs env k w _
      (List.getElem?_eq_getElem hlt) (by omega)
    unfold sidebarLoop
    rw [toUInt32_natCast k (by omega), if_pos (by unfold DocumentArray.length; omega)]
    simp only [hw1]
    rw [if_pos (by unfold INT_MAX; omega)]
  | succ m ih =>
    intro k tests w hk hn ht
    obtain ⟨t, rfl⟩ : ∃ t, tests = t + 1 := ⟨tests - 1, by omega⟩
    have hlt : k < w.documents.documents.length := by
      unfold DocumentArray.length at hn; omega
    obtain ⟨_, w1, hw1, s1, _⟩ := sidebarItem_runs env k w _
      (List.getElem?_eq_getElem hlt) (by omega)
    unfold sidebarLoop
    rw [toUInt32_natCast k (by omega), if_pos (by unfold DocumentArray.length; omega)]
    simp only [hw1]
    rw [if_neg (by unfold INT_MAX; omega)]
    have hc : ((k : Int) + 1) = ((k + 1 : Nat) : Int) := by push_cast; rfl
    rw [hc]
    exact ih (k + 1) t w1 (by omega) (by rw [s1.documents]; exact hn) (by omega)

/-- With 2^31 documents or more a run of `buildLayout` has undefined behaviour. -/
theorem buildLayout_overflow (env : Env) (w : World) (hn : 2 ^ 31 ≤ w.documents.length) :
    buildLayout env w = .error .signedOverflow := by
  have hsidebar : ∀ w0 : World, 2 ^ 31 ≤ w0.documents.length →
      sidebarElement env w0 = .error .signedOverflow := by
    intro w0 h0
    refine forLatch_error ?_
    have hdocs : ({ (w0 |> Clay__OpenElement
          |> attachClayID env (lit "Sidebar")
          |> storeAndAttachRectangle contentBackgroundConfig
          |> storeAndAttachLayout
              { sizing :=
                  { width := { min := 250, max := 250, type := .CLAY__SIZING_TYPE_FIXED }
                    height := { min := 0, type := .CLAY__SIZING_TYPE_GROW } }
                padding := ⟨16, 16, 16, 16⟩
                childGap := 8
                layoutDirection := .CLAY_TOP_TO_BOTTOM }
          |> Clay__ElementPostConfiguration) with
            CLAY__ELEMENT_DEFINITION_LATCH := 0 } : World).documents = w0.documents := by
      simp
    exact sidebarLoop_overflow env (2 ^ 31 - 1) 0 _ _ (by omega) (by rw [hdocs]; exact h0)
      (by rw [hdocs]; omega)
  have hlower : ∀ w0 : World, 2 ^ 31 ≤ w0.documents.length →
      lowerContentElement env w0 = .error .signedOverflow := by
    intro w0 h0
    refine forLatch_error ?_
    unfold lowerContentChildren
    rw [hsidebar _ (by simpa using h0)]
  obtain ⟨w2, h2, s2, _⟩ := headerBarElement_runs env
    (w |> Clay_BeginLayout
      |> Clay__OpenElement
      |> attachClayID env (lit "OuterContainer")
      |> storeAndAttachRectangle { color := ⟨43, 41, 51, 255⟩ }
      |> storeAndAttachLayout
          { sizing := layoutExpandXY
            padding := ⟨16, 16, 16, 16⟩
            childGap := 16
            layoutDirection := .CLAY_TOP_TO_BOTTOM }
      |> Clay__ElementPostConfiguration)
  have h3 := hlower w2 (by rw [s2.documents]; simpa using hn)
  unfold buildLayout outerContainerChildren
  simp only [h2, h3]

/-! ### C6 -/

/-- C6 as stated fails: with 2^31 documents (and the selected index 0, below the number of
documents) the counter `int i` of the sidebar loop overflows, so the run of `buildLayout`
has undefined behaviour and issues no balanced sequence of calls. -/
theorem buildLayout_faults_with_2_pow_31_documents :
    manyDocuments.selectedDocumentIndex < manyDocuments.documents.length
      ∧ manyDocuments.documents.length = 2 ^ 31
      ∧ buildLayout sampleEnv manyDocuments = .error .signedOverflow := by
  have hlen : manyDocuments.documents.length = 2 ^ 31 := by
    simp only [manyDocuments, DocumentArray.length, List.length_replicate]
  refine ⟨?_, hlen, buildLayout_overflow _ _ (by rw [hlen])⟩
  rw [hlen]
  exact Nat.pos_of_ne_zero (by norm_num)

/-- C6, amended: for every world with fewer than 2^31 documents and a selected index below
their number, and all answers of the library, a run of `buildLayout` ends and the calls
`seg` it made are balanced: as many closes as opens, no prefix with more closes than opens,
more opens than closes in every prefix from the first open (the second call) up to the call
before the final close, which is the call just before the last one, `Clay_EndLayout`. -/
theorem buildLayout_balanced (env : Env) (w : World)
    (hsel : w.selectedDocumentIndex < w.documents.length)
    (hn : w.documents.length < 2 ^ 31) :
    ∃ renderCommands w' seg, buildLayout env w = .ok (renderCommands, w')
      ∧ w'.calls = w.calls ++ seg
      ∧ closes seg = opens seg
      ∧ (∀ k, closes (seg.take k) ≤ opens (seg.take k))
      ∧ (∀ k, 2 ≤ k → k + 2 ≤ seg.length → closes (seg.take k) < opens (seg.take k))
      ∧ closes (seg.take 1) = 0 ∧ opens (seg.take 1) = 0 ∧ opens (seg.take 2) = 1
      ∧ seg.dropLast.getLast? = some .Clay__CloseElement
      ∧ seg.getLast? = some .Clay_EndLayout := by
  obtain ⟨d, hd⟩ : ∃ d, w.documents.documents[w.selectedDocumentIndex]? = some d :=
    ⟨_, List.getElem?_eq_getElem hsel⟩
  obtain ⟨hovered, _, w', hw', hsteps⟩ := buildLayout_steps env w d hd hn
  obtain ⟨seg, hseg, hmap⟩ := hsteps.segment
  obtain ⟨config, children, hc, hch, hshape⟩ := buildLayoutCalls_eq env
    w.clayStringBuffers.length w.selectedDocumentIndex w.documents.documents d hovered
  rw [hshape] at hmap
  obtain ⟨h1, h2, h3⟩ := balanced_of_one_element config children hc hch
  rw [← hmap] at h1 h2 h3
  have hlen : seg.length = (elementCalls config children).length + 2 := by
    have := congrArg List.length hmap
    simpa using this
  refine ⟨_, w', seg, hw', hseg, ?_, ?_, ?_, ?_, ?_, ?_, ?_, ?_⟩
  · rw [closes_map_erase, opens_map_erase] at h1; exact h1
  · intro k
    have := h2 k
    rw [← List.map_take, closes_map_erase, opens_map_erase] at this
    exact this
  · intro k hk hk2
    have := h3 k hk (by simpa using hk2)
    rw [← List.map_take, closes_map_erase, opens_map_erase] at this
    exact this
  · rw [← closes_map_erase, List.map_take, hmap]; rfl
  · rw [← opens_map_erase, List.map_take, hmap]; rfl
  · rw [← opens_map_erase, List.map_take, hmap]; rfl
  · have h : (seg.map Call.erase).dropLast.getLast? = some .Clay__CloseElement := by
      have e : Call.Clay_BeginLayout :: (elementCalls config children ++ [.Clay_EndLayout])
          = ((Call.Clay_BeginLayout :: Call.Clay__OpenElement
              :: (config ++ Call.Clay__ElementPostConfiguration :: children))
            ++ [Call.Clay__CloseElement]) ++ [Call.Clay_EndLayout] := by
        simp [elementCalls]
      rw [hmap, e, List.dropLast_concat, List.getLast?_concat]
    rw [← List.map_dropLast, List.getLast?_map] at h
    cases hq : seg.dropLast.getLast? with
    | none => rw [hq] at h; exact Option.noConfusion h
    | some c =>
      rw [hq] at h
      simp only [Option.map_some', Option.some.injEq] at h
      rw [Call.erase_eq_CloseElement c h]
  · have h : (seg.map Call.erase).getLast? = some .Clay_EndLayout := by
      rw [hmap, ← List.cons_append, List.getLast?_concat]
    rw [List.getLast?_map] at h
    cases hq : seg.getLast? with
    | none => rw [hq] at h; exact Option.noConfusion h
    | some c =>
      rw [hq] at h
      simp only [Option.map_some', Option.some.injEq] at h
      rw [Call.erase_eq_EndLayout c h]

theorem buildLayout_balanced_witness :
    ∃ renderCommands w' seg, buildLayout sampleEnv (mainSetup {}) = .ok (renderCommands, w')
      ∧ w'.calls = (mainSetup {}).calls ++ seg
      ∧ closes seg = opens seg
      ∧ (∀ k, closes (seg.take k) ≤ opens (seg.take k))
      ∧ (∀ k, 2 ≤ k → k + 2 ≤ seg.length → closes (seg.take k) < opens (seg.take k))
      ∧ closes (seg.take 1) = 0 ∧ opens (seg.take 1) = 0 ∧ opens (seg.take 2) = 1
      ∧ seg.dropLast.getLast? = some .Clay__CloseElement
      ∧ seg.getLast? = some .Clay_EndLayout :=
  buildLayout_balanced sampleEnv (mainSetup {}) (by decide) (by decide)

/-! ### Configuration sections -/

theorem configOf_map_erase (l : List Call) : configOf (l.map Call.erase) = configOf l := by
  induction l with
  | nil => rfl
  | cons c l ih =>
    cases c with
    | Clay__AttachElementConfig u t =>
      cases u <;> cases t <;> simp [Call.erase, configOf, Call.attached, ih]
    | _ => simp [Call.erase, configOf, Call.attached, ih]

theorem elementsConfig_map_erase (l : List Call) :
    elementsConfig (l.map Call.erase) = elementsConfig l := by
  induction l with
  | nil => rfl
  | cons c l ih =>
    cases c with
    | Clay__AttachElementConfig u t =>
      cases u <;> simp [Call.erase, elementsConfig, ih]
    | Clay__OpenElement =>
      simp only [List.map_cons, Call.erase, elementsConfig, ih]
      rw [configOf_map_erase]
    | _ => simp [Call.erase, elementsConfig, ih]

theorem attached_map_erase (l : List Call) :
    (l.map Call.erase).filterMap Call.attached = l.filterMap Call.attached := by
  rw [List.filterMap_map]
  congr 1
  funext c
  exact Call.attached_erase c

theorem configOf_config (config rest : List Call) (h : ∀ c ∈ config, c.isConfig = true) :
    configOf (config ++ Call.Clay__ElementPostConfiguration :: rest)
      = config.filterMap Call.attached := by
  induction config with
  | nil => simp [configOf]
  | cons c config ih =>
    have hc := h c (by simp)
    have ih' := ih (fun c hc => h c (by simp [hc]))
    cases c with
    | Clay__AttachElementConfig u t =>
      cases t <;> simp [configOf, Call.attached, ih']
    | _ => simp_all [configOf, Call.attached, Call.isConfig]

theorem elementsConfig_of_no_open (a b : List Call) (h : ∀ c ∈ a, c.isOpen = false) :
    elementsConfig (a ++ b) = elementsConfig b := by
  induction a with
  | nil => rfl
  | cons c a ih =>
    have hc := h c (by simp)
    have ih' := ih (fun c hc => h c (by simp [hc]))
    cases c <;> simp_all [elementsConfig, Call.isOpen]

theorem elementsConfig_elementCalls (config children rest : List Call)
    (hc : ValidConfig config) :
    elementsConfig (elementCalls config children ++ rest)
      = config.filterMap Call.attached
        :: elementsConfig (children ++ (Call.Clay__CloseElement :: rest)) := by
  have e : elementCalls config children ++ rest
      = Call.Clay__OpenElement :: (config ++ Call.Clay__ElementPostConfiguration
          :: (children ++ (Call.Clay__CloseElement :: rest))) := by
    simp [elementCalls]
  rw [e]
  simp only [elementsConfig]
  rw [configOf_config config _ hc.1,
    elementsConfig_of_no_open config _ (fun c h => (Call.isConfig_neutral c (hc.1 c h)).1)]
  simp [elementsConfig]

/-- The configuration sections of a declaration do not reach into what follows it. -/
theorem Decl.elementsConfig_append {a : List Call} (ha : Decl a) :
    ∀ b, elementsConfig (a ++ b) = elementsConfig a ++ elementsConfig b := by
  induction ha with
  | nil => intro b; rfl
  | @text c rest hc _ ih =>
    intro b
    have h1 : ∀ l, elementsConfig (c :: l) = elementsConfig l := by
      intro l
      cases c <;> simp_all [elementsConfig, Call.isText]
    rw [List.cons_append, h1, h1, ih]
  | @element config children rest hcfg _ _ ihch ihrest =>
    intro b
    have hclose : ∀ l, elementsConfig (Call.Clay__CloseElement :: l) = elementsConfig l :=
      fun l => rfl
    rw [List.append_assoc, elementsConfig_elementCalls _ _ _ hcfg,
      elementsConfig_elementCalls _ _ _ hcfg, ihch, ihch, hclose, hclose, ihrest]
    simp

/-- In a declaration every element gets each category at most once and a layout. -/
theorem Decl.elementsConfig_valid {l : List Call} (h : Decl l) :
    ∀ cats ∈ elementsConfig l, cats.Nodup ∧ Category.layout ∈ cats := by
  induction h with
  | nil => intro cats hc; simp [elementsConfig] at hc
  | @text c rest hc _ ih =>
    have h1 : elementsConfig (c :: rest) = elementsConfig rest := by
      cases c <;> simp_all [elementsConfig, Call.isText]
    rw [h1]; exact ih
  | @element config children rest hcfg hch _ ihch ihrest =>
    intro cats hmem
    have hclose : ∀ l, elementsConfig (Call.Clay__CloseElement :: l) = elementsConfig l :=
      fun l => rfl
    rw [elementsConfig_elementCalls _ _ _ hcfg, hch.elementsConfig_append, hclose] at hmem
    simp only [List.mem_cons, List.mem_append] at hmem
    rcases hmem with rfl | hmem | hmem
    · exact ⟨hcfg.2.1, hcfg.2.2⟩
    · exact ihch _ hmem
    · exact ihrest _ hmem

/-- In a declaration every attach is in the configuration section of an element. -/
theorem Decl.attached_length {l : List Call} (h : Decl l) :
    (l.filterMap Call.attached).length = ((elementsConfig l).map List.length).sum := by
  induction h with
  | nil => rfl
  | @text c rest hc _ ih =>
    have h1 : elementsConfig (c :: rest) = elementsConfig rest := by
      cases c <;> simp_all [elementsConfig, Call.isText]
    have h2 : (c :: rest).filterMap Call.attached = rest.filterMap Call.attached := by
      cases c <;> simp_all [Call.attached, Call.isText]
    rw [h1, h2]; exact ih
  | @element config children rest hcfg hch _ ihch ihrest =>
    have hclose : ∀ l, elementsConfig (Call.Clay__CloseElement :: l) = elementsConfig l :=
      fun l => rfl
    rw [elementsConfig_elementCalls _ _ _ hcfg, hch.elementsConfig_append, hclose]
    simp only [elementCalls, List.filterMap_append, List.filterMap_cons, Call.attached,
      List.length_append, List.map_cons, List.map_append, List.sum_cons, List.sum_append,
      List.cons_append, List.filterMap_nil, List.length_nil]
    rw [ihch, ihrest]
    omega

theorem elementsConfig_length (l : List Call) : (elementsConfig l).length = opens l := by
  induction l with
  | nil => rfl
  | cons c l ih =>
    cases c <;> simp [elementsConfig, opens_cons, Call.isOpen, ih]

/-- With a selected index that is not below the number of documents a run of `buildLayout`
reads outside the document array. -/
theorem buildLayout_outOfBounds (env : Env) (w : World)
    (hsel : w.documents.length ≤ w.selectedDocumentIndex)
    (hn : w.documents.length < 2 ^ 31) :
    buildLayout env w = .error .outOfBounds := by
  have hread : ∀ w0 : World, w0.documents.length ≤ w0.selectedDocumentIndex →
      mainContentChildren w0 = .error .outOfBounds := by
    intro w0 h0
    have : w0.documents.documents[w0.selectedDocumentIndex]? = none :=
      List.getElem?_eq_none (by unfold DocumentArray.length at h0; exact h0)
    unfold mainContentChildren documentAt
    simp [this]
  have hmain : ∀ w0 : World, w0.documents.length ≤ w0.selectedDocumentIndex →
      mainContentElement env w0 = .error .outOfBounds := by
    intro w0 h0
    refine forLatch_error (hread _ ?_)
    simpa using h0
  have hlower : ∀ w0 : World, w0.documents.length ≤ w0.selectedDocumentIndex →
      w0.documents.length < 2 ^ 31 → lowerContentElement env w0 = .error .outOfBounds := by
    intro w0 h0 hn0
    refine forLatch_error ?_
    obtain ⟨_, _, w8, h8, s8, _⟩ := sidebarElement_runs env
      { (w0 |> Clay__OpenElement
          |> attachClayID env (lit "LowerContent")
          |> storeAndAttachLayout { sizing := layoutExpandXY, childGap := 16 }
          |> Clay__ElementPostConfiguration) with CLAY__ELEMENT_DEFINITION_LATCH := 0 }
      (by simpa using hn0)
    unfold lowerContentChildren
    simp only [h8]
    exact hmain w8 (by rw [s8.documents, s8.selectedDocumentIndex]; simpa using h0)
  obtain ⟨w2, h2, s2, _⟩ := headerBarElement_runs env
    (w |> Clay_BeginLayout
      |> Clay__OpenElement
      |> attachClayID env (lit "OuterContainer")
      |> storeAndAttachRectangle { color := ⟨43, 41, 51, 255⟩ }
      |> storeAndAttachLayout
          { sizing := layoutExpandXY
            padding := ⟨16, 16, 16, 16⟩
            childGap := 16
            layoutDirection := .CLAY_TOP_TO_BOTTOM }
      |> Clay__ElementPostConfiguration)
  have h3 := hlower w2 (by rw [s2.documents, s2.selectedDocumentIndex]; simpa using hsel)
    (by rw [s2.documents]; simpa using hn)
  unfold buildLayout outerContainerChildren
  simp only [h2, h3]

/-! ### The configuration sections of a run that ends -/

/-- In the world of the initial values of the globals (no documents, `selectedDocumentIndex`
0) a run of `buildLayout` reads `documents.documents[0]` outside the document array. -/
theorem buildLayout_faults_without_documents :
    ({} : World).documents.length = 0 ∧ ({} : World).selectedDocumentIndex = 0
      ∧ buildLayout sampleEnv {} = .error .outOfBounds :=
  ⟨rfl, rfl, buildLayout_outOfBounds _ _ (by decide) (by decide)⟩

/-- For every world with fewer than 2^31 documents and a selected index below their
number, a run of `buildLayout` ends, and in the calls `seg` it made every element (one
for each `Clay__OpenElement`, the ones of `RenderHeaderButton` and `RenderDropdownMenuItem`
included) is attached, between its open and its post-configuration, exactly one layout
record and at most one rectangle, floating and scroll record, and every attach of the run is
one of those, so no element gets a second record of a category: the calls are, up to the
values of the handles, `Clay_BeginLayout`, the declaration of one element with a valid
configuration section and with children that are declarations of such elements and of text
leaves, and `Clay_EndLayout`. -/
theorem buildLayout_one_record_per_category (env : Env) (w : World)
    (hsel : w.selectedDocumentIndex < w.documents.length)
    (hn : w.documents.length < 2 ^ 31) :
    ∃ renderCommands w' seg, buildLayout env w = .ok (renderCommands, w')
      ∧ w'.calls = w.calls ++ seg
      ∧ (∀ cats ∈ elementsConfig seg,
          cats.count .layout = 1 ∧ cats.count .rectangle ≤ 1
            ∧ cats.count .floating ≤ 1 ∧ cats.count .scroll ≤ 1)
      ∧ (elementsConfig seg).length = opens seg
      ∧ (seg.filterMap Call.attached).length = ((elementsConfig seg).map List.length).sum
      ∧ (∃ config children, ValidConfig config ∧ Decl children
          ∧ seg.map Call.erase
            = .Clay_BeginLayout :: (elementCalls config children ++ [.Clay_EndLayout])) := by
  obtain ⟨d, hd⟩ : ∃ d, w.documents.documents[w.selectedDocumentIndex]? = some d :=
    ⟨_, List.getElem?_eq_getElem hsel⟩
  obtain ⟨hovered, _, w', hw', hsteps⟩ := buildLayout_steps env w d hd hn
  obtain ⟨seg, hseg, hmap⟩ := hsteps.segment
  obtain ⟨config, children, hc, hch, hshape⟩ := buildLayoutCalls_eq env
    w.clayStringBuffers.length w.selectedDocumentIndex w.documents.documents d hovered
  rw [hshape] at hmap
  have hdecl : Decl (elementCalls config children) := Decl.one hc hch
  have hcfg : elementsConfig seg = elementsConfig (elementCalls config children) := by
    rw [← elementsConfig_map_erase, hmap]
    show elementsConfig (elementCalls config children ++ [Call.Clay_EndLayout]) = _
    rw [hdecl.elementsConfig_append]
    simp [elementsConfig]
  have hatt : seg.filterMap Call.attached
      = (elementCalls config children).filterMap Call.attached := by
    rw [← attached_map_erase, hmap]
    simp [Call.attached]
  refine ⟨_, w', seg, hw', hseg, ?_, elementsConfig_length seg, ?_,
    ⟨config, children, hc, hch, hmap⟩⟩
  · intro cats hmem
    rw [hcfg] at hmem
    obtain ⟨hnodup, hlayout⟩ := hdecl.elementsConfig_valid cats hmem
    have hle := fun a => List.nodup_iff_count_le_one.mp hnodup a
    refine ⟨?_, hle _, hle _, hle _⟩
    have := List.count_pos_iff.mpr hlayout
    have := hle Category.layout
    omega
  · rw [hatt, hcfg]
    exact hdecl.attached_length

theorem buildLayout_one_record_per_category_witness :
    ∃ renderCommands w' seg, buildLayout sampleEnv (mainSetup {}) = .ok (renderCommands, w')
      ∧ w'.calls = (mainSetup {}).calls ++ seg
      ∧ (∀ cats ∈ elementsConfig seg,
          cats.count .layout = 1 ∧ cats.count .rectangle ≤ 1
            ∧ cats.count .floating ≤ 1 ∧ cats.count .scroll ≤ 1)
      ∧ (elementsConfig seg).length = opens seg
      ∧ (seg.filterMap Call.attached).length = ((elementsConfig seg).map List.length).sum
      ∧ (∃ config children, ValidConfig config ∧ Decl children
          ∧ seg.map Call.erase
            = .Clay_BeginLayout :: (elementCalls config children ++ [.Clay_EndLayout])) :=
  buildLayout_one_record_per_category sampleEnv (mainSetup {}) (by decide) (by decide)

/-! ### The application loop -/

theorem HandleSidebarInteraction_frame (elementId : Clay_ElementId)
    (pointerData : Clay_PointerData) (userData : Int) (w : World) :
    (HandleSidebarInteraction elementId pointerData userData w).documents = w.documents
      ∧ (HandleSidebarInteraction elementId pointerData userData w).calls = w.calls
      ∧ (HandleSidebarInteraction elementId pointerData userData w).clayStringBuffers
          = w.clayStringBuffers
      ∧ (HandleSidebarInteraction elementId pointerData userData w).framecount = w.framecount := by
  unfold HandleSidebarInteraction
  split
  · split <;> simp
  · simp

theorem HandleSidebarInteraction_selected (elementId : Clay_ElementId)
    (pointerData : Clay_PointerData) (userData : Int) (w : World)
    (h : w.selectedDocumentIndex < w.documents.length) (hn : w.documents.length < 2 ^ 32) :
    (HandleSidebarInteraction elementId pointerData userData w).selectedDocumentIndex
      < w.documents.length := by
  unfold HandleSidebarInteraction
  split
  · split
    · rename_i hu
      show toUInt32 userData < _
      unfold toUInt32
      omega
    · exact h
  · exact h

theorem hoverCallbacks_frame (calls : List (Clay_ElementId × Clay_PointerData × Int)) :
    ∀ w : World, (hoverCallbacks calls w).documents = w.documents
      ∧ (hoverCallbacks calls w).calls = w.calls
      ∧ (hoverCallbacks calls w).clayStringBuffers = w.clayStringBuffers
      ∧ (hoverCallbacks calls w).framecount = w.framecount
      ∧ (w.selectedDocumentIndex < w.documents.length → w.documents.length < 2 ^ 32 →
          (hoverCallbacks calls w).selectedDocumentIndex < w.documents.length) := by
  induction calls with
  | nil => intro w; exact ⟨rfl, rfl, rfl, rfl, fun h _ => h⟩
  | cons c calls ih =>
    intro w
    obtain ⟨elementId, pointerData, userData⟩ := c
    have hf := HandleSidebarInteraction_frame elementId pointerData userData w
    obtain ⟨h1, h2, h3, h4, h5⟩ := ih (HandleSidebarInteraction elementId pointerData userData w)
    refine ⟨h1.trans hf.1, h2.trans hf.2.1, h3.trans hf.2.2.1, h4.trans hf.2.2.2, ?_⟩
    intro hs hn
    have := h5 (by rw [hf.1]; exact HandleSidebarInteraction_selected _ _ _ w hs hn)
      (by rw [hf.1]; exact hn)
    rw [hf.1] at this
    exact this

theorem endOfFrame_frame (w : World) :
    (endOfFrame w).calls = w.calls
      ∧ (endOfFrame w).clayStringBuffers = w.clayStringBuffers
      ∧ (endOfFrame w).selectedDocumentIndex = w.selectedDocumentIndex
      ∧ (endOfFrame w).documents.length = w.documents.length := by
  unfold endOfFrame
  simp only []
  split <;> split <;> simp [DocumentArray.length]

/-- One iteration of the application loop from a world with fewer than 2^31 documents and a
selected index below their number: it ends; the world `w1` after the input snapshot has the
documents of `w`, `buildLayout` runs in it by `buildLayout_steps`, then come the four calls
of `raylibRender` with what `buildLayout` returned and the clear. -/
theorem mainLoopBody_steps (env : Env) (input : FrameInput) (w : World)
    (hsel : w.selectedDocumentIndex < w.documents.length)
    (hn : w.documents.length < 2 ^ 31) :
    ∃ w1 renderCommands w2 w' layoutSeg,
      hoverCallbacks input.hoverCalls
        (updateClayStateInput input.windowWidth input.windowHeight input.mouseX input.mouseY
          input.scrollDeltaX input.scrollDeltaY input.frameTime input.leftButtonDown w) = w1
      ∧ w1.documents = w.documents
      ∧ w1.selectedDocumentIndex < w.documents.length
      ∧ w1.clayStringBuffers = w.clayStringBuffers
      ∧ w1.calls = w.calls ++
          [.Clay_SetLayoutDimensions { width := input.windowWidth, height := input.windowHeight },
            .Clay_SetPointerState { x := input.mouseX, y := input.mouseY } input.leftButtonDown,
            .Clay_UpdateScrollContainers true { x := input.scrollDeltaX, y := input.scrollDeltaY }
              input.frameTime]
      ∧ buildLayout env w1 = .ok (renderCommands, w2)
      ∧ w2.calls = w1.calls ++ layoutSeg
      ∧ (∃ d hovered, w1.documents.documents[w1.selectedDocumentIndex]? = some d
          ∧ layoutSeg.map Call.erase
            = buildLayoutCalls env w1.clayStringBuffers.length w1.selectedDocumentIndex
                w1.documents.documents d hovered
          ∧ w2.clayStringBuffers
            = w1.clayStringBuffers ++ buildLayoutBuffers w1.documents.documents d)
      ∧ mainLoopBody env input w = .ok w'
      ∧ w'.calls = w2.calls ++
          [.BeginDrawing, .ClearBackground, .Clay_Raylib_Render renderCommands, .EndDrawing,
            .clear]
      ∧ w'.clayStringBuffers = []
      ∧ w'.documents.length = w.documents.length
      ∧ w'.selectedDocumentIndex < w'.documents.length := by
  obtain ⟨hdocs, hcalls, hbufs, _, hsel1⟩ := hoverCallbacks_frame input.hoverCalls
    (updateClayStateInput input.windowWidth input.windowHeight input.mouseX input.mouseY
      input.scrollDeltaX input.scrollDeltaY input.frameTime input.leftButtonDown w)
  have hsel1' := hsel1 (by simpa using hsel) (by simp; omega)
  have hu : (updateClayStateInput input.windowWidth input.windowHeight input.mouseX input.mouseY
      input.scrollDeltaX input.scrollDeltaY input.frameTime input.leftButtonDown
      w).documents = w.documents := by simp
  rw [hu] at hdocs hsel1'
  have hbufs' : (hoverCallbacks input.hoverCalls
      (updateClayStateInput input.windowWidth input.windowHeight input.mouseX input.mouseY
        input.scrollDeltaX input.scrollDeltaY input.frameTime input.leftButtonDown
        w)).clayStringBuffers = w.clayStringBuffers := by
    rw [hbufs]; simp
  have hcalls' : (hoverCallbacks input.hoverCalls
      (updateClayStateInput input.windowWidth input.windowHeight input.mouseX input.mouseY
        input.scrollDeltaX input.scrollDeltaY input.frameTime input.leftButtonDown
        w)).calls = w.calls ++
          [.Clay_SetLayoutDimensions { width := input.windowWidth, height := input.windowHeight },
            .Clay_SetPointerState { x := input.mouseX, y := input.mouseY } input.leftButtonDown,
            .Clay_UpdateScrollContainers true { x := input.scrollDeltaX, y := input.scrollDeltaY }
              input.frameTime] := by
    rw [hcalls]; simp
  unfold mainLoopBody
  simp only []
  generalize hoverCallbacks input.hoverCalls
      (updateClayStateInput input.windowWidth input.windowHeight input.mouseX input.mouseY
        input.scrollDeltaX input.scrollDeltaY input.frameTime input.leftButtonDown w) = w1
    at hdocs hsel1' hbufs' hcalls' ⊢
  have hd := List.getElem?_eq_getElem (l := w1.documents.documents)
    (by rw [hdocs]; exact hsel1')
  obtain ⟨hovered, _, w2, hw2, hsteps⟩ := buildLayout_steps env w1 _ hd
    (by rw [hdocs]; exact hn)
  obtain ⟨layoutSeg, hseg, hmap⟩ := hsteps.segment
  have hend := endOfFrame_frame
    (clearClayStringBuffers (raylibRender (env.Clay_EndLayout w2.calls) w2))
  refine ⟨w1, env.Clay_EndLayout w2.calls, w2,
    endOfFrame (clearClayStringBuffers (raylibRender (env.Clay_EndLayout w2.calls) w2)),
    layoutSeg, rfl, hdocs, hsel1', hbufs', hcalls', hw2, hseg,
    ⟨_, hovered, hd, hmap, hsteps.clayStringBuffers⟩, ?_, ?_, ?_, ?_, ?_⟩
  · simp only [hw2]
  · rw [hend.1]; simp [clearClayStringBuffers]
  · rw [hend.2.1]; simp [clearClayStringBuffers]
  · rw [hend.2.2.2]
    simp only [clearClayStringBuffers, raylibRender, World.emit]
    rw [hsteps.documents, hdocs]
  · rw [hend.2.2.1, hend.2.2.2]
    simp only [clearClayStringBuffers, raylibRender, World.emit]
    rw [hsteps.documents, hsteps.selectedDocumentIndex, hdocs]
    exact hsel1'

/-- At the start of every iteration of the application loop there are five documents and
the selected index is below five. -/
theorem Reachable.invariant {w : World} (h : Reachable w) :
    w.documents.length = 5 ∧ w.selectedDocumentIndex < w.documents.length := by
  induction h with
  | setup w => exact ⟨rfl, by simp [mainSetup, DocumentArray.length, docs]⟩
  | @loop env input w w' _ hbody ih =>
    obtain ⟨_, _, _, w'', _, _, _, _, _, _, _, _, _, hok, _, _, hlen, hsel⟩ :=
      mainLoopBody_steps env input w ih.2 (by rw [ih.1]; decide)
    rw [hbody] at hok
    cases hok
    exact ⟨hlen.trans ih.1, hsel⟩

/-! ### C7 -/

theorem Call.phase_erase (c : Call) : c.erase.phase = c.phase := by
  cases c with
  | Clay__AttachElementConfig u t => cases u <;> rfl
  | _ => rfl

theorem Call.isConfig_phase (c : Call) (h : c.isConfig = true) : c.phase = .declaration := by
  cases c <;> simp_all [Call.isConfig, Call.phase]

theorem Call.isText_phase (c : Call) (h : c.isText = true) : c.phase = .declaration := by
  cases c <;> simp_all [Call.isText, Call.phase]

/-- Every call of a declaration belongs to the declaration step. -/
theorem Decl.map_phase {l : List Call} (h : Decl l) :
    l.map Call.phase = List.replicate l.length .declaration := by
  induction h with
  | nil => rfl
  | text hc _ ih => simp [Call.isText_phase _ hc, ih, List.replicate_succ]
  | @element config children rest hcfg _ _ ihch ihrest =>
    have hconfig : config.map Call.phase = List.replicate config.length .declaration := by
      apply List.eq_replicate_iff.mpr
      refine ⟨by simp, ?_⟩
      intro p hp
      obtain ⟨c, hc, rfl⟩ := List.mem_map.mp hp
      exact Call.isConfig_phase c (hcfg.1 c hc)
    apply List.eq_replicate_iff.mpr
    refine ⟨by simp, ?_⟩
    intro p hp
    simp only [elementCalls, List.map_append, List.map_cons, List.mem_append, List.mem_cons,
      List.map_nil, List.not_mem_nil, or_false] at hp
    rcases hp with (rfl | hp | rfl | hp | rfl) | hp
    · rfl
    · rw [hconfig] at hp; exact (List.mem_replicate.mp hp).2
    · rfl
    · rw [ihch] at hp; exact (List.mem_replicate.mp hp).2
    · rfl
    · rw [ihrest] at hp; exact (List.mem_replicate.mp hp).2

/-- C7: every iteration of the application loop (from a world `w` at the start of an
iteration, for all answers of raylib and Clay) ends, and the calls `frameSeg` it makes are,
in this order: the three calls of `updateClayStateInput` with the input of the frame; the
calls `layoutSeg` of one run of `buildLayout`, which are `Clay_BeginLayout`, then calls of
the declaration only (the copies of `toClayString` among them), then `Clay_EndLayout`; the
four calls of `raylibRender` with the command array that run returned; the clear of
`clayStringBuffers`. So the snapshot comes before every declaration, and the buffers made
in the declaration are all in `clayStringBuffers` when the render runs and released after. -/
theorem mainLoopBody_order (env : Env) (input : FrameInput) (w : World) (h : Reachable w) :
    ∃ w1 renderCommands w2 w' layoutSeg frameSeg m,
      mainLoopBody env input w = .ok w'
      ∧ w'.calls = w.calls ++ frameSeg
      ∧ frameSeg =
          [.Clay_SetLayoutDimensions { width := input.windowWidth, height := input.windowHeight },
            .Clay_SetPointerState { x := input.mouseX, y := input.mouseY } input.leftButtonDown,
            .Clay_UpdateScrollContainers true { x := input.scrollDeltaX, y := input.scrollDeltaY }
              input.frameTime]
          ++ layoutSeg
          ++ [.BeginDrawing, .ClearBackground, .Clay_Raylib_Render renderCommands, .EndDrawing,
            .clear]
      ∧ (updateClayStateInput input.windowWidth input.windowHeight input.mouseX input.mouseY
          input.scrollDeltaX input.scrollDeltaY input.frameTime input.leftButtonDown w).calls
          = w.calls ++ frameSeg.take 3
      ∧ buildLayout env w1 = .ok (renderCommands, w2)
      ∧ w1.calls = w.calls ++ frameSeg.take 3
      ∧ w2.calls = w1.calls ++ layoutSeg
      ∧ layoutSeg.map Call.phase
          = .beginLayout :: (List.replicate m .declaration ++ [.endLayout])
      ∧ frameSeg.map Call.phase
          = [.snapshot, .snapshot, .snapshot, .beginLayout] ++ List.replicate m .declaration
            ++ [.endLayout, .render, .render, .render, .render, .release]
      ∧ (raylibRender renderCommands w2).calls
          = w2.calls ++ [.BeginDrawing, .ClearBackground, .Clay_Raylib_Render renderCommands,
              .EndDrawing]
      ∧ (raylibRender renderCommands w2).clayStringBuffers = w2.clayStringBuffers
      ∧ (∃ d, w1.documents.documents[w1.selectedDocumentIndex]? = some d
          ∧ w2.clayStringBuffers
            = w1.clayStringBuffers ++ buildLayoutBuffers w1.documents.documents d)
      ∧ w'.clayStringBuffers = [] := by
  obtain ⟨hfive, hsel⟩ := h.invariant
  obtain ⟨w1, renderCommands, w2, w', layoutSeg, _, _, _, _, hcalls1, hbuild, hcalls2,
      ⟨d, hovered, hd, hmap, hbufs2⟩, hok, hcalls', hbufs', _, _⟩ :=
    mainLoopBody_steps env input w hsel (by rw [hfive]; decide)
  obtain ⟨config, children, hc, hch, hshape⟩ := buildLayoutCalls_eq env
    w1.clayStringBuffers.length w1.selectedDocumentIndex w1.documents.documents d hovered
  have hphase : layoutSeg.map Call.phase
      = .beginLayout :: (List.replicate (elementCalls config children).length .declaration
          ++ [.endLayout]) := by
    have : layoutSeg.map Call.phase = (layoutSeg.map Call.erase).map Call.phase := by
      rw [List.map_map]
      congr 1
      funext c
      exact (Call.phase_erase c).symm
    rw [this, hmap, hshape]
    simp only [List.map_cons, List.map_append, (Decl.one hc hch).map_phase, List.map_nil]
    rfl
  refine ⟨w1, renderCommands, w2, w', layoutSeg, _, (elementCalls config children).length,
    hok, ?_, rfl, ?_, hbuild, ?_, hcalls2, hphase, ?_, ?_, ?_, ⟨d, hd, hbufs2⟩, hbufs'⟩
  · rw [hcalls', hcalls2, hcalls1]; simp
  · simp
  · rw [hcalls1]; simp
  · simp only [List.map_append, hphase]
    simp [Call.phase]
  · simp
  · simp

theorem mainLoopBody_order_witness :
    ∃ w', mainLoopBody sampleEnv sampleInput (mainSetup {}) = .ok w'
      ∧ w'.clayStringBuffers = [] := by
  obtain ⟨_, _, _, w', _, _, _, hok, _, _, _, _, _, _, _, _, _, _, _, hbufs⟩ :=
    mainLoopBody_order sampleEnv sampleInput (mainSetup {}) (Reachable.setup {})
  exact ⟨w', hok, hbufs⟩

/-! ### C13 -/

/-- C13: for every pointer state and every `userData` (and a document count that fits the
`uint32_t` field `documents.length`), `HandleSidebarInteraction` sets
`selectedDocumentIndex` to `userData` if the state is `CLAY_POINTER_DATA_PRESSED_THIS_FRAME`
and `0 <= userData < documents.length`, and changes nothing at all in every other case; the
documents, and the other globals, are never modified. -/
theorem HandleSidebarInteraction_spec (elementId : Clay_ElementId)
    (pointerData : Clay_PointerData) (userData : Int) (w : World)
    (hlen : w.documents.length < 2 ^ 32) :
    HandleSidebarInteraction elementId pointerData userData w
        = (if pointerData.state = .CLAY_POINTER_DATA_PRESSED_THIS_FRAME
              ∧ 0 ≤ userData ∧ userData < (w.documents.length : Int) then
            { w with selectedDocumentIndex := userData.toNat }
          else w)
      ∧ (pointerData.state = .CLAY_POINTER_DATA_PRESSED_THIS_FRAME
            ∧ 0 ≤ userData ∧ userData < (w.documents.length : Int) →
          ((HandleSidebarInteraction elementId pointerData userData w).selectedDocumentIndex : Int)
            = userData)
      ∧ (¬ (pointerData.state = .CLAY_POINTER_DATA_PRESSED_THIS_FRAME
            ∧ 0 ≤ userData ∧ userData < (w.documents.length : Int)) →
          (HandleSidebarInteraction elementId pointerData userData w).selectedDocumentIndex
            = w.selectedDocumentIndex)
      ∧ (HandleSidebarInteraction elementId pointerData userData w).documents = w.documents
      ∧ (HandleSidebarInteraction elementId pointerData userData w).clayStringBuffers
          = w.clayStringBuffers
      ∧ (HandleSidebarInteraction elementId pointerData userData w).framecount = w.framecount
      ∧ (HandleSidebarInteraction elementId pointerData userData w).calls = w.calls := by
  have hf := HandleSidebarInteraction_frame elementId pointerData userData w
  have key : HandleSidebarInteraction elementId pointerData userData w
      = (if pointerData.state = .CLAY_POINTER_DATA_PRESSED_THIS_FRAME
            ∧ 0 ≤ userData ∧ userData < (w.documents.length : Int) then
          { w with selectedDocumentIndex := userData.toNat }
        else w) := by
    unfold HandleSidebarInteraction
    by_cases hs : pointerData.state = .CLAY_POINTER_DATA_PRESSED_THIS_FRAME
    · by_cases hu : userData ≥ 0 ∧ userData < (w.documents.length : Int)
      · have ht : toUInt32 userData = userData.toNat := by unfold toUInt32; omega
        rw [if_pos hs, if_pos hu, if_pos ⟨hs, hu⟩, ht]
      · rw [if_pos hs, if_neg hu, if_neg (fun h => hu h.2)]
    · rw [if_neg hs, if_neg (fun h => hs h.1)]
  refine ⟨key, ?_, ?_, hf.1, hf.2.2.1, hf.2.2.2, hf.2.1⟩
  · intro h
    rw [key, if_pos h]
    show ((userData.toNat : Nat) : Int) = userData
    omega
  · intro h
    rw [key, if_neg h]

theorem HandleSidebarInteraction_spec_witness :
    ((HandleSidebarInteraction ⟨0⟩ ⟨⟨⟨10⟩, ⟨10⟩⟩, .CLAY_POINTER_DATA_PRESSED_THIS_FRAME⟩ 3
        (mainSetup {})).selectedDocumentIndex : Int) = 3 :=
  (HandleSidebarInteraction_spec ⟨0⟩ ⟨⟨⟨10⟩, ⟨10⟩⟩, .CLAY_POINTER_DATA_PRESSED_THIS_FRAME⟩ 3
    (mainSetup {}) (by decide)).2.1 ⟨rfl, by decide, by decide⟩

/-! ### C16 -/

theorem HandleSidebarInteraction_in_bounds (elementId : Clay_ElementId)
    (pointerData : Clay_PointerData) (userData : Int) (w : World)
    (h : w.selectedDocumentIndex < w.documents.length) :
    (HandleSidebarInteraction elementId pointerData userData w).selectedDocumentIndex
      < (HandleSidebarInteraction elementId pointerData userData w).documents.length := by
  rw [(HandleSidebarInteraction_frame elementId pointerData userData w).1]
  unfold HandleSidebarInteraction
  split
  · split
    · rename_i hu
      show toUInt32 userData < _
      unfold toUInt32
      omega
    · exact h
  · exact h

theorem documentAt_of_lt (w : World) (i : Nat) (h : i < w.documents.length) :
    ∃ d, w.documents.documents[i]? = some d ∧ documentAt w (i : Int) = .ok d := by
  obtain ⟨d, hd⟩ : ∃ d, w.documents.documents[i]? = some d :=
    ⟨_, List.getElem?_eq_getElem h⟩
  exact ⟨d, hd, documentAt_natCast w i d hd⟩

/-- C16: `selectedDocumentIndex < documents.length` is an invariant of the running
application. It holds once `main` has installed the five documents (index 0, length 5); it
is preserved by every call of `HandleSidebarInteraction`, whatever the arguments, and by the
end-of-frame update, which does not change the length. So at the start of every iteration
`w` of the application loop it holds, it holds in the world `w1` in which `buildLayout`
runs, the reads `documents.documents[selectedDocumentIndex]` and `documents.documents[i]`
for the `i` below `documents.length` are reads of elements of the array, and the iteration
ends without a fault in a world in which it holds again. -/
theorem selectedDocumentIndex_in_bounds (env : Env) (input : FrameInput) (w : World)
    (h : Reachable w) :
    (∀ w0 : World, (mainSetup w0).selectedDocumentIndex = 0
        ∧ (mainSetup w0).documents.length = 5
        ∧ (mainSetup w0).selectedDocumentIndex < (mainSetup w0).documents.length)
      ∧ (∀ (elementId : Clay_ElementId) (pointerData : Clay_PointerData) (userData : Int)
          (v : World), v.selectedDocumentIndex < v.documents.length →
          (HandleSidebarInteraction elementId pointerData userData v).selectedDocumentIndex
            < (HandleSidebarInteraction elementId pointerData userData v).documents.length)
      ∧ (∀ v : World, v.selectedDocumentIndex < v.documents.length →
          (endOfFrame v).documents.length = v.documents.length
            ∧ (endOfFrame v).selectedDocumentIndex < (endOfFrame v).documents.length)
      ∧ w.selectedDocumentIndex < w.documents.length
      ∧ ∃ w1 renderCommands w2 w',
          w1 = hoverCallbacks input.hoverCalls
            (updateClayStateInput input.windowWidth input.windowHeight input.mouseX
              input.mouseY input.scrollDeltaX input.scrollDeltaY input.frameTime
              input.leftButtonDown w)
          ∧ w1.selectedDocumentIndex < w1.documents.length
          ∧ (∃ d, w1.documents.documents[w1.selectedDocumentIndex]? = some d
              ∧ documentAt w1 (w1.selectedDocumentIndex : Int) = .ok d)
          ∧ (∀ i : Nat, i < w1.documents.length →
              ∃ d, w1.documents.documents[i]? = some d ∧ documentAt w1 (i : Int) = .ok d)
          ∧ buildLayout env w1 = .ok (renderCommands, w2)
          ∧ mainLoopBody env input w = .ok w'
          ∧ w'.selectedDocumentIndex < w'.documents.length := by
  obtain ⟨hfive, hsel⟩ := h.invariant
  obtain ⟨w1, renderCommands, w2, w', _, hw1, hdocs1, hsel1, _, _, hbuild, _, _, hok, _, _, _,
      hsel'⟩ := mainLoopBody_steps env input w hsel (by rw [hfive]; decide)
  have hsel1' : w1.selectedDocumentIndex < w1.documents.length := by rw [hdocs1]; exact hsel1
  refine ⟨fun w0 => ⟨rfl, rfl, by simp [mainSetup, DocumentArray.length, docs]⟩,
    fun e p u v hv => HandleSidebarInteraction_in_bounds e p u v hv,
    fun v hv => ?_, hsel, w1, renderCommands, w2, w', hw1.symm, hsel1',
    documentAt_of_lt w1 _ hsel1', fun i hi => documentAt_of_lt w1 i hi, hbuild, hok, hsel'⟩
  have := endOfFrame_frame v
  exact ⟨this.2.2.2, by rw [this.2.2.1, this.2.2.2]; exact hv⟩

theorem selectedDocumentIndex_in_bounds_witness :
    (mainSetup {}).selectedDocumentIndex < (mainSetup {}).documents.length
      ∧ ∃ w', mainLoopBody sampleEnv sampleInput (mainSetup {}) = .ok w'
          ∧ w'.selectedDocumentIndex < w'.documents.length := by
  obtain ⟨_, _, _, h0, _, _, _, w', _, _, _, _, _, hok, hsel⟩ :=
    selectedDocumentIndex_in_bounds sampleEnv sampleInput (mainSetup {}) (Reachable.setup {})
  exact ⟨h0, w', hok, hsel⟩

/-! ### C17 -/

theorem mainLoop_append (a b : List (Env × FrameInput)) (w : World) :
    mainLoop (a ++ b) w
      = (match mainLoop a w with
        | .error e => .error e
        | .ok w => mainLoop b w) := by
  induction a generalizing w with
  | nil => rfl
  | cons f a ih =>
    obtain ⟨env, input⟩ := f
    simp only [List.cons_append, mainLoop]
    cases mainLoopBody env input w with
    | error e => rfl
    | ok w1 => exact ih w1

theorem endOfFrame_framecount (v : World) :
    (endOfFrame v).framecount = (if v.framecount < 2 ^ 32 - 1 then v.framecount + 1 else 0) := by
  unfold endOfFrame
  simp only []
  by_cases h : v.framecount < 2 ^ 32 - 1
  · simp only [if_pos h]
    split
    · rfl
    · split <;> rfl
  · simp only [if_neg h]
    split
    · rfl
    · split <;> rfl

theorem endOfFrame_documents (v : World) :
    (endOfFrame v).documents
      = (if (endOfFrame v).framecount = 200 then ⟨v.documents.documents.set 2 changeUp⟩
        else v.documents) := by
  rw [endOfFrame_framecount]
  unfold endOfFrame
  simp only []
  by_cases h : v.framecount < 2 ^ 32 - 1
  · simp only [if_pos h]
    by_cases h2 : v.framecount + 1 = 200
    · rw [if_pos h2, if_pos h2]; rfl
    · rw [if_neg h2, if_neg h2]
      split <;> rfl
  · simp only [if_neg h]
    rfl

/-- What an iteration of the application loop does to the frame counter and to the
documents. -/
theorem mainLoopBody_globals (env : Env) (input : FrameInput) (w : World)
    (hsel : w.selectedDocumentIndex < w.documents.length)
    (hn : w.documents.length < 2 ^ 31) :
    ∃ w1 renderCommands w2 w',
      w1 = hoverCallbacks input.hoverCalls
        (updateClayStateInput input.windowWidth input.windowHeight input.mouseX input.mouseY
          input.scrollDeltaX input.scrollDeltaY input.frameTime input.leftButtonDown w)
      ∧ w1.documents = w.documents
      ∧ buildLayout env w1 = .ok (renderCommands, w2)
      ∧ mainLoopBody env input w = .ok w'
      ∧ w'.framecount = (if w.framecount < 2 ^ 32 - 1 then w.framecount + 1 else 0)
      ∧ w'.documents
          = (if w'.framecount = 200 then ⟨w.documents.documents.set 2 changeUp⟩
            else w.documents) := by
  obtain ⟨w1, renderCommands, w2, w', _, hw1, hdocs1, hsel1, _, _, hbuild, _, _, hok, _, _, _,
      _⟩ := mainLoopBody_steps env input w hsel hn
  obtain ⟨d, hd⟩ : ∃ d, w1.documents.documents[w1.selectedDocumentIndex]? = some d :=
    ⟨_, List.getElem?_eq_getElem (by rw [hdocs1]; exact hsel1)⟩
  obtain ⟨_, _, w2', hw2', hsteps⟩ := buildLayout_steps env w1 d hd (by rw [hdocs1]; exact hn)
  rw [hbuild] at hw2'
  have h2 : w2 = w2' := by
    have := Except.ok.inj hw2'
    exact congrArg Prod.snd this
  subst h2
  obtain ⟨_, _, _, hfc1, _⟩ := hoverCallbacks_frame input.hoverCalls
    (updateClayStateInput input.windowWidth input.windowHeight input.mouseX input.mouseY
      input.scrollDeltaX input.scrollDeltaY input.frameTime input.leftButtonDown w)
  rw [hw1] at hfc1
  have hfc : w2.framecount = w.framecount := by
    rw [hsteps.framecount, hfc1]; simp
  have hdocs : w2.documents = w.documents := by rw [hsteps.documents, hdocs1]
  have hw' : w' = endOfFrame (clearClayStringBuffers (raylibRender renderCommands w2)) := by
    have hok2 : mainLoopBody env input w
        = .ok (endOfFrame (clearClayStringBuffers (raylibRender renderCommands w2))) := by
      unfold mainLoopBody
      simp only []
      rw [hw1]
      simp only [hbuild]
    rw [hok] at hok2
    exact Except.ok.inj hok2
  have hfc2 : (clearClayStringBuffers (raylibRender renderCommands w2)).framecount
      = w.framecount := by
    simp only [clearClayStringBuffers, raylibRender, World.emit]; exact hfc
  have hdocs2 : (clearClayStringBuffers (raylibRender renderCommands w2)).documents
      = w.documents := by
    simp only [clearClayStringBuffers, raylibRender, World.emit]; exact hdocs
  refine ⟨w1, renderCommands, w2, w', hw1.symm, hdocs1, hbuild, hok, ?_, ?_⟩
  · rw [hw', endOfFrame_framecount, hfc2]
  · rw [hw', endOfFrame_documents, hdocs2]

theorem docs_set_set : (docs.set 2 changeUp).set 2 changeUp = docs.set 2 changeUp := rfl

/-- The world after the iterations `frames` of the application loop: the loop has not
faulted, the frame counter is their number modulo 2^32, and `docs[2]` has been replaced when
there have been 200 or more. -/
theorem mainLoop_invariant (frames : List (Env × FrameInput)) (w0 : World) :
    ∃ w, mainLoop frames (mainSetup w0) = .ok w
      ∧ Reachable w
      ∧ w.framecount = frames.length % 2 ^ 32
      ∧ w.documents = (if frames.length < 200 then ⟨docs⟩ else ⟨docs.set 2 changeUp⟩) := by
  induction frames using List.reverseRecOn with
  | nil => exact ⟨mainSetup w0, rfl, Reachable.setup w0, rfl, rfl⟩
  | append_singleton frames f ih =>
    obtain ⟨env, input⟩ := f
    obtain ⟨w, hw, hreach, hfc, hdocs⟩ := ih
    obtain ⟨hfive, hsel⟩ := hreach.invariant
    obtain ⟨_, _, _, w', _, _, _, hok, hfc', hdocs'⟩ :=
      mainLoopBody_globals env input w hsel (by rw [hfive]; decide)
    have hfc2 : w'.framecount = (frames.length + 1) % 2 ^ 32 := by
      rw [hfc', hfc]
      split <;> omega
    refine ⟨w', ?_, Reachable.loop hreach hok, by simpa using hfc2, ?_⟩
    · rw [mainLoop_append]
      simp only [hw, mainLoop, hok]
    · rw [hdocs', hfc2, hdocs]
      simp only [List.length_append, List.length_singleton]
      by_cases h1 : frames.length + 1 < 200
      · have e : (frames.length + 1) % 2 ^ 32 = frames.length + 1 := by omega
        have h2 : frames.length < 200 := by omega
        have h3 : ¬ frames.length + 1 = 200 := by omega
        simp only [e, if_pos h1, if_pos h2, if_neg h3]
      · by_cases h2 : frames.length < 200
        · have e : (frames.length + 1) % 2 ^ 32 = 200 := by omega
          simp only [e, if_neg h1, if_pos h2, if_true]
        · simp only [if_neg h1, if_neg h2]
          split
          · exact congrArg DocumentArray.mk docs_set_set
          · rfl

theorem docs_vacuumInstructions_ne_changeUp : docs_vacuumInstructions ≠ changeUp := by
  intro h
  have := congrArg (fun d => d.title.length) h
  revert this
  decide

/-- C17: in every iteration of the application loop the frame counter goes from `framecount`
to `(framecount + 1) mod 2^32`, and `docs[2]` is replaced by the "Change-up" document exactly
when the counter has then the value 200. So, for the `k`-th frame (`k` is one more than the
number of the frames `before` it), whatever Clay and raylib answer in any frame: the counter
is `(k - 1) mod 2^32` when it starts; `buildLayout` runs in a world `w1` whose document at
index 2 is the original "Vacuum Instructions" document if and only if `k <= 200`, and is the
"Change-up" document otherwise; and in `w1` there are five documents, those at the indices
0, 1, 3 and 4 being the original ones. -/
theorem framecount_and_documents (before : List (Env × FrameInput)) (env : Env)
    (input : FrameInput) (w0 : World) :
    ∃ wk w1 renderCommands w2 w',
      mainLoop before (mainSetup w0) = .ok wk
      ∧ wk.framecount = before.length % 2 ^ 32
      ∧ mainLoopBody env input wk = .ok w'
      ∧ mainLoop (before ++ [(env, input)]) (mainSetup w0) = .ok w'
      ∧ w'.framecount = (wk.framecount + 1) % 2 ^ 32
      ∧ (wk.framecount = 2 ^ 32 - 1 → w'.framecount = 0)
      ∧ w'.documents
          = (if w'.framecount = 200 then ⟨wk.documents.documents.set 2 changeUp⟩
            else wk.documents)
      ∧ w1 = hoverCallbacks input.hoverCalls
          (updateClayStateInput input.windowWidth input.windowHeight input.mouseX input.mouseY
            input.scrollDeltaX input.scrollDeltaY input.frameTime input.leftButtonDown wk)
      ∧ buildLayout env w1 = .ok (renderCommands, w2)
      ∧ (w1.documents.documents[2]? = some docs_vacuumInstructions ↔ before.length + 1 ≤ 200)
      ∧ (200 < before.length + 1 → w1.documents.documents[2]? = some changeUp)
      ∧ w1.documents.length = 5
      ∧ w1.documents.documents[0]? = some docs_squirrels
      ∧ w1.documents.documents[1]? = some docs_loremIpsum
      ∧ w1.documents.documents[3]? = some docs_article4
      ∧ w1.documents.documents[4]? = some docs_article5 := by
  obtain ⟨wk, hwk, hreach, hfc, hdocs⟩ := mainLoop_invariant before w0
  obtain ⟨hfive, hsel⟩ := hreach.invariant
  obtain ⟨w1, renderCommands, w2, w', hw1, hdocs1, hbuild, hok, hfc', hdocs'⟩ :=
    mainLoopBody_globals env input wk hsel (by rw [hfive]; decide)
  have hlt : wk.framecount < 2 ^ 32 := by rw [hfc]; exact Nat.mod_lt _ (by decide)
  have hfc2 : w'.framecount = (wk.framecount + 1) % 2 ^ 32 := by
    rw [hfc']
    split <;> omega
  refine ⟨wk, w1, renderCommands, w2, w', hwk, hfc, hok, ?_, hfc2, ?_, hdocs', hw1, hbuild,
    ?_, ?_, ?_, ?_, ?_, ?_, ?_⟩
  · rw [mainLoop_append]
    simp only [hwk, mainLoop, hok]
  · intro h
    rw [hfc2, h]
    decide
  · rw [hdocs1, hdocs]
    by_cases h : before.length < 200
    · rw [if_pos h]
      exact ⟨fun _ => by omega, fun _ => rfl⟩
    · rw [if_neg h]
      constructor
      · intro h2
        have : changeUp = docs_vacuumInstructions := Option.some.inj h2
        exact absurd this.symm docs_vacuumInstructions_ne_changeUp
      · intro h2
        omega
  · intro h
    rw [hdocs1, hdocs, if_neg (by omega)]
    rfl
  · rw [hdocs1]; exact hfive
  · rw [hdocs1, hdocs]; split <;> rfl
  · rw [hdocs1, hdocs]; split <;> rfl
  · rw [hdocs1, hdocs]; split <;> rfl
  · rw [hdocs1, hdocs]; split <;> rfl

/-! ### The items of the sidebar -/

theorem Call.onHover_erase (c : Call) : c.erase.onHover = c.onHover := by
  cases c with
  | Clay__AttachElementConfig u t => cases u <;> rfl
  | _ => rfl

theorem filterMap_onHover_map_erase (l : List Call) :
    (l.map Call.erase).filterMap Call.onHover = l.filterMap Call.onHover := by
  induction l with
  | nil => rfl
  | cons c l ih => simp only [List.map_cons, List.filterMap_cons, Call.onHover_erase, ih]

theorem sidebarItemCalls_onHover (slot i : Nat) (selected hovered : Bool) (title : List Char) :
    (sidebarItemCalls slot i selected hovered title).filterMap Call.onHover
      = if selected then [] else [(.HandleSidebarInteraction, (i : Int))] := by
  cases selected <;> cases hovered <;>
    simp [sidebarItemCalls, elementCalls, layoutCalls, rectangleCalls, dynamicTextCalls,
      textCalls, Call.onHover, List.filterMap_cons, List.filterMap_append]

theorem sidebarItemsCalls_onHover (sel : Nat) :
    ∀ (ds : List Document) (slot i : Nat) (hovered : List Bool),
      (sidebarItemsCalls sel slot i ds hovered).filterMap Call.onHover
        = ((List.range' i ds.length).filter fun j => j != sel).map
            fun j : Nat => (HoverFunction.HandleSidebarInteraction, (j : Int)) := by
  intro ds
  induction ds with
  | nil => intro slot i hovered; rfl
  | cons d ds ih =>
    intro slot i hovered
    simp only [sidebarItemsCalls, List.filterMap_append, sidebarItemCalls_onHover, ih,
      List.length_cons, List.range'_succ, List.filter_cons]
    by_cases h : i = sel
    · simp [h]
    · have hb : (i == sel) = false := by simp [h]
      have hb2 : (i != sel) = true := by simp [h]
      simp [hb, hb2]

theorem copyOf_of_not_mem_NUL (str : List Char) (h : NUL ∉ str) : copyOf str = str ++ [NUL] :=
  strcpy_c_str str h

theorem buildLayoutCalls_fileButton (env : Env) (slot selectedDocumentIndex : Nat)
    (ds : List Document) (selected : Document) (hovered : List Bool) :
    buildLayoutCalls env slot selectedDocumentIndex ds selected hovered
      = beforeFileButtonCalls env
        ++ elementCalls
            (idCall env "FileButton" :: (layoutCalls { padding := ⟨16, 16, 8, 8⟩ }
              ++ rectangleCalls { color := ⟨140, 140, 140, 255⟩, cornerRadius := 5 }))
            (textCalls (literalOf (lit "File")) headerButtonTextConfig
              ++ (if fileMenuVisible env then fileMenuCalls env else []))
        ++ afterFileButtonCalls env slot selectedDocumentIndex ds selected hovered := by
  simp only [buildLayoutCalls, outerContainerChildrenCalls, headerBarCalls,
    fileButtonChildrenCalls, beforeFileButtonCalls, afterFileButtonCalls, elementCalls,
    List.append_assoc, List.cons_append, List.nil_append, List.append_nil]

theorem literalOf_lit_length (s : String) (h : s.toList.length < 2 ^ 31) :
    (literalOf (lit s)).length = (s.toList.length : Int) := by
  simp only [literalOf, lit, sizeMinusOne, toInt32, List.length_append, List.length_singleton]
  have e : (s.toList.length + 1 + 2 ^ 64 - 1) % 2 ^ 64 = s.toList.length := by
    have : s.toList.length + 1 + 2 ^ 64 - 1 = s.toList.length + 2 ^ 64 := by omega
    rw [this, Nat.add_mod_right]
    exact Nat.mod_eq_of_lt (by omega)
  have e2 : s.toList.length % 2 ^ 32 = s.toList.length := Nat.mod_eq_of_lt (by omega)
  rw [e, e2, if_pos h]

/-- The text of the `Clay_String` of a string literal: the characters of the literal. -/
theorem text_literalOf (w : World) (s : String) (h : s.toList.length < 2 ^ 31) :
    w.text (literalOf (lit s)) = some s.toList := by
  have hl := literalOf_lit_length s h
  unfold World.text
  rw [hl]
  have hd : w.deref (literalOf (lit s)).chars = some (s.toList ++ [NUL]) := rfl
  rw [hd]
  simp only [Option.map_some', Int.toNat_ofNat, List.take_left']

theorem sidebarItemsCalls_attached_floating (sel : Nat) :
    ∀ (ds : List Document) (slot i : Nat) (hovered : List Bool),
      ((sidebarItemsCalls sel slot i ds hovered).filterMap Call.attached).count .floating = 0 := by
  intro ds
  induction ds with
  | nil => intro slot i hovered; rfl
  | cons d ds ih =>
    intro slot i hovered
    simp only [sidebarItemsCalls, List.filterMap_append, List.count_append, ih]
    cases (i == sel) <;> cases hovered.headD false <;>
      simp [sidebarItemCalls, elementCalls, layoutCalls, rectangleCalls, dynamicTextCalls,
        textCalls, Call.attached, List.filterMap_cons, List.filterMap_append]

theorem afterFileButtonCalls_attached_floating (env : Env) (slot sel : Nat)
    (ds : List Document) (d : Document) (hovered : List Bool) :
    ((afterFileButtonCalls env slot sel ds d hovered).filterMap Call.attached).count .floating
      = 0 := by
  simp [afterFileButtonCalls, lowerContentCalls, headerButtonCalls, elementCalls, layoutCalls,
    rectangleCalls, scrollCalls, dynamicTextCalls, textCalls, idCall, Call.attached,
    List.filterMap_cons, List.filterMap_append, List.count_append,
    sidebarItemsCalls_attached_floating]

theorem beforeFileButtonCalls_attached_floating (env : Env) :
    ((beforeFileButtonCalls env).filterMap Call.attached).count .floating = 0 := by
  simp [beforeFileButtonCalls, layoutCalls, rectangleCalls, idCall, Call.attached,
    List.filterMap_cons, List.filterMap_append, List.count_append]

theorem fileButtonCalls_attached_floating (env : Env) (menu : Bool) :
    ((elementCalls
        (idCall env "FileButton" :: (layoutCalls { padding := ⟨16, 16, 8, 8⟩ }
          ++ rectangleCalls { color := ⟨140, 140, 140, 255⟩, cornerRadius := 5 }))
        (textCalls (literalOf (lit "File")) headerButtonTextConfig
          ++ (if menu then fileMenuCalls env else []))).filterMap Call.attached).count .floating
      = if menu then 1 else 0 := by
  cases menu <;>
    simp [fileMenuCalls, dropdownItemCalls, elementCalls, layoutCalls, rectangleCalls,
      floatingCalls, textCalls, idCall, Call.attached, List.filterMap_cons,
      List.filterMap_append, List.count_append]

/-- C14: in one run of `buildLayout` (from a world with fewer than 2^31 documents and a
selected index below their number, in which the run ends) the calls `seg` are, up to the
values of the handles: the calls before the "FileButton" element; that element, whose
children are the "File" text leaf and then, if and only if `Clay_PointerOver` answers true
for the identifier of "FileButton" or for that of "FileMenu", the "FileMenu" element, which
is the only element with a floating record and contains one element whose children are the
three dropdown items with the texts "New", "Open", "Close" in this order; and the calls after
the "FileButton" element, for the answers `hovered` of `Clay_Hovered` in the sidebar. The
calls before and after do not depend on the answers of `Clay_PointerOver`. -/
theorem buildLayout_fileMenu (env : Env) (w : World)
    (hsel : w.selectedDocumentIndex < w.documents.length)
    (hn : w.documents.length < 2 ^ 31) :
    ∃ renderCommands w' seg d, ∃ hovered : List Bool,
      buildLayout env w = .ok (renderCommands, w')
      ∧ w'.calls = w.calls ++ seg
      ∧ w.documents.documents[w.selectedDocumentIndex]? = some d
      ∧ seg.map Call.erase
          = beforeFileButtonCalls env
            ++ elementCalls
                (idCall env "FileButton" :: (layoutCalls { padding := ⟨16, 16, 8, 8⟩ }
                  ++ rectangleCalls { color := ⟨140, 140, 140, 255⟩, cornerRadius := 5 }))
                (textCalls (literalOf (lit "File")) headerButtonTextConfig
                  ++ (if env.Clay_PointerOver (env.Clay_GetElementId (literalOf (lit "FileButton")))
                        || env.Clay_PointerOver (env.Clay_GetElementId (literalOf (lit "FileMenu")))
                      then
                        elementCalls
                          (idCall env "FileMenu"
                            :: (floatingCalls { attachParent := .CLAY_ATTACH_POINT_LEFT_BOTTOM }
                              ++ layoutCalls { padding := ⟨0, 0, 8, 8⟩ }))
                          (elementCalls
                            (layoutCalls
                                { sizing :=
                                    { width :=
                                        { min := 200, max := 200, type := .CLAY__SIZING_TYPE_FIXED } }
                                  layoutDirection := .CLAY_TOP_TO_BOTTOM }
                              ++ rectangleCalls { color := ⟨40, 40, 40, 255⟩, cornerRadius := 8 })
                            (dropdownItemCalls "New"
                              ++ (dropdownItemCalls "Open" ++ dropdownItemCalls "Close")))
                      else []))
            ++ afterFileButtonCalls env w.clayStringBuffers.length w.selectedDocumentIndex
                w.documents.documents d hovered
      ∧ (seg.filterMap Call.attached).count .floating
          = (if env.Clay_PointerOver (env.Clay_GetElementId (literalOf (lit "FileButton")))
                || env.Clay_PointerOver (env.Clay_GetElementId (literalOf (lit "FileMenu")))
             then 1 else 0)
      ∧ ((∃ c ∈ seg, c.attached = some .floating)
          ↔ (env.Clay_PointerOver (env.Clay_GetElementId (literalOf (lit "FileButton"))) = true
              ∨ env.Clay_PointerOver (env.Clay_GetElementId (literalOf (lit "FileMenu"))) = true))
      ∧ (∀ s : String, dropdownItemCalls s
          = elementCalls (layoutCalls dropdownItemLayoutConfig)
              (textCalls (literalOf (lit s)) headerButtonTextConfig))
      ∧ w'.text (literalOf (lit "File")) = some "File".toList
      ∧ w'.text (literalOf (lit "New")) = some "New".toList
      ∧ w'.text (literalOf (lit "Open")) = some "Open".toList
      ∧ w'.text (literalOf (lit "Close")) = some "Close".toList
      ∧ (∀ (pointerOver : Clay_ElementId → Bool) (slot sel : Nat) (ds : List Document)
          (selected : Document) (hov : List Bool),
          beforeFileButtonCalls { env with Clay_PointerOver := pointerOver }
              = beforeFileButtonCalls env
            ∧ afterFileButtonCalls { env with Clay_PointerOver := pointerOver } slot sel ds
                  selected hov
              = afterFileButtonCalls env slot sel ds selected hov) := by
  obtain ⟨d, hd⟩ : ∃ d, w.documents.documents[w.selectedDocumentIndex]? = some d :=
    ⟨_, List.getElem?_eq_getElem hsel⟩
  obtain ⟨hovered, _, w', hw', hsteps⟩ := buildLayout_steps env w d hd hn
  obtain ⟨seg, hseg, hmap⟩ := hsteps.segment
  rw [buildLayoutCalls_fileButton] at hmap
  have hcount : (seg.filterMap Call.attached).count .floating
      = (if fileMenuVisible env then 1 else 0) := by
    rw [← attached_map_erase, hmap]
    simp only [List.filterMap_append, List.count_append,
      beforeFileButtonCalls_attached_floating, afterFileButtonCalls_attached_floating,
      fileButtonCalls_attached_floating]
    omega
  refine ⟨_, w', seg, d, hovered, hw', hseg, hd, hmap, hcount, ?_, fun s => rfl,
    text_literalOf _ _ (by decide), text_literalOf _ _ (by decide),
    text_literalOf _ _ (by decide), text_literalOf _ _ (by decide),
    fun _ _ _ _ _ _ => ⟨rfl, rfl⟩⟩
  have hvis : fileMenuVisible env = true
      ↔ (env.Clay_PointerOver (env.Clay_GetElementId (literalOf (lit "FileButton"))) = true
          ∨ env.Clay_PointerOver (env.Clay_GetElementId (literalOf (lit "FileMenu"))) = true) := by
    simp [fileMenuVisible]
  rw [← hvis]
  constructor
  · rintro ⟨c, hc, hatt⟩
    by_contra hcon
    rw [if_neg hcon] at hcount
    have hmem : Category.floating ∈ seg.filterMap Call.attached :=
      List.mem_filterMap.mpr ⟨c, hc, hatt⟩
    exact absurd (List.count_pos_iff.mpr hmem) (by omega)
  · intro hv
    rw [if_pos hv] at hcount
    have hmem : Category.floating ∈ seg.filterMap Call.attached :=
      List.count_pos_iff.mp (by omega)
    obtain ⟨c, hc, hatt⟩ := List.mem_filterMap.mp hmem
    exact ⟨c, hc, hatt⟩

theorem buildLayout_fileMenu_witness :
    ∃ renderCommands w' seg, buildLayout sampleEnv (mainSetup {}) = .ok (renderCommands, w')
      ∧ w'.calls = (mainSetup {}).calls ++ seg
      ∧ (seg.filterMap Call.attached).count .floating = 1 := by
  obtain ⟨r, w', seg, _, _, hw', hseg, _, _, hcount, _⟩ :=
    buildLayout_fileMenu sampleEnv (mainSetup {}) (by decide) (by decide)
  exact ⟨r, w', seg, hw', hseg, hcount⟩

/-! ### The dynamic text arena in a frame -/

theorem buffersAfter_append (l1 l2 : List Call) :
    ∀ b, buffersAfter b (l1 ++ l2) = buffersAfter (buffersAfter b l1) l2 := by
  induction l1 with
  | nil => intro b; rfl
  | cons c l1 ih =>
    intro b
    rw [List.cons_append]
    cases c <;> simp only [buffersAfter] <;> exact ih _

theorem buffersAfter_length_le (l : List Call) :
    ∀ b, (buffersAfter b l).length ≤ b.length + (l.filterMap Call.pushed).length := by
  induction l with
  | nil => intro b; simp [buffersAfter]
  | cons c l ih =>
    intro b
    cases c
    case push_back buffer =>
      have := ih (b ++ [buffer])
      simp only [buffersAfter, List.filterMap_cons, Call.pushed, List.length_cons]
      simp only [List.length_append, List.length_singleton] at this
      omega
    case clear =>
      have := ih []
      simp only [buffersAfter, List.filterMap_cons, Call.pushed]
      simp only [List.length_nil] at this
      omega
    all_goals
      have := ih b
      simp only [buffersAfter, List.filterMap_cons, Call.pushed]
      exact this

theorem buffersAfter_of_no_clear (l : List Call) (h : ∀ c ∈ l, c.phase ≠ .release) :
    ∀ b, buffersAfter b l = b ++ l.filterMap Call.pushed := by
  induction l with
  | nil => intro b; simp [buffersAfter]
  | cons c l ih =>
    intro b
    have hl : ∀ c ∈ l, c.phase ≠ .release := fun c hc => h c (List.mem_cons_of_mem _ hc)
    have hc := h c (List.mem_cons_self _ _)
    cases c
    case push_back buffer =>
      simp only [buffersAfter, List.filterMap_cons, Call.pushed, ih hl, List.append_assoc,
        List.singleton_append]
    case clear => exact absurd rfl hc
    all_goals simp only [buffersAfter, List.filterMap_cons, Call.pushed, ih hl]

theorem Call.pushed_erase (c : Call) : c.erase.pushed = c.pushed := by
  cases c with
  | Clay__AttachElementConfig u t => cases u <;> rfl
  | _ => rfl

theorem filterMap_pushed_map_erase (l : List Call) :
    (l.map Call.erase).filterMap Call.pushed = l.filterMap Call.pushed := by
  induction l with
  | nil => rfl
  | cons c l ih => simp only [List.map_cons, List.filterMap_cons, Call.pushed_erase, ih]

theorem sidebarItemsCalls_pushed (sel : Nat) :
    ∀ (ds : List Document) (slot i : Nat) (hovered : List Bool),
      (sidebarItemsCalls sel slot i ds hovered).filterMap Call.pushed
        = ds.map fun d => copyOf d.title := by
  intro ds
  induction ds with
  | nil => intro slot i hovered; rfl
  | cons d ds ih =>
    intro slot i hovered
    simp only [sidebarItemsCalls, List.filterMap_append, ih, List.map_cons]
    cases (i == sel) <;> cases hovered.headD false <;>
      simp [sidebarItemCalls, elementCalls, layoutCalls, rectangleCalls, dynamicTextCalls,
        textCalls, Call.pushed, List.filterMap_cons, List.filterMap_append]

/-- The buffers pushed in one run of `buildLayout`: the copies of the titles, of the
selected title and of the selected contents, with or without the file menu. -/
theorem buildLayoutCalls_pushed (env : Env) (slot sel : Nat) (ds : List Document)
    (d : Document) (hovered : List Bool) :
    (buildLayoutCalls env slot sel ds d hovered).filterMap Call.pushed
      = buildLayoutBuffers ds d := by
  have hmenu : (fileButtonChildrenCalls env).filterMap Call.pushed = [] := by
    unfold fileButtonChildrenCalls
    cases fileMenuVisible env <;>
      simp [fileMenuCalls, dropdownItemCalls, elementCalls, layoutCalls, rectangleCalls,
        floatingCalls, textCalls, idCall, Call.pushed, List.filterMap_cons,
        List.filterMap_append]
  have hheader : (headerBarCalls env).filterMap Call.pushed = [] := by
    simp [headerBarCalls, headerButtonCalls, elementCalls, layoutCalls, rectangleCalls,
      textCalls, idCall, Call.pushed, List.filterMap_cons, List.filterMap_append, hmenu]
  simp [buildLayoutCalls, outerContainerChildrenCalls, lowerContentCalls, elementCalls,
    layoutCalls, rectangleCalls, scrollCalls, dynamicTextCalls, textCalls, idCall, Call.pushed,
    List.filterMap_cons, List.filterMap_append, hheader, sidebarItemsCalls_pushed,
    buildLayoutBuffers]

theorem buildLayoutCalls_phase (env : Env) (slot sel : Nat) (ds : List Document)
    (d : Document) (hovered : List Bool) :
    ∀ c ∈ buildLayoutCalls env slot sel ds d hovered, c.phase ≠ .release := by
  obtain ⟨config, children, hc, hch, hshape⟩ := buildLayoutCalls_eq env slot sel ds d hovered
  intro c hmem
  have hp : c.phase ∈ (buildLayoutCalls env slot sel ds d hovered).map Call.phase :=
    List.mem_map_of_mem _ hmem
  rw [hshape] at hp
  simp only [List.map_cons, List.map_append, (Decl.one hc hch).map_phase, List.map_nil,
    List.mem_cons, List.mem_append, List.mem_replicate, List.not_mem_nil, or_false] at hp
  rcases hp with h | ⟨_, h⟩ | h <;> rw [h] <;> decide

/-- The vector `clayStringBuffers` is empty at the start of every iteration of the
application loop. -/
theorem Reachable.clayStringBuffers {w : World} (h : Reachable w) : w.clayStringBuffers = [] := by
  induction h with
  | setup w => rfl
  | @loop env input w w' hw hbody _ =>
    obtain ⟨hfive, hsel⟩ := hw.invariant
    obtain ⟨_, _, _, w'', _, _, _, _, _, _, _, _, _, hok, _, hbufs, _, _⟩ :=
      mainLoopBody_steps env input w hsel (by rw [hfive]; decide)
    rw [hbody] at hok
    cases hok
    exact hbufs

theorem buildLayout_segment_pushed (env : Env) (w : World) (d : Document)
    (hovered : List Bool) (seg : List Call)
    (hmap : seg.map Call.erase
      = buildLayoutCalls env w.clayStringBuffers.length w.selectedDocumentIndex
          w.documents.documents d hovered) :
    seg.filterMap Call.pushed = buildLayoutBuffers w.documents.documents d
      ∧ ∀ b, buffersAfter b seg = b ++ buildLayoutBuffers w.documents.documents d := by
  have hp : seg.filterMap Call.pushed = buildLayoutBuffers w.documents.documents d := by
    rw [← filterMap_pushed_map_erase, hmap, buildLayoutCalls_pushed]
  refine ⟨hp, fun b => ?_⟩
  rw [buffersAfter_of_no_clear seg ?_ b, hp]
  intro c hc
  rw [← Call.phase_erase]
  exact buildLayoutCalls_phase env _ _ _ d hovered _ (hmap ▸ List.mem_map_of_mem _ hc)

theorem buffersAfter_take_length_le (l : List Call) (k : Nat) :
    (buffersAfter [] (l.take k)).length ≤ (l.filterMap Call.pushed).length := by
  have h1 := buffersAfter_length_le (l.take k) []
  have h2 : ((l.take k).filterMap Call.pushed).length ≤ (l.filterMap Call.pushed).length :=
    ((List.take_sublist k l).filterMap _).length_le
  simp only [List.length_nil] at h1
  omega

/-! ### C15 -/

/-- C15 as stated fails: with 2^31 documents, the selected index 0 and an empty
`clayStringBuffers` (and no file menu shown) the counter `int i` of the sidebar loop
overflows: the run of `buildLayout` has undefined behaviour and does not end with 2^31 + 2
buffers in `clayStringBuffers`. -/
theorem buildLayout_arena_faults_with_2_pow_31_documents :
    manyDocuments.selectedDocumentIndex < manyDocuments.documents.length
      ∧ manyDocuments.clayStringBuffers = []
      ∧ buildLayout { sampleEnv with Clay_PointerOver := fun _ => false } manyDocuments
          = .error .signedOverflow
      ∧ ¬ ∃ renderCommands w',
          buildLayout { sampleEnv with Clay_PointerOver := fun _ => false } manyDocuments
              = .ok (renderCommands, w')
            ∧ w'.clayStringBuffers.length = manyDocuments.documents.length + 2 := by
  have hlen : manyDocuments.documents.length = 2 ^ 31 := by
    simp only [manyDocuments, DocumentArray.length, List.length_replicate]
  have hfault := buildLayout_overflow { sampleEnv with Clay_PointerOver := fun _ => false }
    manyDocuments (by rw [hlen])
  refine ⟨?_, rfl, hfault, ?_⟩
  · rw [hlen]
    exact Nat.pos_of_ne_zero (by norm_num)
  · rintro ⟨r, w', hok, _⟩
    rw [hfault] at hok
    exact Except.noConfusion hok

/-- C15, amended: for every world with fewer than 2^31 documents, a selected index below
their number and an empty `clayStringBuffers`, and all answers of the library (the file menu
shown or not), one run of `buildLayout` ends and leaves `clayStringBuffers` holding exactly
`documents.length + 2` buffers: the copies `toClayString` made of the titles of the documents
in index order, then of the selected document's title, then of its contents (the copy of a
string without a NUL character is the string and a terminator); these are the buffers the
run pushed, the literal overload of `toClayString` pushes none, and after no prefix of the
calls of the run the vector holds more. In the application loop `clayStringBuffers` is empty
at the start of every iteration `wF` and in the world `w1` in which `buildLayout` starts,
and after no prefix of the calls of the iteration it holds more than `documents.length + 2`
buffers; it is empty again at the end. -/
theorem buildLayout_arena (env : Env) (w : World)
    (hsel : w.selectedDocumentIndex < w.documents.length)
    (hn : w.documents.length < 2 ^ 31) (hempty : w.clayStringBuffers = []) :
    (∃ renderCommands w' seg d,
      buildLayout env w = .ok (renderCommands, w')
      ∧ w'.calls = w.calls ++ seg
      ∧ w.documents.documents[w.selectedDocumentIndex]? = some d
      ∧ w'.clayStringBuffers
          = w.documents.documents.map (fun x => copyOf x.title)
            ++ [copyOf d.title, copyOf d.contents]
      ∧ w'.clayStringBuffers.length = w.documents.length + 2
      ∧ seg.filterMap Call.pushed = w'.clayStringBuffers
      ∧ buffersAfter [] seg = w'.clayStringBuffers
      ∧ (∀ k, (buffersAfter [] (seg.take k)).length ≤ w.documents.length + 2))
    ∧ (∀ str : List Char, NUL ∉ str → copyOf str = str ++ [NUL])
    ∧ (∀ (str : List Char) (w0 : World),
        (toClayString_literal str w0).2.clayStringBuffers = w0.clayStringBuffers
          ∧ (toClayString_literal str w0).2.calls = w0.calls)
    ∧ (∀ (envF : Env) (input : FrameInput) (wF : World), Reachable wF →
        wF.clayStringBuffers = []
          ∧ ∃ w1 renderCommands w2 wE frameSeg,
              w1 = hoverCallbacks input.hoverCalls
                (updateClayStateInput input.windowWidth input.windowHeight input.mouseX
                  input.mouseY input.scrollDeltaX input.scrollDeltaY input.frameTime
                  input.leftButtonDown wF)
              ∧ w1.clayStringBuffers = []
              ∧ buildLayout envF w1 = .ok (renderCommands, w2)
              ∧ w2.clayStringBuffers.length = wF.documents.length + 2
              ∧ mainLoopBody envF input wF = .ok wE
              ∧ wE.calls = wF.calls ++ frameSeg
              ∧ wE.clayStringBuffers = []
              ∧ (∀ k, (buffersAfter [] (frameSeg.take k)).length ≤ wF.documents.length + 2)) := by
  refine ⟨?_, fun str h => copyOf_of_not_mem_NUL str h, fun _ _ => ⟨rfl, rfl⟩, ?_⟩
  · obtain ⟨d, hd⟩ : ∃ d, w.documents.documents[w.selectedDocumentIndex]? = some d :=
      ⟨_, List.getElem?_eq_getElem hsel⟩
    obtain ⟨hovered, _, w', hw', hsteps⟩ := buildLayout_steps env w d hd hn
    obtain ⟨seg, hseg, hmap⟩ := hsteps.segment
    obtain ⟨hp, hb⟩ := buildLayout_segment_pushed env w d hovered seg hmap
    have hbufs : w'.clayStringBuffers = buildLayoutBuffers w.documents.documents d := by
      rw [hsteps.clayStringBuffers, hempty, List.nil_append]
    have hlen : (buildLayoutBuffers w.documents.documents d).length = w.documents.length + 2 := by
      simp [buildLayoutBuffers, DocumentArray.length]
    refine ⟨_, w', seg, d, hw', hseg, hd, hbufs, by rw [hbufs, hlen], by rw [hp, hbufs],
      by rw [hb, hbufs, List.nil_append], fun k => ?_⟩
    have := buffersAfter_take_length_le seg k
    rw [hp, hlen] at this
    exact this
  · intro envF input wF hreach
    obtain ⟨hfive, hselF⟩ := hreach.invariant
    have hemptyF := hreach.clayStringBuffers
    obtain ⟨w1, renderCommands, w2, wE, layoutSeg, hw1, hdocs1, _, hbufs1, hcalls1, hbuild,
        hcalls2, ⟨d, hovered, _, hmap, hbufs2⟩, hok, hcallsE, hbufsE, _, _⟩ :=
      mainLoopBody_steps envF input wF hselF (by rw [hfive]; decide)
    obtain ⟨hp, _⟩ := buildLayout_segment_pushed envF w1 d hovered layoutSeg hmap
    have hlen : (buildLayoutBuffers w1.documents.documents d).length
        = wF.documents.length + 2 := by
      rw [hdocs1]
      simp [buildLayoutBuffers, DocumentArray.length]
    have hb1 : w1.clayStringBuffers = [] := by rw [hbufs1, hemptyF]
    refine ⟨hemptyF, w1, renderCommands, w2, wE,
      [.Clay_SetLayoutDimensions { width := input.windowWidth, height := input.windowHeight },
        .Clay_SetPointerState { x := input.mouseX, y := input.mouseY } input.leftButtonDown,
        .Clay_UpdateScrollContainers true { x := input.scrollDeltaX, y := input.scrollDeltaY }
          input.frameTime]
      ++ (layoutSeg ++ [.BeginDrawing, .ClearBackground, .Clay_Raylib_Render renderCommands,
        .EndDrawing, .clear]),
      hw1.symm, hb1, hbuild, ?_, hok, ?_, hbufsE, fun k => ?_⟩
    · rw [hbufs2, hb1, List.nil_append, hlen]
    · rw [hcallsE, hcalls2, hcalls1, List.append_assoc, List.append_assoc]
    · refine le_trans (buffersAfter_take_length_le _ k) ?_
      simp only [List.filterMap_append, hp, List.length_append, hlen]
      simp [Call.pushed, List.filterMap_cons]

theorem buildLayout_arena_witness :
    ∃ renderCommands w', buildLayout sampleEnv (mainSetup {}) = .ok (renderCommands, w')
      ∧ w'.clayStringBuffers.length = 7 := by
  obtain ⟨⟨r, w', _, _, hw', _, _, _, hlen, _⟩, _⟩ :=
    buildLayout_arena sampleEnv (mainSetup {}) (by decide) (by decide) rfl
  exact ⟨r, w', hw', hlen⟩

/-! ### C11 -/

/-- C11 as stated fails: the program derives the identifier of an element from its name
alone. With a hash that tells the indices apart, three children of one element declared
with the same name "A" (at the positions 0, 1, 2) are attached the same identifier, the
hash of "A" with the index 0 and the seed 0. -/
theorem same_name_same_identifier :
    (∀ (name : Clay_String) (i j seed : Nat), i ≠ j →
        indexedEnv.Clay__HashString name i seed ≠ indexedEnv.Clay__HashString name j seed)
      ∧ (threeChildren indexedEnv {}).calls.filterMap Call.attachedId
          = [indexedEnv.Clay__HashString (literalOf (lit "Root")) 0 0,
              indexedEnv.Clay__HashString (literalOf (lit "A")) 0 0,
              indexedEnv.Clay__HashString (literalOf (lit "A")) 0 0,
              indexedEnv.Clay__HashString (literalOf (lit "A")) 0 0]
      ∧ (threeChildren indexedEnv {}).calls.filterMap Call.attachedId = [⟨4⟩, ⟨1⟩, ⟨1⟩, ⟨1⟩] := by
  refine ⟨?_, ?_, ?_⟩
  · intro name i j seed hij h
    have := congrArg Clay_ElementId.id h
    simp only [indexedEnv] at this
    omega
  · decide
  · decide

theorem Call.attachedId_erase (c : Call) : c.erase.attachedId = c.attachedId := by
  cases c with
  | Clay__AttachElementConfig u t => cases u <;> rfl
  | _ => rfl

theorem filterMap_attachedId_map_erase (l : List Call) :
    (l.map Call.erase).filterMap Call.attachedId = l.filterMap Call.attachedId := by
  induction l with
  | nil => rfl
  | cons c l ih => simp only [List.map_cons, List.filterMap_cons, Call.attachedId_erase, ih]

theorem sidebarItemCalls_attachedId (slot i : Nat) (selected hovered : Bool)
    (title : List Char) :
    (sidebarItemCalls slot i selected hovered title).filterMap Call.attachedId = [] := by
  cases selected <;> cases hovered <;>
    simp [sidebarItemCalls, elementCalls, layoutCalls, rectangleCalls, dynamicTextCalls,
      textCalls, Call.attachedId, List.filterMap_cons, List.filterMap_append]

theorem sidebarItemsCalls_attachedId (sel : Nat) :
    ∀ (ds : List Document) (slot i : Nat) (hovered : List Bool),
      (sidebarItemsCalls sel slot i ds hovered).filterMap Call.attachedId = [] := by
  intro ds
  induction ds with
  | nil => intro slot i hovered; rfl
  | cons d ds ih =>
    intro slot i hovered
    simp only [sidebarItemsCalls, List.filterMap_append, ih, sidebarItemCalls_attachedId,
      List.append_nil]

/-- The identifiers attached in one run of `buildLayout`: those of the names of
`elementNames`, each derived with the index 0 and the seed 0. -/
theorem buildLayoutCalls_attachedId (env : Env) (slot sel : Nat) (ds : List Document)
    (d : Document) (hovered : List Bool) :
    (buildLayoutCalls env slot sel ds d hovered).filterMap Call.attachedId
      = (elementNames (fileMenuVisible env)).map
          fun s => env.Clay__HashString (literalOf (lit s)) 0 0 := by
  have hmenu : (fileButtonChildrenCalls env).filterMap Call.attachedId
      = if fileMenuVisible env then [env.Clay__HashString (literalOf (lit "FileMenu")) 0 0]
        else [] := by
    unfold fileButtonChildrenCalls
    cases fileMenuVisible env <;>
      simp [fileMenuCalls, dropdownItemCalls, elementCalls, layoutCalls, rectangleCalls,
        floatingCalls, textCalls, idCall, Call.attachedId, List.filterMap_cons,
        List.filterMap_append]
  have hheader : (headerBarCalls env).filterMap Call.attachedId
      = [env.Clay__HashString (literalOf (lit "HeaderBar")) 0 0,
          env.Clay__HashString (literalOf (lit "FileButton")) 0 0]
        ++ (if fileMenuVisible env then [env.Clay__HashString (literalOf (lit "FileMenu")) 0 0]
            else []) := by
    simp [headerBarCalls, headerButtonCalls, elementCalls, layoutCalls, rectangleCalls,
      textCalls, idCall, Call.attachedId, List.filterMap_cons, List.filterMap_append, hmenu]
  have hlower : (lowerContentCalls env slot sel ds d hovered).filterMap Call.attachedId
      = [env.Clay__HashString (literalOf (lit "LowerContent")) 0 0,
          env.Clay__HashString (literalOf (lit "Sidebar")) 0 0,
          env.Clay__HashString (literalOf (lit "MainContent")) 0 0] := by
    simp [lowerContentCalls, elementCalls, layoutCalls, rectangleCalls, scrollCalls,
      dynamicTextCalls, textCalls, idCall, Call.attachedId, List.filterMap_cons,
      List.filterMap_append, sidebarItemsCalls_attachedId]
  have hall : (buildLayoutCalls env slot sel ds d hovered).filterMap Call.attachedId
      = env.Clay__HashString (literalOf (lit "OuterContainer")) 0 0
        :: ((headerBarCalls env).filterMap Call.attachedId
          ++ (lowerContentCalls env slot sel ds d hovered).filterMap Call.attachedId) := by
    simp [buildLayoutCalls, outerContainerChildrenCalls, elementCalls, layoutCalls,
      rectangleCalls, idCall, Call.attachedId, List.filterMap_cons, List.filterMap_append]
  rw [hall, hheader, hlower]
  cases fileMenuVisible env <;> rfl

theorem buildLayoutCalls_onHover (env : Env) (slot sel : Nat) (ds : List Document)
    (d : Document) (hovered : List Bool) :
    (buildLayoutCalls env slot sel ds d hovered).filterMap Call.onHover
      = ((List.range ds.length).filter fun i => i != sel).map
          fun i : Nat => (HoverFunction.HandleSidebarInteraction, (i : Int)) := by
  have hmenu : (fileButtonChildrenCalls env).filterMap Call.onHover = [] := by
    unfold fileButtonChildrenCalls
    cases fileMenuVisible env <;>
      simp [fileMenuCalls, dropdownItemCalls, elementCalls, layoutCalls, rectangleCalls,
        floatingCalls, textCalls, idCall, Call.onHover, List.filterMap_cons,
        List.filterMap_append]
  have hheader : (headerBarCalls env).filterMap Call.onHover = [] := by
    simp [headerBarCalls, headerButtonCalls, elementCalls, layoutCalls, rectangleCalls,
      textCalls, idCall, Call.onHover, List.filterMap_cons, List.filterMap_append, hmenu]
  have hitems := sidebarItemsCalls_onHover sel ds slot 0 hovered
  rw [← List.range_eq_range'] at hitems
  simp [buildLayoutCalls, outerContainerChildrenCalls, lowerContentCalls, elementCalls,
    layoutCalls, rectangleCalls, scrollCalls, dynamicTextCalls, textCalls, idCall, Call.onHover,
    List.filterMap_cons, List.filterMap_append, hheader, hitems]

theorem onHover_registrations_nodup (n sel : Nat) :
    (((List.range n).filter fun i => i != sel).map
      fun i : Nat => (HoverFunction.HandleSidebarInteraction, (i : Int))).Nodup := by
  have hinj : Function.Injective
      (fun i : Nat => (HoverFunction.HandleSidebarInteraction, (i : Int))) := by
    intro a b h
    have h2 : ((a : Nat) : Int) = (b : Int) := congrArg Prod.snd h
    exact Int.ofNat.inj h2
  exact List.Nodup.map hinj ((List.nodup_range n).filter _)

/-- C11, amended: the identifier the program derives for an element is the hash of its
literal name with the index 0 and the seed 0, whatever the position of the element: for the
same name `attachClayID` attaches the same identifier in any two worlds, so two elements
declared with the same name get the same identifier. In one run of `buildLayout` (from a
world with fewer than 2^31 documents and a selected index below their number) the
identifiers attached are, in the order of the declarations, those of the names of
`elementNames`, which are pairwise different; the items of the sidebar, the only elements
declared in a repetition, are attached no identifier, and they are told apart by the user
data of their `Clay_OnHover` registrations, the indices of the items, which are pairwise
different. -/
theorem buildLayout_identifiers (env : Env) (w : World)
    (hsel : w.selectedDocumentIndex < w.documents.length)
    (hn : w.documents.length < 2 ^ 31) :
    (∀ (str : List Char) (w1 w2 : World),
        (attachClayID env str w1).calls
            = w1.calls ++ [.Clay__AttachId (env.Clay__HashString (literalOf str) 0 0)]
          ∧ (attachClayID env str w1).calls.filterMap Call.attachedId
              = w1.calls.filterMap Call.attachedId ++ [env.Clay__HashString (literalOf str) 0 0]
          ∧ (attachClayID env str w1).calls.getLast?
              = (attachClayID env str w2).calls.getLast?)
      ∧ ∃ renderCommands w' seg,
          buildLayout env w = .ok (renderCommands, w')
          ∧ w'.calls = w.calls ++ seg
          ∧ seg.filterMap Call.attachedId
              = (elementNames
                  (env.Clay_PointerOver (env.Clay_GetElementId (literalOf (lit "FileButton")))
                    || env.Clay_PointerOver
                        (env.Clay_GetElementId (literalOf (lit "FileMenu"))))).map
                  (fun s => env.Clay__HashString (literalOf (lit s)) 0 0)
          ∧ (∀ fileMenu : Bool, (elementNames fileMenu).Nodup)
          ∧ (∀ (slot i : Nat) (selected hov : Bool) (title : List Char),
              (sidebarItemCalls slot i selected hov title).filterMap Call.attachedId = [])
          ∧ seg.filterMap Call.onHover
              = ((List.range w.documents.length).filter
                  fun i => i != w.selectedDocumentIndex).map
                  (fun i : Nat => (HoverFunction.HandleSidebarInteraction, (i : Int)))
          ∧ (seg.filterMap Call.onHover).Nodup := by
  refine ⟨fun str w1 w2 => ?_, ?_⟩
  · simp [attachClayID, Clay__AttachId, World.emit, literalOf, Call.attachedId,
      List.filterMap_append]
  · obtain ⟨d, hd⟩ : ∃ d, w.documents.documents[w.selectedDocumentIndex]? = some d :=
      ⟨_, List.getElem?_eq_getElem hsel⟩
    obtain ⟨hovered, _, w', hw', hsteps⟩ := buildLayout_steps env w d hd hn
    obtain ⟨seg, hseg, hmap⟩ := hsteps.segment
    have hhover : seg.filterMap Call.onHover
        = ((List.range w.documents.length).filter fun i => i != w.selectedDocumentIndex).map
            (fun i : Nat => (HoverFunction.HandleSidebarInteraction, (i : Int))) := by
      rw [← filterMap_onHover_map_erase, hmap, buildLayoutCalls_onHover]
      rfl
    refine ⟨_, w', seg, hw', hseg, ?_, ?_, ?_, hhover, ?_⟩
    · rw [← filterMap_attachedId_map_erase, hmap, buildLayoutCalls_attachedId]
      rfl
    · intro fileMenu
      cases fileMenu <;> decide
    · intro slot i selected hov title
      exact sidebarItemCalls_attachedId slot i selected hov title
    · rw [hhover]
      exact onHover_registrations_nodup _ _

theorem buildLayout_identifiers_witness :
    ∃ renderCommands w' seg,
      buildLayout indexedEnv (mainSetup {}) = .ok (renderCommands, w')
      ∧ w'.calls = (mainSetup {}).calls ++ seg
      ∧ seg.filterMap Call.attachedId
          = (elementNames true).map
              (fun s => indexedEnv.Clay__HashString (literalOf (lit s)) 0 0) := by
  obtain ⟨_, r, w', seg, hw', hseg, hids, _⟩ :=
    buildLayout_identifiers indexedEnv (mainSetup {}) (by decide) (by decide)
  exact ⟨r, w', seg, hw', hseg, hids⟩

/-! ### The run of `buildLayout` up to undefined behaviour -/

theorem Stopped.prepend {a b : List Call} (ha : Decl a) (hb : Stopped b) : Stopped (a ++ b) := by
  cases hb with
  | complete hd => exact .complete (ha.append hd)
  | @inside before config inner hbefore hcfg hin =>
    rw [← List.append_assoc]
    exact .inside (ha.append hbefore) hcfg hin

theorem elementsConfig_open_section (config inner : List Call) (hc : ValidConfig config) :
    elementsConfig (Call.Clay__OpenElement
        :: (config ++ Call.Clay__ElementPostConfiguration :: inner))
      = config.filterMap Call.attached :: elementsConfig inner := by
  simp only [elementsConfig]
  rw [configOf_config config _ hc.1,
    elementsConfig_of_no_open config _ (fun c h => (Call.isConfig_neutral c (hc.1 c h)).1)]
  simp [elementsConfig]

/-- In a stopped declaration every element gets each category at most once and a layout. -/
theorem Stopped.sections_valid {l : List Call} (h : Stopped l) :
    ∀ cats ∈ elementsConfig l, cats.Nodup ∧ Category.layout ∈ cats := by
  induction h with
  | complete hd => exact hd.elementsConfig_valid
  | @inside before config inner hbefore hcfg _ ih =>
    intro cats hmem
    rw [hbefore.elementsConfig_append, elementsConfig_open_section _ _ hcfg] at hmem
    simp only [List.mem_append, List.mem_cons] at hmem
    rcases hmem with hmem | rfl | hmem
    · exact hbefore.elementsConfig_valid _ hmem
    · exact ⟨hcfg.2.1, hcfg.2.2⟩
    · exact ih _ hmem

/-- In a stopped declaration every attach is in the configuration section of an element. -/
theorem Stopped.attached_in_sections {l : List Call} (h : Stopped l) :
    (l.filterMap Call.attached).length = ((elementsConfig l).map List.length).sum := by
  induction h with
  | complete hd => exact hd.attached_length
  | @inside before config inner hbefore hcfg _ ih =>
    rw [hbefore.elementsConfig_append, elementsConfig_open_section _ _ hcfg]
    simp only [List.filterMap_append, List.filterMap_cons, Call.attached, List.length_append,
      List.map_append, List.map_cons, List.sum_append, List.sum_cons]
    rw [hbefore.attached_length, ih]

theorem Declares.weaken {r : Except (Fault × World) World} {w : World} {k k' : Nat}
    (h : Declares r w k) (hk : k ≤ k') : Declares r w k' := by
  refine ⟨fun w' hr => ?_, h.2⟩
  obtain ⟨seg, h1, h2, h3⟩ := h.1 w' hr
  exact ⟨seg, h1, h2, h3.trans hk⟩

/-- A part that ends and whose steps are known declares what its calls declare. -/
theorem Declares.of_steps {w w' : World} {s : List Call} {b : List (List Char)} {k : Nat}
    (h : Steps w w' s b) (hs : Decl s) (hk : w'.CLAY__ELEMENT_DEFINITION_LATCH ≤ k) :
    Declares (.ok w') w k := by
  obtain ⟨seg, hseg, hmap⟩ := h.segment
  refine ⟨fun w1 hr => ?_, fun e wf hr => Except.noConfusion hr⟩
  cases hr
  exact ⟨seg, hseg, by rw [hmap]; exact hs, hk⟩

/-- A fault that is reached before any call. -/
theorem Declares.of_fault (e : Fault) (w : World) (k : Nat) : Declares (.error (e, w)) w k :=
  ⟨fun w' hr => Except.noConfusion hr, fun e' wf hr => by
    cases hr
    exact ⟨[], by simp, .complete .nil⟩⟩

/-- What is declared after complete sibling nodes. -/
theorem Declares.after {r : Except (Fault × World) World} {w w1 : World} {k : Nat}
    {seg1 : List Call} (hc1 : w1.calls = w.calls ++ seg1) (hd1 : Decl (seg1.map Call.erase))
    (h : Declares r w1 k) : Declares r w k := by
  refine ⟨fun w' hr => ?_, fun e wf hr => ?_⟩
  · obtain ⟨seg2, hc2, hd2, hk2⟩ := h.1 w' hr
    refine ⟨seg1 ++ seg2, by rw [hc2, hc1, List.append_assoc], ?_, hk2⟩
    rw [List.map_append]
    exact hd1.append hd2
  · obtain ⟨seg2, hc2, hs2⟩ := h.2 e wf hr
    refine ⟨seg1 ++ seg2, by rw [hc2, hc1, List.append_assoc], ?_⟩
    rw [List.map_append]
    exact hs2.prepend hd1

/-- The `for` idiom around a body that may reach a fault. -/
theorem forLatchTraced_declares {init : World → World}
    {body : World → Except (Fault × World) World} {w : World} {config : List Call} {k : Nat}
    (hinit : Straight w (init w)
      (.Clay__OpenElement :: (config ++ [.Clay__ElementPostConfiguration])) [])
    (hc : ValidConfig config)
    (hbody : Declares (body { init w with CLAY__ELEMENT_DEFINITION_LATCH := 0 })
      { init w with CLAY__ELEMENT_DEFINITION_LATCH := 0 } k)
    (hlt : k < 255) :
    Declares (forLatchTraced init body w) w (k + 1) := by
  obtain ⟨seg0, hseg0, hmap0⟩ := hinit.steps.segment
  cases hb : body { init w with CLAY__ELEMENT_DEFINITION_LATCH := 0 } with
  | error p =>
    obtain ⟨e, wf⟩ := p
    have hres : forLatchTraced init body w = .error (e, wf) := by
      simp [forLatchTraced, forLatchFromTraced, hb]
    rw [hres]
    refine ⟨fun w' hr => Except.noConfusion hr, fun e' wf' hr => ?_⟩
    cases hr
    obtain ⟨seg, hcalls, hs⟩ := hbody.2 e wf hb
    refine ⟨seg0 ++ seg, ?_, ?_⟩
    · rw [hcalls]
      show (init w).calls ++ seg = _
      rw [hseg0, List.append_assoc]
    · rw [List.map_append, hmap0]
      have := Stopped.inside Decl.nil hc hs
      simpa using this
  | ok w2 =>
    obtain ⟨seg, hcalls, hd, hk⟩ := hbody.1 w2 hb
    have h1 : (w2.CLAY__ELEMENT_DEFINITION_LATCH + 1) % 256
        = w2.CLAY__ELEMENT_DEFINITION_LATCH + 1 := Nat.mod_eq_of_lt (by omega)
    have hres : forLatchTraced init body w
        = .ok (Clay__CloseElement
            { w2 with
              CLAY__ELEMENT_DEFINITION_LATCH := w2.CLAY__ELEMENT_DEFINITION_LATCH + 1 }) := by
      simp [forLatchTraced, forLatchFromTraced, hb, h1, Clay__CloseElement, World.emit]
    rw [hres]
    refine ⟨fun w' hr => ?_, fun e wf hr => Except.noConfusion hr⟩
    cases hr
    refine ⟨seg0 ++ (seg ++ [.Clay__CloseElement]), ?_, ?_, by simp; omega⟩
    · simp only [Clay__CloseElement, World.emit]
      rw [hcalls]
      show ((init w).calls ++ seg) ++ [Call.Clay__CloseElement] = _
      rw [hseg0]
      simp
    · rw [List.map_append, hmap0, List.map_append]
      have := Decl.one hc hd
      simpa [elementCalls] using this

theorem sidebarItemChildrenTraced_declares (i : Int) (w : World) :
    Declares (sidebarItemChildrenTraced i w) w w.CLAY__ELEMENT_DEFINITION_LATCH := by
  cases hd : documentAt w i with
  | error e =>
    simp only [sidebarItemChildrenTraced, hd]
    exact Declares.of_fault e w _
  | ok d =>
    simp only [sidebarItemChildrenTraced, hd]
    have h := straight_dynamicText d.title sidebarButtonTextConfig w
    exact Declares.of_steps h.steps (decl_dynamicTextCalls _ _ _) (by rw [h.latch])

theorem selectedItemElementTraced_declares (i : Int) (w : World) :
    Declares (selectedItemElementTraced i w) w 1 :=
  @forLatchTraced_declares _ _ w
    (layoutCalls sidebarButtonLayout
      ++ rectangleCalls { color := ⟨120, 120, 120, 255⟩, cornerRadius := 8 }) 0
    (((straight_OpenElement w).andThen <|
      (straight_storeAndAttachLayout _ _).andThen <|
      (straight_storeAndAttachRectangle _ _).andThen
        (straight_ElementPostConfiguration _)).of_shape (by simp) rfl)
    (validConfig_layout_rectangle _ _)
    (sidebarItemChildrenTraced_declares i _) (by decide)

theorem otherItemElementTraced_declares (env : Env) (i : Int) (w : World) :
    Declares (otherItemElementTraced env i w) w 1 := by
  have hc : ValidConfig
      (layoutCalls sidebarButtonLayout
        ++ ([.Clay_OnHover .HandleSidebarInteraction i]
        ++ (if env.Clay_Hovered
            (w |> Clay__OpenElement |> storeAndAttachLayout sidebarButtonLayout
              |> Clay_OnHover .HandleSidebarInteraction i).calls then
            rectangleCalls { color := ⟨120, 120, 120, 120⟩, cornerRadius := 8 } else []))) := by
    split <;> simp [ValidConfig, layoutCalls, rectangleCalls, Call.isConfig, Call.attached]
  exact @forLatchTraced_declares _ _ w _ 0
    (((straight_OpenElement w).andThen <|
      (straight_storeAndAttachLayout _ _).andThen <|
      (straight_OnHover _ _ _).andThen <|
      (straight_attachRectangleIfHovered env _).andThen
        (straight_ElementPostConfiguration _)).of_shape (by simp) rfl)
    hc (sidebarItemChildrenTraced_declares i _) (by decide)

theorem sidebarItemTraced_declares (env : Env) (i : Int) (w : World) :
    Declares (sidebarItemTraced env i w) w 1 := by
  unfold sidebarItemTraced
  split
  · exact selectedItemElementTraced_declares i w
  · exact otherItemElementTraced_declares env i w

theorem sidebarLoopTraced_declares (env : Env) :
    ∀ (tests : Nat) (i : Int) (w : World),
      Declares (sidebarLoopTraced env tests i w) w (max w.CLAY__ELEMENT_DEFINITION_LATCH 1) := by
  intro tests
  induction tests with
  | zero =>
    intro i w
    exact Declares.of_fault _ w _
  | succ tests ih =>
    intro i w
    unfold sidebarLoopTraced
    by_cases hlt : toUInt32 i < w.documents.length
    · rw [if_pos hlt]
      have hitem := sidebarItemTraced_declares env i w
      cases hr : sidebarItemTraced env i w with
      | error p =>
        obtain ⟨e, wf⟩ := p
        rw [hr] at hitem
        exact ⟨fun w' h => Except.noConfusion h, fun e' wf' h => hitem.2 e' wf' h⟩
      | ok w1 =>
        rw [hr] at hitem
        obtain ⟨seg1, hc1, hd1, hk1⟩ := hitem.1 w1 rfl
        have hmax : max w1.CLAY__ELEMENT_DEFINITION_LATCH 1 = 1 := max_eq_right hk1
        have hrest : Declares (if i = INT_MAX then .error (.signedOverflow, w1)
            else sidebarLoopTraced env tests (i + 1) w1) w1 1 := by
          split
          · exact Declares.of_fault _ w1 _
          · have := ih (i + 1) w1
            rw [hmax] at this
            exact this
        exact (Declares.after hc1 hd1 hrest).weaken (le_max_right _ _)
    · rw [if_neg hlt]
      exact Declares.of_steps (Steps.stay w) Decl.nil (le_max_left _ _)

theorem sidebarElementTraced_declares (env : Env) (w : World) :
    Declares (sidebarElementTraced env w) w 2 :=
  @forLatchTraced_declares _ _ w
    (idCall env "Sidebar" :: (rectangleCalls contentBackgroundConfig
      ++ layoutCalls
          { sizing :=
              { width := { min := 250, max := 250, type := .CLAY__SIZING_TYPE_FIXED }
                height := { min := 0, type := .CLAY__SIZING_TYPE_GROW } }
            padding := ⟨16, 16, 16, 16⟩
            childGap := 8
            layoutDirection := .CLAY_TOP_TO_BOTTOM })) 1
    (((straight_OpenElement w).andThen <|
      (straight_attachClayID env "Sidebar" _).andThen <|
      (straight_storeAndAttachRectangle _ _).andThen <|
      (straight_storeAndAttachLayout _ _).andThen
        (straight_ElementPostConfiguration _)).of_shape (by simp) rfl)
    (by simp [ValidConfig, layoutCalls, rectangleCalls, idCall, Call.isConfig, Call.attached])
    (sidebarLoopTraced_declares env _ 0 _) (by decide)

theorem mainContentChildrenTraced_declares (w : World) :
    Declares (mainContentChildrenTraced w) w w.CLAY__ELEMENT_DEFINITION_LATCH := by
  cases hd : documentAt w w.selectedDocumentIndex with
  | error e =>
    simp only [mainContentChildrenTraced, hd]
    exact Declares.of_fault e w _
  | ok d =>
    have h1 := straight_dynamicText d.title documentTextConfig w
    obtain ⟨seg1, hseg1, hmap1⟩ := h1.steps.segment
    have hd1 : Decl (seg1.map Call.erase) := by rw [hmap1]; exact decl_dynamicTextCalls _ _ _
    cases hd2 : documentAt
        (callWith (toClayString d.title) (fun s => clayTextElement s documentTextConfig) w)
        (callWith (toClayString d.title) (fun s => clayTextElement s documentTextConfig)
          w).selectedDocumentIndex with
    | error e =>
      simp only [mainContentChildrenTraced, hd, hd2]
      exact Declares.after hseg1 hd1 (Declares.of_fault e _ _)
    | ok d2 =>
      simp only [mainContentChildrenTraced, hd, hd2]
      have h2 := straight_dynamicText d2.contents documentTextConfig
        (callWith (toClayString d.title) (fun s => clayTextElement s documentTextConfig) w)
      exact Declares.after hseg1 hd1
        (Declares.of_steps h2.steps (decl_dynamicTextCalls _ _ _)
          (by rw [h2.latch, h1.latch]))

theorem mainContentElementTraced_declares (env : Env) (w : World) :
    Declares (mainContentElementTraced env w) w 1 :=
  @forLatchTraced_declares _ _ w
    (idCall env "MainContent" :: (rectangleCalls contentBackgroundConfig
      ++ (scrollCalls { vertical := true }
      ++ layoutCalls
          { sizing := layoutExpandXY
            padding := ⟨16, 16, 16, 16⟩
            childGap := 16
            layoutDirection := .CLAY_TOP_TO_BOTTOM }))) 0
    (((straight_OpenElement w).andThen <|
      (straight_attachClayID env "MainContent" _).andThen <|
      (straight_storeAndAttachRectangle _ _).andThen <|
      (straight_storeAndAttachScroll _ _).andThen <|
      (straight_storeAndAttachLayout _ _).andThen
        (straight_ElementPostConfiguration _)).of_shape (by simp) rfl)
    (by simp [ValidConfig, layoutCalls, rectangleCalls, scrollCalls, idCall, Call.isConfig,
      Call.attached])
    (mainContentChildrenTraced_declares _) (by decide)

theorem lowerContentChildrenTraced_declares (env : Env) (w : World) :
    Declares (lowerContentChildrenTraced env w) w 1 := by
  have hside := sidebarElementTraced_declares env w
  cases hr : sidebarElementTraced env w with
  | error p =>
    obtain ⟨e, wf⟩ := p
    simp only [lowerContentChildrenTraced, hr]
    rw [hr] at hside
    exact ⟨fun w' h => Except.noConfusion h, fun e' wf' h => hside.2 e' wf' h⟩
  | ok w1 =>
    simp only [lowerContentChildrenTraced, hr]
    rw [hr] at hside
    obtain ⟨seg1, hc1, hd1, _⟩ := hside.1 w1 rfl
    exact Declares.after hc1 hd1 (mainContentElementTraced_declares env w1)

theorem lowerContentElementTraced_declares (env : Env) (w : World) :
    Declares (lowerContentElementTraced env w) w 2 :=
  @forLatchTraced_declares _ _ w
    (idCall env "LowerContent" :: layoutCalls { sizing := layoutExpandXY, childGap := 16 }) 1
    (((straight_OpenElement w).andThen <|
      (straight_attachClayID env "LowerContent" _).andThen <|
      (straight_storeAndAttachLayout _ _).andThen
        (straight_ElementPostConfiguration _)).of_shape (by simp) rfl)
    (by simp [ValidConfig, layoutCalls, idCall, Call.isConfig, Call.attached])
    (lowerContentChildrenTraced_declares env _) (by decide)

theorem outerContainerChildrenTraced_declares (env : Env) (w : World) :
    Declares (outerContainerChildrenTraced env w) w 2 := by
  obtain ⟨w2, h2, s2, _⟩ := headerBarElement_runs env w
  obtain ⟨seg2, hseg2, hmap2⟩ := s2.segment
  unfold outerContainerChildrenTraced
  simp only [h2]
  exact Declares.after hseg2 (by rw [hmap2]; exact decl_headerBarCalls env)
    (lowerContentElementTraced_declares env w2)

/-! ### The traced run and the run -/

theorem forLatchFromTraced_forget {bodyT : World → Except (Fault × World) World}
    {body : World → Except Fault World}
    (h : ∀ w, (bodyT w).mapError Prod.fst = body w) :
    ∀ (tests : Nat) (w : World),
      (forLatchFromTraced bodyT tests w).mapError Prod.fst = forLatchFrom body tests w := by
  intro tests
  induction tests with
  | zero => intro w; rfl
  | succ tests ih =>
    intro w
    unfold forLatchFromTraced forLatchFrom
    by_cases hl : w.CLAY__ELEMENT_DEFINITION_LATCH < 1
    · rw [if_pos hl, if_pos hl]
      have hw := h w
      cases hb : bodyT w with
      | error p =>
        rw [hb] at hw
        simp only [← hw]
        rfl
      | ok w1 =>
        rw [hb] at hw
        simp only [← hw]
        exact ih _
    · rw [if_neg hl, if_neg hl]
      rfl

theorem forLatchTraced_forget {init : World → World}
    {bodyT : World → Except (Fault × World) World} {body : World → Except Fault World}
    (h : ∀ w, (bodyT w).mapError Prod.fst = body w) (w : World) :
    (forLatchTraced init bodyT w).mapError Prod.fst = forLatch init body w :=
  forLatchFromTraced_forget h 2 _

theorem sidebarItemChildrenTraced_forget (i : Int) (w : World) :
    (sidebarItemChildrenTraced i w).mapError Prod.fst = sidebarItemChildren i w := by
  unfold sidebarItemChildrenTraced sidebarItemChildren
  cases documentAt w i <;> rfl

theorem sidebarItemTraced_forget (env : Env) (i : Int) (w : World) :
    (sidebarItemTraced env i w).mapError Prod.fst = sidebarItem env i w := by
  unfold sidebarItemTraced sidebarItem
  split
  · exact forLatchTraced_forget (sidebarItemChildrenTraced_forget i) w
  · exact forLatchTraced_forget (sidebarItemChildrenTraced_forget i) w

theorem sidebarLoopTraced_forget (env : Env) :
    ∀ (tests : Nat) (i : Int) (w : World),
      (sidebarLoopTraced env tests i w).mapError Prod.fst = sidebarLoop env tests i w := by
  intro tests
  induction tests with
  | zero => intro i w; rfl
  | succ tests ih =>
    intro i w
    unfold sidebarLoopTraced sidebarLoop
    by_cases hlt : toUInt32 i < w.documents.length
    · rw [if_pos hlt, if_pos hlt]
      have hw := sidebarItemTraced_forget env i w
      cases hb : sidebarItemTraced env i w with
      | error p =>
        rw [hb] at hw
        simp only [← hw]
        rfl
      | ok w1 =>
        rw [hb] at hw
        simp only [← hw]
        show Except.mapError Prod.fst (if i = INT_MAX then _ else _) = (if i = INT_MAX then _ else _)
        split
        · rfl
        · exact ih _ _
    · rw [if_neg hlt, if_neg hlt]
      rfl

theorem sidebarElementTraced_forget (env : Env) (w : World) :
    (sidebarElementTraced env w).mapError Prod.fst = sidebarElement env w :=
  forLatchTraced_forget (fun w0 => sidebarLoopTraced_forget env _ 0 w0) w

theorem mainContentChildrenTraced_forget (w : World) :
    (mainContentChildrenTraced w).mapError Prod.fst = mainContentChildren w := by
  unfold mainContentChildrenTraced mainContentChildren
  cases documentAt w w.selectedDocumentIndex with
  | error e => rfl
  | ok d =>
    simp only []
    cases documentAt
        (callWith (toClayString d.title) (fun s => clayTextElement s documentTextConfig) w)
        (callWith (toClayString d.title) (fun s => clayTextElement s documentTextConfig)
          w).selectedDocumentIndex <;> rfl

theorem mainContentElementTraced_forget (env : Env) (w : World) :
    (mainContentElementTraced env w).mapError Prod.fst = mainContentElement env w :=
  forLatchTraced_forget mainContentChildrenTraced_forget w

theorem lowerContentChildrenTraced_forget (env : Env) (w : World) :
    (lowerContentChildrenTraced env w).mapError Prod.fst = lowerContentChildren env w := by
  unfold lowerContentChildrenTraced lowerContentChildren
  have hw := sidebarElementTraced_forget env w
  cases hb : sidebarElementTraced env w with
  | error p =>
    rw [hb] at hw
    simp only [← hw]
    rfl
  | ok w1 =>
    rw [hb] at hw
    simp only [← hw]
    exact mainContentElementTraced_forget env w1

theorem lowerContentElementTraced_forget (env : Env) (w : World) :
    (lowerContentElementTraced env w).mapError Prod.fst = lowerContentElement env w :=
  forLatchTraced_forget (lowerContentChildrenTraced_forget env) w

theorem outerContainerChildrenTraced_forget (env : Env) (w : World) :
    (outerContainerChildrenTraced env w).mapError Prod.fst = outerContainerChildren env w := by
  unfold outerContainerChildrenTraced outerContainerChildren
  cases headerBarElement env w with
  | error e => rfl
  | ok w1 => exact lowerContentElementTraced_forget env w1

/-- The traced run is the run: it ends when `buildLayout` ends, with the same result, and
it reaches a fault when `buildLayout` does, the same one. -/
theorem buildLayoutTraced_forget (env : Env) (w : World) :
    (buildLayoutTraced env w).mapError Prod.fst = buildLayout env w := by
  unfold buildLayoutTraced buildLayout
  have hw := outerContainerChildrenTraced_forget env
    (w |> Clay_BeginLayout
      |> Clay__OpenElement
      |> attachClayID env (lit "OuterContainer")
      |> storeAndAttachRectangle { color := ⟨43, 41, 51, 255⟩ }
      |> storeAndAttachLayout
          { sizing := layoutExpandXY
            padding := ⟨16, 16, 16, 16⟩
            childGap := 16
            layoutDirection := .CLAY_TOP_TO_BOTTOM }
      |> Clay__ElementPostConfiguration)
  cases hb : outerContainerChildrenTraced env
      (w |> Clay_BeginLayout
        |> Clay__OpenElement
        |> attachClayID env (lit "OuterContainer")
        |> storeAndAttachRectangle { color := ⟨43, 41, 51, 255⟩ }
        |> storeAndAttachLayout
            { sizing := layoutExpandXY
              padding := ⟨16, 16, 16, 16⟩
              childGap := 16
              layoutDirection := .CLAY_TOP_TO_BOTTOM }
        |> Clay__ElementPostConfiguration) with
  | error p =>
    rw [hb] at hw
    simp only [← hw]
    rfl
  | ok w1 =>
    rw [hb] at hw
    simp only [← hw]
    rfl

/-! ### C9 -/

/-- The configuration sections of calls that have those of a stopped declaration. -/
theorem sections_of_stopped {seg X : List Call} (hs : Stopped X)
    (h1 : elementsConfig seg = elementsConfig X)
    (h2 : seg.filterMap Call.attached = X.filterMap Call.attached) :
    (∀ cats ∈ elementsConfig seg,
        cats.count .layout = 1 ∧ cats.count .rectangle ≤ 1
          ∧ cats.count .floating ≤ 1 ∧ cats.count .scroll ≤ 1)
      ∧ (seg.filterMap Call.attached).length = ((elementsConfig seg).map List.length).sum := by
  refine ⟨fun cats hmem => ?_, by rw [h2, h1]; exact hs.attached_in_sections⟩
  rw [h1] at hmem
  obtain ⟨hnodup, hlayout⟩ := hs.sections_valid cats hmem
  have hle := fun a => List.nodup_iff_count_le_one.mp hnodup a
  refine ⟨?_, hle _, hle _, hle _⟩
  have := List.count_pos_iff.mpr hlayout
  have := hle Category.layout
  omega

/-- The calls of a run from the world `w0` in which the "OuterContainer" element has been
opened and configured with `config`. -/
theorem layoutTraced_sections (env : Env) (w w0 : World) (seg0 config : List Call)
    (hseg0 : w0.calls = w.calls ++ seg0)
    (hmap0 : seg0.map Call.erase
      = .Clay_BeginLayout :: .Clay__OpenElement :: (config ++ [.Clay__ElementPostConfiguration]))
    (hc : ValidConfig config) :
    ∃ wEnd seg,
      ((∃ renderCommands,
          (match outerContainerChildrenTraced env w0 with
            | .error e => .error e
            | .ok w1 => .ok (Clay_EndLayout env (Clay__CloseElement w1)))
            = (.ok (renderCommands, wEnd) :
                Except (Fault × World) (Clay_RenderCommandArray × World)))
        ∨ (∃ e,
          (match outerContainerChildrenTraced env w0 with
            | .error e => .error e
            | .ok w1 => .ok (Clay_EndLayout env (Clay__CloseElement w1)))
            = (.error (e, wEnd) :
                Except (Fault × World) (Clay_RenderCommandArray × World))))
      ∧ wEnd.calls = w.calls ++ seg
      ∧ (∀ cats ∈ elementsConfig seg,
          cats.count .layout = 1 ∧ cats.count .rectangle ≤ 1
            ∧ cats.count .floating ≤ 1 ∧ cats.count .scroll ≤ 1)
      ∧ (seg.filterMap Call.attached).length = ((elementsConfig seg).map List.length).sum := by
  have hchildren := outerContainerChildrenTraced_declares env w0
  cases hb : outerContainerChildrenTraced env w0 with
  | error p =>
    obtain ⟨e, wf⟩ := p
    obtain ⟨segc, hcalls, hstop⟩ := hchildren.2 e wf hb
    have hX : Stopped (Call.Clay__OpenElement
        :: (config ++ Call.Clay__ElementPostConfiguration :: segc.map Call.erase)) := by
      have := Stopped.inside Decl.nil hc hstop
      simpa using this
    have hmap : (seg0 ++ segc).map Call.erase
        = Call.Clay_BeginLayout :: Call.Clay__OpenElement
          :: (config ++ Call.Clay__ElementPostConfiguration :: segc.map Call.erase) := by
      rw [List.map_append, hmap0]
      simp
    obtain ⟨hvalid, hlen⟩ := @sections_of_stopped (seg0 ++ segc) _ hX
      (by rw [← elementsConfig_map_erase, hmap]; rfl)
      (by rw [← attached_map_erase, hmap]; rfl)
    exact ⟨wf, seg0 ++ segc, Or.inr ⟨e, rfl⟩, by rw [hcalls, hseg0, List.append_assoc],
      hvalid, hlen⟩
  | ok w1 =>
    obtain ⟨segc, hcalls, hdecl, _⟩ := hchildren.1 w1 hb
    have hY : Decl (elementCalls config (segc.map Call.erase)) := Decl.one hc hdecl
    have hmap : (seg0 ++ (segc ++ [Call.Clay__CloseElement, Call.Clay_EndLayout])).map Call.erase
        = Call.Clay_BeginLayout
          :: (elementCalls config (segc.map Call.erase) ++ [Call.Clay_EndLayout]) := by
      rw [List.map_append, hmap0]
      simp [elementCalls]
    obtain ⟨hvalid, hlen⟩ := @sections_of_stopped
      (seg0 ++ (segc ++ [Call.Clay__CloseElement, Call.Clay_EndLayout])) _
      (Stopped.complete hY)
      (by
        rw [← elementsConfig_map_erase, hmap]
        show elementsConfig (elementCalls _ _ ++ [Call.Clay_EndLayout]) = _
        rw [hY.elementsConfig_append]
        simp [elementsConfig])
      (by
        rw [← attached_map_erase, hmap]
        simp [Call.attached])
    refine ⟨(Clay_EndLayout env (Clay__CloseElement w1)).2,
      seg0 ++ (segc ++ [Call.Clay__CloseElement, Call.Clay_EndLayout]),
      Or.inl ⟨(Clay_EndLayout env (Clay__CloseElement w1)).1, rfl⟩, ?_, hvalid, hlen⟩
    simp only [Clay_EndLayout, Clay__CloseElement, World.emit]
    rw [hcalls, hseg0]
    simp

/-- C9: for every application state (any documents, any `selectedDocumentIndex`, any answers
of the library), in the calls `seg` that one run of `buildLayout` makes, up to its end or up
to the point where it reaches undefined behaviour (`buildLayoutTraced`, which ends and
faults as `buildLayout` does), every element (one for each `Clay__OpenElement`, the ones of
`RenderHeaderButton` and `RenderDropdownMenuItem` included) is attached, between its open
and its post-configuration, exactly one layout record and at most one rectangle, floating
and scroll record, and every attach of the run is one of those, so no element is given a
second record of a category. -/
theorem buildLayoutTraced_one_record_per_category (env : Env) (w : World) :
    (buildLayoutTraced env w).mapError Prod.fst = buildLayout env w
      ∧ ∃ wEnd seg,
          ((∃ renderCommands, buildLayoutTraced env w = .ok (renderCommands, wEnd)
              ∧ buildLayout env w = .ok (renderCommands, wEnd))
            ∨ (∃ e, buildLayoutTraced env w = .error (e, wEnd) ∧ buildLayout env w = .error e))
          ∧ wEnd.calls = w.calls ++ seg
          ∧ (∀ cats ∈ elementsConfig seg,
              cats.count .layout = 1 ∧ cats.count .rectangle ≤ 1
                ∧ cats.count .floating ≤ 1 ∧ cats.count .scroll ≤ 1)
          ∧ (elementsConfig seg).length = opens seg
          ∧ (seg.filterMap Call.attached).length
              = ((elementsConfig seg).map List.length).sum := by
  have hforget := buildLayoutTraced_forget env w
  refine ⟨hforget, ?_⟩
  have hinit : Straight w
      (w |> Clay_BeginLayout
        |> Clay__OpenElement
        |> attachClayID env (lit "OuterContainer")
        |> storeAndAttachRectangle { color := ⟨43, 41, 51, 255⟩ }
        |> storeAndAttachLayout
            { sizing := layoutExpandXY
              padding := ⟨16, 16, 16, 16⟩
              childGap := 16
              layoutDirection := .CLAY_TOP_TO_BOTTOM }
        |> Clay__ElementPostConfiguration)
      (.Clay_BeginLayout :: .Clay__OpenElement
        :: ((idCall env "OuterContainer" :: (rectangleCalls { color := ⟨43, 41, 51, 255⟩ }
          ++ layoutCalls
              { sizing := layoutExpandXY
                padding := ⟨16, 16, 16, 16⟩
                childGap := 16
                layoutDirection := .CLAY_TOP_TO_BOTTOM }))
          ++ [.Clay__ElementPostConfiguration])) [] :=
    ((straight_BeginLayout w).andThen <|
      (straight_OpenElement _).andThen <|
      (straight_attachClayID env "OuterContainer" _).andThen <|
      (straight_storeAndAttachRectangle _ _).andThen <|
      (straight_storeAndAttachLayout _ _).andThen
        (straight_ElementPostConfiguration _)).of_shape (by simp) rfl
  obtain ⟨seg0, hseg0, hmap0⟩ := hinit.steps.segment
  obtain ⟨wEnd, seg, hres, hcalls, hvalid, hlen⟩ := layoutTraced_sections env w _ seg0 _ hseg0
    hmap0 (by simp [ValidConfig, layoutCalls, rectangleCalls, idCall, Call.isConfig,
      Call.attached])
  have hdef : ∀ r, (match outerContainerChildrenTraced env
        (w |> Clay_BeginLayout
          |> Clay__OpenElement
          |> attachClayID env (lit "OuterContainer")
          |> storeAndAttachRectangle { color := ⟨43, 41, 51, 255⟩ }
          |> storeAndAttachLayout
              { sizing := layoutExpandXY
                padding := ⟨16, 16, 16, 16⟩
                childGap := 16
                layoutDirection := .CLAY_TOP_TO_BOTTOM }
          |> Clay__ElementPostConfiguration) with
        | .error e => .error e
        | .ok w1 => .ok (Clay_EndLayout env (Clay__CloseElement w1))) = r →
      buildLayoutTraced env w = r := fun r h => h
  refine ⟨wEnd, seg, ?_, hcalls, hvalid, elementsConfig_length _, hlen⟩
  rcases hres with ⟨r, hr⟩ | ⟨e, he⟩
  · have h := hdef _ hr
    exact Or.inl ⟨r, h, by rw [← hforget, h]; rfl⟩
  · have h := hdef _ he
    exact Or.inr ⟨e, h, by rw [← hforget, h]; rfl⟩

/-- The run from the initial values of the globals (no documents, `selectedDocumentIndex`
0): it reaches the read of `documents.documents[0]` outside the array after 125 calls, with
16 elements opened, all with their post-configuration, and 13 of them closed. -/
theorem buildLayoutTraced_without_documents :
    ∃ wf, buildLayoutTraced sampleEnv {} = .error (.outOfBounds, wf)
      ∧ wf.calls.length = 125 ∧ opens wf.calls = 16 ∧ closes wf.calls = 13
      ∧ wf.calls.count .Clay__ElementPostConfiguration = 16 := by
  have h1 : (match buildLayoutTraced sampleEnv {} with
      | .error (.outOfBounds, wf) =>
        decide (wf.calls.length = 125) && decide (opens wf.calls = 16)
          && decide (closes wf.calls = 13)
          && decide (wf.calls.count .Clay__ElementPostConfiguration = 16)
      | _ => false) = true := by
    set_option maxRecDepth 100000 in decide
  cases h : buildLayoutTraced sampleEnv {} with
  | ok r => rw [h] at h1; exact Bool.noConfusion h1
  | error p =>
    obtain ⟨e, wf⟩ := p
    rw [h] at h1
    cases e with
    | outOfBounds =>
      simp only [Bool.and_eq_true, decide_eq_true_eq] at h1
      exact ⟨wf, rfl, h1.1.1.1, h1.1.1.2, h1.1.2, h1.2⟩
    | signedOverflow => exact Bool.noConfusion h1
    | loopBound => exact Bool.noConfusion h1

end ClayDemo
